import Mathlib

/-!
Verification of the podofilo_v2 rendering core.

Shallow embedding of the flow-layout engine (`VirtualLayout.update`), the
LRU page cache (`PageCache`), the fast-zoom thumbnail lookup
(`get_page_thumbnail_fast`), the virtual grid's multi-level image cache,
smart-redraw controller, asynchronous render pipeline, box reordering and
click handling, together with theorems checking the behavioural properties
stated for them.
-/

namespace Podofilo

/-- Python-dict insertion on an association list: an existing key keeps its
position in the list and only its value is replaced, a fresh key is appended
at the end (Python dicts are insertion ordered). -/
def dinsert {α : Type} (k : Nat) (v : α) : List (Nat × α) → List (Nat × α)
  | [] => [(k, v)]
  | (k2, v2) :: rest => if k2 = k then (k, v) :: rest else (k2, v2) :: dinsert k v rest

/-- Lookup in an association list with `Nat` keys (the first binding wins, as
in a Python dict with unique keys). -/
def dlookup {α : Type} (k : Nat) : List (Nat × α) → Option α
  | [] => none
  | (k2, v2) :: rest => if k2 = k then some v2 else dlookup k rest

/-- String-keyed variant of `dinsert`. -/
def sinsert {α : Type} (k : String) (v : α) : List (String × α) → List (String × α)
  | [] => [(k, v)]
  | (k2, v2) :: rest => if k2 = k then (k, v) :: rest else (k2, v2) :: sinsert k v rest

/-- String-keyed variant of `dlookup`. -/
def slookup {α : Type} (k : String) : List (String × α) → Option α
  | [] => none
  | (k2, v2) :: rest => if k2 = k then some v2 else slookup k rest

/-- Removal of the binding of a key from an association list (Python
`del d[k]`; keys are unique so removing the first binding is removal of the
binding). -/
def serase {α : Type} (k : String) : List (String × α) → List (String × α)
  | [] => []
  | (k2, v2) :: rest => if k2 = k then rest else (k2, v2) :: serase k rest

end Podofilo

namespace Podofilo.Layout

/-- The fields of `src/pdf/structure.py`'s `Section` that the layout reads:
`start_page` and `page_count`.  `end_page` is the derived property
`start_page + page_count`. -/
structure Section where
  start_page : Nat
  page_count : Nat
deriving DecidableEq, Repr

def Section.end_page (s : Section) : Nat := s.start_page + s.page_count

/-- `SEPSIZE`: the fixed 3px inter-item gap (`self.sepsize = 3`). -/
def sepsize : Nat := 3

/-- The dict comprehension `{s.start_page: i for i, s in enumerate(sections)}`:
when two sections share a `start_page` the later index wins, hence
`getLast?` over the matching enumeration entries. -/
def sectionStarts (sections : List Section) (p : Nat) : Option Nat :=
  (((sections.enum).filter (fun si => si.2.start_page = p)).map (fun si => si.1)).getLast?

/-- Loop state of the flow-layout walk in `VirtualLayout.update`. -/
structure FlowSt where
  x : Nat
  y : Nat
  row_height : Nat
  positions : List (Nat × Nat × Nat × Nat)
  row_heights : List (Nat × Nat)
  section_bounds : List (Nat × (Nat × Nat))
  header_coords : List (Nat × (Nat × Nat × Nat))
  cur_sec_start_y : Nat
  active_sec : Nat
deriving DecidableEq, Repr

/-- Section-switch prologue of the loop body: `if i in section_starts and
i > 0:` followed by the optional forced row break (non-continuous mode), the
bounds commit for the section that ended and for skipped sections, and the
switch of the active section. -/
def sectionSwitch (continuous : Bool) (secStarts : Nat → Option Nat)
    (i : Nat) (st : FlowSt) : FlowSt :=
  match secStarts i with
  | none => st
  | some newIdx =>
    if i > 0 ∧ newIdx ≠ st.active_sec then
      let st1 :=
        if ¬continuous ∧ (st.row_height > 0 ∨ st.x > 0) then
          let st0 :=
            if st.row_height > 0 then
              { st with row_heights := dinsert st.y st.row_height st.row_heights,
                        y := st.y + st.row_height }
            else
              -- `elif x > 0:` branch: `y += row_height` with `row_height = 0`
              { st with y := st.y + st.row_height }
          { st0 with x := 0, row_height := 0 }
        else st
      let st2 := { st1 with
        section_bounds := dinsert st1.active_sec (st1.cur_sec_start_y, st1.y) st1.section_bounds }
      -- `for skipped_idx in range(active_section_idx + 1, new_section_idx)`
      let st3 := { st2 with
        section_bounds := (List.range' (st2.active_sec + 1) (newIdx - (st2.active_sec + 1))).foldl
          (fun sb k => dinsert k (st2.y, st2.y) sb) st2.section_bounds }
      { st3 with cur_sec_start_y := st3.y, active_sec := newIdx }
    else st

/-- One iteration of the item loop of `VirtualLayout.update` for item `i` of
size `(w, h)`. -/
def flowStep (width : Nat) (continuous : Bool) (secStarts : Nat → Option Nat)
    (st : FlowSt) (i : Nat) (wh : Nat × Nat) : FlowSt :=
  let w := wh.1
  let h := wh.2
  let st := sectionSwitch continuous secStarts i st
  let item_w := w + sepsize
  let item_h := h + sepsize
  let st :=
    if st.x > 0 ∧ st.x + item_w > width then
      { st with row_heights := dinsert st.y st.row_height st.row_heights,
                y := st.y + st.row_height, x := 0, row_height := 0 }
    else st
  let st := { st with positions := st.positions ++ [(st.x, st.y, w, h)] }
  let st :=
    match secStarts i with
    | some secIdx => { st with header_coords := dinsert secIdx (st.x, st.y, 0) st.header_coords }
    | none => st
  { st with x := st.x + item_w, row_height := max st.row_height item_h }

/-- Result record of `VirtualLayout.update` (the fields the method assigns on
`self`). -/
structure LayoutResult where
  width : Nat
  positions : List (Nat × Nat × Nat × Nat)
  row_heights : List (Nat × Nat)
  total_height : Nat
  section_bounds : List (Nat × (Nat × Nat))
  section_header_coords : List (Nat × (Nat × Nat × Nat))
deriving DecidableEq, Repr

/-- The continuous-mode post-pass of `update` for one header entry: scan the
items of the section that lie on the header's row and return the header's
effective width `current_max_x - sx`. -/
def headerLineWidth (width : Nat) (positions : List (Nat × Nat × Nat × Nat))
    (sec : Section) (sx sy : Nat) : Nat :=
  if sec.start_page < positions.length then
    -- `for p_idx in range(start_item_idx, min(end_page, len(self.positions)))`
    -- with `break` on the first item whose y differs from the header's row
    let seg := (positions.drop sec.start_page).take
      (min sec.end_page positions.length - sec.start_page)
    let pref := seg.takeWhile (fun p => p.2.1 = sy)
    let current_max_x := ((pref.getLast?).map (fun p => p.1 + p.2.2.1)).getD sx
    current_max_x - sx
  else
    width - sx

/-- Shallow embedding of `VirtualLayout.update`
(`src/ui/virtual_grid.py:271-409`): flow layout of `item_sizes` into rows of
at most `available_width` pixels, with the section bookkeeping. -/
def update (item_sizes : List (Nat × Nat)) (available_width : Int)
    (sections : List Section) (continuous : Bool) : LayoutResult :=
  let width := (max 1 available_width).toNat
  if item_sizes.isEmpty then
    { width := width, positions := [], row_heights := [], total_height := 0,
      section_bounds := [], section_header_coords := [] }
  else
    let secStarts := sectionStarts sections
    -- pre-loop seeding of the active section and its header entry
    let active0 : Nat :=
      if sections ≠ [] then
        match secStarts 0 with
        | some a => a
        | none => 0
      else 0
    let header0 : List (Nat × (Nat × Nat × Nat)) :=
      if sections ≠ [] ∧ (secStarts 0).isSome then [(active0, (0, 0, 0))] else []
    let header0 :=
      if sections ≠ [] ∧ ¬continuous ∧ dlookup active0 header0 = none then
        dinsert active0 (0, 0, 0) header0
      else header0
    let st0 : FlowSt :=
      { x := 0, y := 0, row_height := 0, positions := [], row_heights := [],
        section_bounds := [], header_coords := header0,
        cur_sec_start_y := 0, active_sec := active0 }
    let stF := (item_sizes.enum).foldl
      (fun st iw => flowStep width continuous secStarts st iw.1 iw.2) st0
    -- `if row_height > 0:` final row commit
    let row_heights := if stF.row_height > 0 then
        dinsert stF.y stF.row_height stF.row_heights else stF.row_heights
    let yE := if stF.row_height > 0 then stF.y + stF.row_height else stF.y
    -- last section bounds plus trailing empty sections
    let bounds :=
      if sections ≠ [] then
        let b1 := dinsert stF.active_sec (stF.cur_sec_start_y, yE) stF.section_bounds
        (List.range' (stF.active_sec + 1) (sections.length - (stF.active_sec + 1))).foldl
          (fun sb k => dinsert k (yE, yE) sb) b1
      else stF.section_bounds
    -- continuous-mode header width pass
    let headers :=
      if sections ≠ [] ∧ continuous then
        stF.header_coords.map (fun kv =>
          let sec := sections.getD kv.1 { start_page := 0, page_count := 0 }
          (kv.1, (kv.2.1, kv.2.2.1,
            headerLineWidth width stF.positions sec kv.2.1 kv.2.2.1)))
      else stF.header_coords
    { width := width, positions := stF.positions, row_heights := row_heights,
      total_height := yE, section_bounds := bounds,
      section_header_coords := headers }

/-- Shallow embedding of `VirtualLayout.get_visible_range`
(`src/ui/virtual_grid.py:424-444`). -/
def get_visible_range (positions : List (Nat × Nat × Nat × Nat))
    (scroll_y view_height : Int) : Nat × Nat :=
  if positions.isEmpty then (0, 0)
  else
    let visible_top := scroll_y
    let visible_bottom := scroll_y + view_height
    let r := (positions.enum).foldl
      (fun (acc : Option Nat × Option Nat) ip =>
        let y : Int := ip.2.2.1
        let item_bottom : Int := ip.2.2.1 + ip.2.2.2.2
        if item_bottom ≥ visible_top ∧ y ≤ visible_bottom then
          (if acc.1 = none then some ip.1 else acc.1, some (ip.1 + 1))
        else acc)
      (none, none)
    (r.1.getD 0, r.2.getD 0)

lemma sectionSwitch_positions (continuous : Bool) (secStarts : Nat → Option Nat)
    (i : Nat) (st : FlowSt) :
    (sectionSwitch continuous secStarts i st).positions = st.positions := by
  unfold sectionSwitch
  cases secStarts i with
  | none => rfl
  | some newIdx =>
    dsimp only
    split
    · split
      · split <;> rfl
      · rfl
    · rfl

lemma sectionSwitch_none (continuous : Bool) (i : Nat) (st : FlowSt) :
    sectionSwitch continuous (fun _ => none) i st = st := rfl

lemma sectionStarts_nil (p : Nat) : sectionStarts [] p = none := rfl

lemma flowStep_positions_length (width : Nat) (continuous : Bool)
    (secStarts : Nat → Option Nat) (st : FlowSt) (i : Nat) (wh : Nat × Nat) :
    (flowStep width continuous secStarts st i wh).positions.length
      = st.positions.length + 1 := by
  unfold flowStep
  cases h : secStarts i <;>
    by_cases h2 : (sectionSwitch continuous secStarts i st).x > 0 ∧
        (sectionSwitch continuous secStarts i st).x + (wh.1 + sepsize) > width <;>
      simp [h, h2, sectionSwitch_positions]

lemma foldl_flowStep_positions_length (width : Nat) (continuous : Bool)
    (secStarts : Nat → Option Nat) (l : List (Nat × (Nat × Nat))) (st : FlowSt) :
    ((l.foldl (fun s iw => flowStep width continuous secStarts s iw.1 iw.2) st).positions).length
      = st.positions.length + l.length := by
  induction l generalizing st with
  | nil => simp
  | cons a t ih =>
    simp only [List.foldl_cons, ih, flowStep_positions_length, List.length_cons]
    omega

/-- C1: walking items in order, an item is appended to the current row while
`x + item_width ≤ container_width` (the item width including the fixed 3px
gap), otherwise the row is closed committing `row_height` and a new row
starts at `x = 0`; in particular for 10 items of width 100 (gap 3) and
container width 750, exactly 7 items land on the first row and item index 7
is the first item of row 2, at `x = 0` and `y` equal to the first row's
height. -/
theorem C1_flow_row_packing :
    (∀ (width : Nat) (st : FlowSt) (i w h : Nat),
      (st.x + (w + sepsize) ≤ width →
        flowStep width false (fun _ => none) st i (w, h) =
          { st with positions := st.positions ++ [(st.x, st.y, w, h)],
                    x := st.x + (w + sepsize),
                    row_height := max st.row_height (h + sepsize) }) ∧
      (st.x > 0 → st.x + (w + sepsize) > width →
        flowStep width false (fun _ => none) st i (w, h) =
          { st with positions := st.positions ++ [(0, st.y + st.row_height, w, h)],
                    row_heights := dinsert st.y st.row_height st.row_heights,
                    y := st.y + st.row_height,
                    x := w + sepsize,
                    row_height := h + sepsize })) ∧
    ((update (List.replicate 10 (100, 100)) 750 [] false).positions.filter
        (fun p => p.2.1 = 0)).length = 7 ∧
    (update (List.replicate 10 (100, 100)) 750 [] false).positions.get? 7 =
      some (0, 103, 100, 100) ∧
    dlookup 0 (update (List.replicate 10 (100, 100)) 750 [] false).row_heights = some 103 := by
  refine ⟨fun width st i w h => ⟨fun hfit => ?_, fun hx hover => ?_⟩, by decide, by decide, by decide⟩
  · have hguard : ¬(st.x > 0 ∧ st.x + (w + sepsize) > width) := by
      rintro ⟨-, h2⟩; omega
    simp [flowStep, sectionSwitch_none, hguard]
  · have hguard : st.x > 0 ∧ st.x + (w + sepsize) > width := ⟨hx, hover⟩
    simp [flowStep, sectionSwitch_none, hguard]

/-- Witness for C1 at the concrete step that ends the first row of
scenario A: state just before item 7, `x = 721`, row height 103. -/
theorem C1_flow_row_packing_witness :
    flowStep 750 false (fun _ => none)
        { x := 721, y := 0, row_height := 103, positions := [], row_heights := [],
          section_bounds := [], header_coords := [], cur_sec_start_y := 0, active_sec := 0 }
        7 (100, 100) =
      { x := 103, y := 103, row_height := 103, positions := [(0, 103, 100, 100)],
        row_heights := [(0, 103)], section_bounds := [], header_coords := [],
        cur_sec_start_y := 0, active_sec := 0 } := by
  have h := (C1_flow_row_packing.1 750
    { x := 721, y := 0, row_height := 103, positions := [], row_heights := [],
      section_bounds := [], header_coords := [], cur_sec_start_y := 0, active_sec := 0 }
    7 100 100).2 (by decide) (by decide)
  exact h

/-- C8: the layout computation is total on degenerate input — every item
receives exactly one position; a container width at most 0 is treated as
width 1; the empty item list yields `total_height = 0` and no positions; an
item placed at `x = 0` is never wrapped even when wider than the container,
and a single item wider than the container sits alone at `(0, 0)`. -/
theorem C8_layout_totality :
    (∀ (items : List (Nat × Nat)) (avail : Int) (sections : List Section) (c : Bool),
      (update items avail sections c).positions.length = items.length) ∧
    (∀ (items : List (Nat × Nat)) (avail : Int) (sections : List Section) (c : Bool),
      avail ≤ 0 → update items avail sections c = update items 1 sections c) ∧
    (∀ (avail : Int) (sections : List Section) (c : Bool),
      (update [] avail sections c).positions = [] ∧
      (update [] avail sections c).total_height = 0) ∧
    (∀ (width : Nat) (cont : Bool) (st : FlowSt) (i w h : Nat), st.x = 0 →
      (flowStep width cont (fun _ => none) st i (w, h)).positions
        = st.positions ++ [(0, st.y, w, h)]) ∧
    (∀ (w h : Nat) (avail : Int), (max (1 : Int) avail).toNat < w + sepsize →
      (update [(w, h)] avail [] false).positions = [(0, 0, w, h)] ∧
      (update [(w, h)] avail [] false).total_height = h + sepsize) := by
  refine ⟨?_, ?_, ?_, ?_, ?_⟩
  · intro items avail sections c
    unfold update
    by_cases hemp : items.isEmpty
    · simp [hemp, List.isEmpty_iff.mp hemp]
    · simp only [hemp, if_false, Bool.false_eq_true]
      rw [foldl_flowStep_positions_length]
      simp
  · intro items avail sections c hle
    have h1 : avail ≤ (1 : Int) := by omega
    have hmax : max (1 : Int) avail = max 1 1 := by rw [max_eq_left h1, max_self]
    unfold update
    rw [hmax]
  · intro avail sections c
    constructor <;> simp [update]
  · intro width cont st i w h hx0
    have hguard : ¬(st.x > 0 ∧ st.x + (w + sepsize) > width) := by
      rintro ⟨h1, -⟩; omega
    simp [flowStep, sectionSwitch_none, hguard, hx0]
  · intro w h avail _
    have hpos : 0 < h + sepsize := by simp [sepsize]
    constructor <;>
      simp [update, flowStep, sectionSwitch, sectionStarts_nil, hpos, Nat.zero_max,
        List.enum]

/-- Witness for C8 at concrete inputs: width −5 treated as width 1, a lone
160-wide item in a 100-wide container placed at the origin, and step
placement at `x = 0`. -/
theorem C8_layout_totality_witness :
    ((update [(160, 40)] (-5) [] false = update [(160, 40)] 1 [] false) ∧
      (update [(160, 40)] 100 [] false).positions = [(0, 0, 160, 40)] ∧
      (update [(160, 40)] 100 [] false).total_height = 43) ∧
    (flowStep 100 false (fun _ => none)
        { x := 0, y := 7, row_height := 0, positions := [], row_heights := [],
          section_bounds := [], header_coords := [], cur_sec_start_y := 0, active_sec := 0 }
        0 (160, 40)).positions = [(0, 7, 160, 40)] := by
  refine ⟨⟨C8_layout_totality.2.1 [(160, 40)] (-5) [] false (by decide), ?_, ?_⟩, ?_⟩
  · exact (C8_layout_totality.2.2.2.2 160 40 100 (by decide)).1
  · exact (C8_layout_totality.2.2.2.2 160 40 100 (by decide)).2
  · have h := C8_layout_totality.2.2.2.1 100 false
      { x := 0, y := 7, row_height := 0, positions := [], row_heights := [],
        section_bounds := [], header_coords := [], cur_sec_start_y := 0, active_sec := 0 }
      0 160 40 rfl
    simpa using h

end Podofilo.Layout

namespace Podofilo.Cache

open Podofilo

/-- `PageCache._make_key`: the flat string key `f"{pdf_path}:{page_num}:{dpi}"`.
The dpi plays the role of the resolution class. -/
def make_key (pdf_path : String) (page_num dpi : Nat) : String :=
  pdf_path ++ ":" ++ toString page_num ++ ":" ++ toString dpi

/-- State of `src/pdf/cache.py`'s `PageCache`: one insertion-ordered dict
`_cache` (keys to raster handles, the handles modelled as numeric ids) and
the list `_access_order`, oldest first. -/
structure PageCache where
  max_size : Nat
  cache : List (String × Nat)
  access_order : List String
deriving DecidableEq, Repr

def init (max_size : Nat) : PageCache :=
  { max_size := max_size, cache := [], access_order := [] }

/-- The keys currently stored in the cache dict, in insertion order. -/
def keys (c : PageCache) : List String := c.cache.map Prod.fst

/-- Key-level core of `PageCache.get`: on a hit the key is moved to the
most-recently-used end of `_access_order` and the image is returned; a miss
touches nothing. -/
def getK (c : PageCache) (key : String) : Option Nat × PageCache :=
  match slookup key c.cache with
  | some v => (some v, { c with access_order := c.access_order.erase key ++ [key] })
  | none => (none, c)

/-- `PageCache.get`. -/
def get (c : PageCache) (pdf_path : String) (page_num dpi : Nat) :
    Option Nat × PageCache :=
  getK c (make_key pdf_path page_num dpi)

/-- Tail of `PageCache.put` after the eviction check: `if key in
self._access_order: self._access_order.remove(key)` then append, then store.
For an absent key `List.erase` is the identity, so erase-then-append covers
both branches. -/
def finishPut (c : PageCache) (key : String) (image : Nat) : PageCache :=
  { c with cache := sinsert key image c.cache,
           access_order := c.access_order.erase key ++ [key] }

/-- Key-level core of `PageCache.put`: when the cache is full and the key is
new, the head of `_access_order` (the least recently used key, of whatever
resolution class) is evicted before the entry is stored. -/
def putK (c : PageCache) (key : String) (image : Nat) : PageCache :=
  if c.max_size ≤ c.cache.length ∧ slookup key c.cache = none then
    match c.access_order with
    | [] => c
      -- `self._access_order.pop(0)` raises IndexError on an empty list before
      -- any mutation, so the cache object is left unchanged (reachable only
      -- with max_size = 0)
    | oldest :: rest =>
      finishPut { c with cache := serase oldest c.cache, access_order := rest } key image
  else finishPut c key image

/-- `PageCache.put`. -/
def put (c : PageCache) (pdf_path : String) (page_num dpi image : Nat) : PageCache :=
  putK c (make_key pdf_path page_num dpi) image

/-- `PageCache.clear`. -/
def clear (c : PageCache) : PageCache := init c.max_size

/-- `PageCache.clear_pdf`: collect the stored keys that start with
`f"{pdf_path}:"` and delete each from the dict and from `_access_order`.
(`list.remove` on a key that is in the dict but not in `_access_order` would
raise; on such keys `List.erase` is a no-op, reachable states have none.) -/
def clear_pdf (c : PageCache) (pdf_path : String) : PageCache :=
  let pref := pdf_path ++ ":"
  let keys_to_remove := (c.cache.filter (fun kv => pref.isPrefixOf kv.1)).map Prod.fst
  { c with cache := keys_to_remove.foldl (fun acc k => serase k acc) c.cache,
           access_order := keys_to_remove.foldl (fun acc k => acc.erase k) c.access_order }

/-- The public operations of `PageCache`. -/
inductive Op where
  | get (pdf_path : String) (page_num dpi : Nat)
  | put (pdf_path : String) (page_num dpi image : Nat)
  | clear
  | clear_pdf (pdf_path : String)
deriving DecidableEq, Repr

def apply (c : PageCache) : Op → PageCache
  | .get p n d => (get c p n d).2
  | .put p n d img => put c p n d img
  | .clear => clear c
  | .clear_pdf p => clear_pdf c p

/-- A fresh cache of the given capacity after a sequence of operations. -/
def run (max_size : Nat) (ops : List Op) : PageCache :=
  ops.foldl apply (init max_size)

/-- The implicit invariant of the claims: the entry count is bounded by the
capacity, and `_access_order` is exactly the stored keys, each once. -/
def Inv (c : PageCache) : Prop :=
  c.cache.length ≤ c.max_size ∧ c.access_order.Perm (keys c) ∧ (keys c).Nodup

lemma serase_map_fst {α : Type} (k : String) (l : List (String × α)) :
    (serase k l).map Prod.fst = (l.map Prod.fst).erase k := by
  induction l with
  | nil => rfl
  | cons kv rest ih =>
    by_cases h : kv.1 = k
    · simp [serase, h, List.erase_cons]
    · simp [serase, h, List.erase_cons, ih]

lemma serase_length_le {α : Type} (k : String) (l : List (String × α)) :
    (serase k l).length ≤ l.length := by
  induction l with
  | nil => simp [serase]
  | cons kv rest ih =>
    by_cases h : kv.1 = k
    · simp [serase, h]
    · simp only [serase, if_neg h, List.length_cons]
      omega

lemma slookup_eq_none_iff {α : Type} (k : String) (l : List (String × α)) :
    slookup k l = none ↔ k ∉ l.map Prod.fst := by
  induction l with
  | nil => simp [slookup]
  | cons kv rest ih =>
    by_cases h : kv.1 = k
    · simp [slookup, h]
    · have hred : slookup k (kv :: rest) = slookup k rest := by simp [slookup, h]
      rw [hred, ih, List.map_cons]
      constructor
      · intro hnm hmem
        rcases List.mem_cons.mp hmem with h1 | h2
        · exact h h1.symm
        · exact hnm h2
      · intro hnm hmem
        exact hnm (List.mem_cons.mpr (Or.inr hmem))

lemma sinsert_map_fst_present {α : Type} (k : String) (v : α) (l : List (String × α))
    (h : slookup k l ≠ none) : (sinsert k v l).map Prod.fst = l.map Prod.fst := by
  induction l with
  | nil => simp [slookup] at h
  | cons kv rest ih =>
    by_cases hk : kv.1 = k
    · simp [sinsert, hk]
    · simp only [slookup, hk, if_false] at h
      simp [sinsert, hk, ih h]

lemma sinsert_map_fst_absent {α : Type} (k : String) (v : α) (l : List (String × α))
    (h : slookup k l = none) : (sinsert k v l).map Prod.fst = l.map Prod.fst ++ [k] := by
  induction l with
  | nil => simp [sinsert]
  | cons kv rest ih =>
    by_cases hk : kv.1 = k
    · simp [slookup, hk] at h
    · simp only [slookup, hk, if_false] at h
      simp [sinsert, hk, ih h]

lemma sinsert_length_present {α : Type} (k : String) (v : α) (l : List (String × α))
    (h : slookup k l ≠ none) : (sinsert k v l).length = l.length := by
  have := sinsert_map_fst_present k v l h
  have h1 := congrArg List.length this
  simpa using h1

lemma sinsert_length_absent {α : Type} (k : String) (v : α) (l : List (String × α))
    (h : slookup k l = none) : (sinsert k v l).length = l.length + 1 := by
  have := sinsert_map_fst_absent k v l h
  have h1 := congrArg List.length this
  simpa using h1

lemma Inv.finishPut {c : PageCache} (hinv : Inv c) (key : String) (image : Nat)
    (hroom : slookup key c.cache = none → c.cache.length + 1 ≤ c.max_size) :
    Inv (finishPut c key image) := by
  obtain ⟨hlen, hperm, hnodup⟩ := hinv
  by_cases hk : slookup key c.cache = none
  · have hnotmem : key ∉ keys c := (slookup_eq_none_iff key c.cache).mp hk
    have hnotacc : key ∉ c.access_order := fun hm => hnotmem (hperm.mem_iff.mp hm)
    refine ⟨?_, ?_, ?_⟩
    · simpa [Cache.finishPut, keys, sinsert_length_absent key image c.cache hk] using hroom hk
    · have : (Cache.finishPut c key image).access_order = c.access_order ++ [key] := by
        simp [Cache.finishPut, List.erase_of_not_mem hnotacc]
      rw [this]
      simpa [Cache.finishPut, keys, sinsert_map_fst_absent key image c.cache hk]
        using hperm.append_right [key]
    · simp only [Cache.finishPut, keys] at *
      rw [sinsert_map_fst_absent key image c.cache hk]
      refine List.Nodup.append hnodup (List.nodup_singleton key) ?_
      intro a ha hb
      rw [List.mem_singleton] at hb
      exact hnotmem (hb ▸ ha)
  · have hmem : key ∈ keys c := by
      by_contra hnm
      exact hk ((slookup_eq_none_iff key c.cache).mpr hnm)
    have hacc : key ∈ c.access_order := hperm.mem_iff.mpr hmem
    refine ⟨?_, ?_, ?_⟩
    · simpa [Cache.finishPut, keys, sinsert_length_present key image c.cache hk] using hlen
    · have hp1 : (c.access_order.erase key ++ [key]).Perm (key :: c.access_order.erase key) :=
        List.perm_append_singleton key _
      have hp2 : (key :: c.access_order.erase key).Perm c.access_order :=
        (List.perm_cons_erase hacc).symm
      simpa [Cache.finishPut, keys, sinsert_map_fst_present key image c.cache hk]
        using (hp1.trans hp2).trans hperm
    · simpa [Cache.finishPut, keys, sinsert_map_fst_present key image c.cache hk] using hnodup

lemma Inv.putK {c : PageCache} (hinv : Inv c) (key : String) (image : Nat) :
    Inv (putK c key image) := by
  obtain ⟨hlen, hperm, hnodup⟩ := hinv
  unfold Cache.putK
  by_cases hcond : c.max_size ≤ c.cache.length ∧ slookup key c.cache = none
  · rw [if_pos hcond]
    cases hacc : c.access_order with
    | nil => exact ⟨hlen, hperm, hnodup⟩
    | cons oldest rest =>
      have holdmem : oldest ∈ keys c := by
        have : oldest ∈ c.access_order := by rw [hacc]; exact List.mem_cons_self _ _
        exact hperm.mem_iff.mp this
      have hkeys : keys { c with cache := serase oldest c.cache, access_order := rest }
          = (keys c).erase oldest := by
        simp [keys, serase_map_fst]
      have hlen2 : (serase oldest c.cache).length = c.cache.length - 1 := by
        have := congrArg List.length (serase_map_fst (α := Nat) oldest c.cache)
        have herase := List.length_erase_of_mem holdmem
        simp only [List.length_map] at this
        simp only [keys, List.length_map] at herase
        omega
      have hperm2 : rest.Perm ((keys c).erase oldest) := by
        have h1 : c.access_order.erase oldest = rest := by
          rw [hacc]; exact List.erase_cons_head oldest rest
        have := hperm.erase oldest
        rwa [h1] at this
      have hlenpos : 1 ≤ c.cache.length := by
        have : oldest ∈ c.cache.map Prod.fst := holdmem
        have := List.length_pos.mpr (List.ne_nil_of_mem this)
        simpa using this
      refine Inv.finishPut ⟨?_, ?_, ?_⟩ key image ?_
      · simpa [hlen2] using Nat.le_trans (Nat.sub_le _ _) hlen
      · simpa [hkeys] using hperm2
      · simpa [hkeys] using hnodup.erase oldest
      · intro _
        simp only [hlen2]
        omega
  · rw [if_neg hcond]
    refine Inv.finishPut ⟨hlen, hperm, hnodup⟩ key image ?_
    intro hnone
    rcases not_and_or.mp hcond with h | h
    · omega
    · exact absurd hnone h

lemma Inv.getK {c : PageCache} (hinv : Inv c) (key : String) :
    Inv (getK c key).2 := by
  obtain ⟨hlen, hperm, hnodup⟩ := hinv
  unfold Cache.getK
  cases hl : slookup key c.cache with
  | none => exact ⟨hlen, hperm, hnodup⟩
  | some v =>
    have hmem : key ∈ keys c := by
      by_contra hnm
      rw [(slookup_eq_none_iff key c.cache).mpr hnm] at hl
      exact Option.noConfusion hl
    have hacc : key ∈ c.access_order := hperm.mem_iff.mpr hmem
    refine ⟨hlen, ?_, hnodup⟩
    have hp1 : (c.access_order.erase key ++ [key]).Perm (key :: c.access_order.erase key) :=
      List.perm_append_singleton key _
    have hp2 : (key :: c.access_order.erase key).Perm c.access_order :=
      (List.perm_cons_erase hacc).symm
    simpa [keys] using (hp1.trans hp2).trans hperm

lemma Inv.clear_pdf {c : PageCache} (hinv : Inv c) (pdf_path : String) :
    Inv (clear_pdf c pdf_path) := by
  obtain ⟨hlen, hperm, hnodup⟩ := hinv
  unfold Cache.clear_pdf
  -- fold the removed keys one by one, maintaining the invariant parts
  suffices h : ∀ (ks : List String) (cache : List (String × Nat)) (order : List String),
      order.Perm (cache.map Prod.fst) → (cache.map Prod.fst).Nodup →
      (ks.foldl (fun a k => a.erase k) order).Perm
        ((ks.foldl (fun acc k => serase k acc) cache).map Prod.fst) ∧
      ((ks.foldl (fun acc k => serase k acc) cache).map Prod.fst).Nodup ∧
      (ks.foldl (fun acc k => serase k acc) cache).length ≤ cache.length by
    obtain ⟨h1, h2, h3⟩ := h ((c.cache.filter
      (fun kv => (pdf_path ++ ":").isPrefixOf kv.1)).map Prod.fst) c.cache c.access_order
      hperm hnodup
    exact ⟨le_trans h3 hlen, h1, h2⟩
  intro ks
  induction ks with
  | nil => intro cache order h1 h2; exact ⟨h1, h2, le_refl _⟩
  | cons k kt ih =>
    intro cache order h1 h2
    have hstep1 : (order.erase k).Perm ((serase k cache).map Prod.fst) := by
      rw [serase_map_fst]; exact h1.erase k
    have hstep2 : ((serase k cache).map Prod.fst).Nodup := by
      rw [serase_map_fst]; exact h2.erase k
    obtain ⟨r1, r2, r3⟩ := ih (serase k cache) (order.erase k) hstep1 hstep2
    exact ⟨r1, r2, le_trans r3 (serase_length_le k cache)⟩

lemma Inv.apply {c : PageCache} (hinv : Inv c) (op : Op) : Inv (Cache.apply c op) := by
  cases op with
  | get p n d => exact hinv.getK (make_key p n d)
  | put p n d img => exact hinv.putK (make_key p n d) img
  | clear => exact ⟨Nat.zero_le _, List.Perm.refl _, List.nodup_nil⟩
  | clear_pdf p => exact hinv.clear_pdf p

lemma apply_max_size (c : PageCache) (op : Op) :
    (Cache.apply c op).max_size = c.max_size := by
  cases op with
  | get p n d =>
    show (Cache.get c p n d).2.max_size = c.max_size
    unfold Cache.get Cache.getK
    cases slookup (make_key p n d) c.cache <;> rfl
  | put p n d img =>
    show (Cache.put c p n d img).max_size = c.max_size
    unfold Cache.put Cache.putK Cache.finishPut
    by_cases h : c.max_size ≤ c.cache.length ∧ slookup (make_key p n d) c.cache = none
    · rw [if_pos h]
      cases c.access_order <;> rfl
    · rw [if_neg h]
  | clear => rfl
  | clear_pdf p => rfl

lemma Inv.run (max_size : Nat) (ops : List Op) :
    Inv (run max_size ops) ∧ (run max_size ops).max_size = max_size := by
  unfold Cache.run
  induction ops using List.reverseRecOn with
  | nil => exact ⟨⟨Nat.zero_le _, List.Perm.refl _, List.nodup_nil⟩, rfl⟩
  | append_singleton ops op ih =>
    rw [List.foldl_append]
    exact ⟨ih.1.apply op, by rw [List.foldl_cons, List.foldl_nil, apply_max_size, ih.2]⟩

/-- C9: after any sequence of `get`/`put`/`clear`/`clear_pdf` operations the
stored-entry count never exceeds `max_size`, `_access_order` contains exactly
the stored keys (each once), and a `put` that overwrites an already-present
key never evicts any other entry even when the cache is full (the key list is
left exactly as it was). -/
theorem C9_cache_size_invariant :
    (∀ (max_size : Nat) (ops : List Op),
      (run max_size ops).cache.length ≤ max_size ∧
      (run max_size ops).access_order.Perm (keys (run max_size ops)) ∧
      (keys (run max_size ops)).Nodup) ∧
    (∀ (c : PageCache) (p : String) (n d img : Nat),
      slookup (make_key p n d) c.cache ≠ none →
      keys (put c p n d img) = keys c) := by
  constructor
  · intro max_size ops
    obtain ⟨⟨h1, h2, h3⟩, hm⟩ := Inv.run max_size ops
    refine ⟨?_, h2, h3⟩
    rw [hm] at h1
    exact h1
  · intro c p n d img hpresent
    unfold put putK
    rw [if_neg (fun hand => hpresent hand.2)]
    simp [finishPut, keys, sinsert_map_fst_present _ _ _ hpresent]

/-- Witness for C9 on a concrete capacity-2 cache filled to capacity and then
overwritten at an existing key. -/
theorem C9_cache_size_invariant_witness :
    ((run 2 [.put "a" 0 72 10, .put "a" 1 72 11, .get "a" 0 72,
        .put "a" 2 72 12, .clear_pdf "a"]).cache.length ≤ 2 ∧
      (run 2 [.put "a" 0 72 10, .put "a" 1 72 11, .get "a" 0 72,
        .put "a" 2 72 12, .clear_pdf "a"]).access_order.Perm
        (keys (run 2 [.put "a" 0 72 10, .put "a" 1 72 11, .get "a" 0 72,
          .put "a" 2 72 12, .clear_pdf "a"])) ∧
      (keys (run 2 [.put "a" 0 72 10, .put "a" 1 72 11, .get "a" 0 72,
        .put "a" 2 72 12, .clear_pdf "a"])).Nodup) ∧
    keys (put (run 2 [.put "a" 0 72 10, .put "a" 1 72 11]) "a" 1 72 99)
      = keys (run 2 [.put "a" 0 72 10, .put "a" 1 72 11]) :=
  ⟨C9_cache_size_invariant.1 2 _,
   C9_cache_size_invariant.2 (run 2 [.put "a" 0 72 10, .put "a" 1 72 11]) "a" 1 72 99
     (by decide)⟩

/-- C4 counterexample: eviction is not independent across resolution classes.
In a capacity-1 cache, a `put` at dpi 150 evicts the entry stored for the
same page at dpi 72, even though that entry belongs to a different
resolution class. -/
theorem C4_per_class_eviction_counterexample :
    (slookup (make_key "a.pdf" 0 72)
        (run 1 [.put "a.pdf" 0 72 10]).cache).isSome = true ∧
    slookup (make_key "a.pdf" 0 72)
        (run 1 [.put "a.pdf" 0 72 10, .put "a.pdf" 0 150 20]).cache = none ∧
    (slookup (make_key "a.pdf" 0 150)
        (run 1 [.put "a.pdf" 0 72 10, .put "a.pdf" 0 150 20]).cache).isSome = true := by
  refine ⟨rfl, rfl, rfl⟩

lemma putK_fresh_not_full (c : PageCache) (key : String) (img : Nat)
    (hroom : c.cache.length < c.max_size) (hacc : key ∉ c.access_order) :
    putK c key img = { c with cache := sinsert key img c.cache,
                              access_order := c.access_order ++ [key] } := by
  unfold putK
  rw [if_neg (fun hand => absurd hand.1 (Nat.not_le.mpr hroom))]
  unfold finishPut
  rw [List.erase_of_not_mem hacc]

lemma foldl_putK_fresh (C : Nat) (img : Nat) (todo : List String) :
    ∀ (cache : List (String × Nat)) (order : List String),
      cache.map Prod.fst = order → (order ++ todo).Nodup →
      order.length + todo.length ≤ C →
      (todo.foldl (fun c k => putK c k img)
          { max_size := C, cache := cache, access_order := order }).cache.map Prod.fst
        = order ++ todo ∧
      (todo.foldl (fun c k => putK c k img)
          { max_size := C, cache := cache, access_order := order }).access_order
        = order ++ todo ∧
      (todo.foldl (fun c k => putK c k img)
          { max_size := C, cache := cache, access_order := order }).max_size = C := by
  induction todo with
  | nil =>
    intro cache order hko hnd hlen
    simpa using hko
  | cons k kt ih =>
    intro cache order hko hnd hlen
    have hknotin : k ∉ order := fun hmem =>
      (List.nodup_append.mp hnd).2.2 hmem (List.mem_cons_self k kt)
    have hfresh : slookup k cache = none := by
      rw [slookup_eq_none_iff, hko]
      exact hknotin
    have hroom : cache.length < C := by
      have := congrArg List.length hko
      simp only [List.length_map] at this
      simp only [List.length_cons] at hlen
      omega
    have hstep := putK_fresh_not_full
      { max_size := C, cache := cache, access_order := order } k img hroom hknotin
    rw [List.foldl_cons, hstep]
    have hres := ih (sinsert k img cache) (order ++ [k])
      (by rw [sinsert_map_fst_absent k img cache hfresh, hko])
      (by simpa using hnd)
      (by
        have := congrArg List.length (sinsert_map_fst_absent k img cache hfresh)
        simp only [List.length_cons] at hlen
        simp only [List.length_append, List.length_singleton]
        omega)
    simpa using hres

/-- C4 amended: eviction in `PageCache` is strict LRU over the whole cache,
irrespective of resolution class.  Inserting `C+1` distinct keys of one
resolution class into an empty capacity-`C` cache evicts exactly the first
(least recently used) key and never the most recent one; but, as the
counterexample shows, a `put` of one class can evict the globally
least-recent entry of a different class. -/
theorem C4_lru_eviction_amended (C : Nat) (path : String) (dpi img : Nat)
    (pages : List Nat) (hlen : pages.length = C + 1)
    (hnd : (pages.map (fun p => make_key path p dpi)).Nodup) :
    keys (run C (pages.map (fun p => Op.put path p dpi img)))
      = (pages.map (fun p => make_key path p dpi)).tail ∧
    (run C (pages.map (fun p => Op.put path p dpi img))).access_order
      = (pages.map (fun p => make_key path p dpi)).tail := by
  have hfold : run C (pages.map (fun p => Op.put path p dpi img))
      = (pages.map (fun p => make_key path p dpi)).foldl
          (fun c k => putK c k img) (init C) := by
    unfold run
    rw [List.foldl_map, List.foldl_map]
    rfl
  set ks := pages.map (fun p => make_key path p dpi) with hks
  have hkslen : ks.length = C + 1 := by rw [hks, List.length_map, hlen]
  have hne : ks ≠ [] := by
    intro h
    rw [h] at hkslen
    exact Nat.noConfusion hkslen
  obtain ⟨front, klast, hsplit⟩ : ∃ front klast, ks = front ++ [klast] :=
    ⟨ks.dropLast, ks.getLast hne, (List.dropLast_append_getLast hne).symm⟩
  have hfrontlen : front.length = C := by
    have := congrArg List.length hsplit
    simp only [List.length_append, List.length_singleton] at this
    omega
  have hndf : (front ++ [klast]).Nodup := hsplit ▸ hnd
  have hfill := foldl_putK_fresh C img front [] [] rfl
    (by simpa using (List.nodup_append.mp hndf).1)
    (by simpa using Nat.le_of_eq hfrontlen)
  rw [hfold, hsplit, List.foldl_append, List.foldl_cons, List.foldl_nil]
  set S := front.foldl (fun c k => putK c k img) (init C) with hS
  have hkeysS : S.cache.map Prod.fst = front := by
    have h1 := hfill.1
    rw [hS]
    simpa [init] using h1
  have haccS : S.access_order = front := by
    have h1 := hfill.2.1
    rw [hS]
    simpa [init] using h1
  have hmsS : S.max_size = C := by
    have h1 := hfill.2.2
    rw [hS]
    simpa [init] using h1
  have hfreshS : slookup klast S.cache = none := by
    rw [slookup_eq_none_iff, hkeysS]
    exact fun hmem => (List.nodup_append.mp hndf).2.2 hmem (List.mem_singleton.mpr rfl)
  have hguard : S.max_size ≤ S.cache.length ∧ slookup klast S.cache = none := by
    refine ⟨?_, hfreshS⟩
    rw [hmsS]
    have := congrArg List.length hkeysS
    simp only [List.length_map] at this
    omega
  cases hfront : front with
  | nil =>
    -- capacity 0: the eviction pop raises, the put aborts, nothing is stored
    unfold Cache.putK
    rw [if_pos hguard, haccS, hfront]
    simp only [List.nil_append, List.tail_cons]
    constructor
    · show S.cache.map Prod.fst = []
      rw [hkeysS, hfront]
    · rw [haccS, hfront]
  | cons k0 mid =>
    unfold Cache.putK
    rw [if_pos hguard, haccS, hfront]
    simp only
    unfold Cache.finishPut
    have hklastmid : klast ∉ mid := by
      rw [hfront] at hndf
      intro hm
      exact (List.nodup_append.mp hndf).2.2 (List.mem_cons_of_mem k0 hm)
        (List.mem_singleton.mpr rfl)
    have hser : (serase k0 S.cache).map Prod.fst = mid := by
      rw [serase_map_fst, hkeysS, hfront]
      exact List.erase_cons_head k0 mid
    have hslk : slookup klast (serase k0 S.cache) = none := by
      rw [slookup_eq_none_iff, hser]
      exact hklastmid
    constructor
    · show (sinsert klast img (serase k0 S.cache)).map Prod.fst = _
      rw [sinsert_map_fst_absent _ _ _ hslk, hser]
      simp
    · show mid.erase klast ++ [klast] = _
      rw [List.erase_of_not_mem hklastmid]
      simp

/-- Witness for C4's amended theorem at capacity 2 with three pages of one
resolution class. -/
theorem C4_lru_eviction_amended_witness :
    keys (run 2 [Op.put "a" 0 72 5, Op.put "a" 1 72 5, Op.put "a" 2 72 5])
      = [make_key "a" 1 72, make_key "a" 2 72] ∧
    (run 2 [Op.put "a" 0 72 5, Op.put "a" 1 72 5, Op.put "a" 2 72 5]).access_order
      = [make_key "a" 1 72, make_key "a" 2 72] := by
  have h := C4_lru_eviction_amended 2 "a" 72 5 [0, 1, 2] (by decide) (by decide)
  simpa using h

end Podofilo.Cache


namespace Podofilo.Viewer

open Podofilo Podofilo.Cache

/-- The fixed candidate list `common_dpis = [72, 96, 150, 200]` of
`get_page_thumbnail_fast`. -/
def common_dpis : List Nat := [72, 96, 150, 200]

/-- The sort key `abs(d - target_dpi)` on naturals. -/
def dist (a b : Nat) : Nat := max a b - min a b

/-- Python `sorted(common_dpis, key=lambda d: abs(d - target_dpi))`: a stable
ascending sort; `insertionSort` with the total relation `key a ≤ key b` is
stable in exactly the same way (ties keep list order). -/
def sortByKey (key : Nat → Nat) (l : List Nat) : List Nat :=
  l.insertionSort (fun a b => key a ≤ key b)

/-- `PDFViewer.get_page_thumbnail` for a fixed (document, page): exact-key
cache lookup, else render through the external backend
(`doc.render_page_thumbnail`, the abstract parameter `render`) and cache the
result.  Raster handles are modelled as numeric ids. -/
def get_page_thumbnail (c : PageCache) (path : String) (page : Nat)
    (dpi : Nat) (render : Nat → Nat) : Nat × PageCache :=
  match Cache.get c path page dpi with
  | (some img, c2) => (img, c2)
  | (none, c2) =>
    let image := render dpi
    (image, Cache.put c2 path page dpi image)

/-- The search loop of `get_page_thumbnail_fast`: try the candidate dpis in
order of distance from the target and stop at the first cached raster (a
`cache.get` miss leaves the cache untouched, so the loop continues on the
same state). -/
def findBestCached (c : PageCache) (path : String) (page : Nat) :
    List Nat → Option (Nat × Nat) × PageCache
  | [] => (none, c)
  | dpi :: rest =>
    match Cache.get c path page dpi with
    | (some img, c2) => (some (img, dpi), c2)
    | (none, _) => findBestCached c path page rest

/-- Shallow embedding of `PDFViewer.get_page_thumbnail_fast`
(`src/ui/pdf_viewer.py:103-160`) for a fixed (document, page).  `resize` is
PIL Image.resize with BILINEAR on the abstract raster handles, and the
float `scale_factor = target_dpi / best_dpi` is modelled by the exact
rational: for dpi integers of this magnitude the float comparison with 1.5
coincides with the rational comparison. -/
def get_page_thumbnail_fast (c : PageCache) (path : String) (page : Nat)
    (target_dpi : Nat) (render : Nat → Nat) (resize : Nat → Rat → Nat) :
    Nat × PageCache :=
  match Cache.get c path page target_dpi with
  | (some img, c2) => (img, c2)
  | (none, _) =>
    match findBestCached c path page
        (sortByKey (fun d => dist d target_dpi) common_dpis) with
    | (some (best, best_dpi), c2) =>
      if best_dpi ≠ target_dpi then
        let scale : Rat := (target_dpi : Rat) / (best_dpi : Rat)
        if scale ≤ 3 / 2 then (resize best scale, c2)
        else get_page_thumbnail c2 path page target_dpi render
      else (best, c2)
    | (none, c2) => get_page_thumbnail c2 path page target_dpi render

/-- The first candidate dpi, in distance order, that has a cache entry for
the page: the pure characterisation of the search loop. -/
def firstCachedDpi (c : PageCache) (path : String) (page target_dpi : Nat) : Option Nat :=
  (sortByKey (fun d => dist d target_dpi) common_dpis).find?
    (fun d => (slookup (make_key path page d) c.cache).isSome)

lemma slookup_sinsert_self {α : Type} (k : String) (v : α) (l : List (String × α)) :
    slookup k (sinsert k v l) = some v := by
  induction l with
  | nil => simp [sinsert, slookup]
  | cons kv rest ih =>
    by_cases h : kv.1 = k
    · simp [sinsert, slookup, h]
    · simp [sinsert, slookup, h, ih]

lemma slookup_putK_self (c : PageCache) (key : String) (img : Nat)
    (hinv : Cache.Inv c) (hms : 1 ≤ c.max_size) :
    slookup key (putK c key img).cache = some img := by
  unfold putK
  by_cases hg : c.max_size ≤ c.cache.length ∧ slookup key c.cache = none
  · rw [if_pos hg]
    cases hacc : c.access_order with
    | nil =>
      exfalso
      obtain ⟨hlen, hperm, -⟩ := hinv
      rw [hacc] at hperm
      have hkeys : keys c = [] := hperm.symm.eq_nil
      have hlen0 : c.cache.length = 0 := by
        have := congrArg List.length hkeys
        simpa [keys] using this
      omega
    | cons o rest => simp [finishPut, slookup_sinsert_self]
  · rw [if_neg hg]
    simp [finishPut, slookup_sinsert_self]

lemma findBestCached_found (c : PageCache) (path : String) (page : Nat)
    (l : List Nat) (d img : Nat)
    (hf : l.find? (fun d => (slookup (make_key path page d) c.cache).isSome) = some d)
    (hl : slookup (make_key path page d) c.cache = some img) :
    (findBestCached c path page l).1 = some (img, d) ∧
    ((findBestCached c path page l).2).cache = c.cache ∧
    ((findBestCached c path page l).2).max_size = c.max_size ∧
    (Cache.Inv c → Cache.Inv (findBestCached c path page l).2) := by
  induction l with
  | nil => cases hf
  | cons e rest ih =>
    cases hpe : slookup (make_key path page e) c.cache with
    | some v =>
      have hhead : (e :: rest).find?
          (fun d => (slookup (make_key path page d) c.cache).isSome) = some e := by
        simp [List.find?_cons, hpe]
      rw [hhead] at hf
      obtain rfl : e = d := Option.some_inj.mp hf
      rw [hpe] at hl
      obtain rfl : v = img := Option.some_inj.mp hl
      unfold findBestCached Cache.get Cache.getK
      rw [hpe]
      exact ⟨rfl, rfl, rfl, fun hinv => by
        have h2 := hinv.getK (make_key path page e)
        unfold Cache.getK at h2
        rwa [hpe] at h2⟩
    | none =>
      have htail : (e :: rest).find?
          (fun d => (slookup (make_key path page d) c.cache).isSome)
          = rest.find? (fun d => (slookup (make_key path page d) c.cache).isSome) := by
        simp [List.find?_cons, hpe]
      rw [htail] at hf
      have ihr := ih hf
      unfold findBestCached Cache.get Cache.getK
      rw [hpe]
      exact ihr

lemma sortByKey_sorted (key : Nat → Nat) (l : List Nat) :
    (sortByKey key l).Sorted (fun a b => key a ≤ key b) := by
  haveI : IsTotal Nat (fun a b => key a ≤ key b) := ⟨fun a b => le_total _ _⟩
  haveI : IsTrans Nat (fun a b => key a ≤ key b) := ⟨fun _ _ _ hab hbc => le_trans hab hbc⟩
  exact List.sorted_insertionSort _ l

lemma sortByKey_perm (key : Nat → Nat) (l : List Nat) :
    (sortByKey key l).Perm l := List.perm_insertionSort _ l

lemma find?_sorted_min {key : Nat → Nat} {l : List Nat} {p : Nat → Bool} {b : Nat}
    (hs : l.Sorted (fun a b => key a ≤ key b)) (hf : l.find? p = some b)
    {d : Nat} (hd : d ∈ l) (hpd : p d = true) : key b ≤ key d := by
  induction l with
  | nil => cases hf
  | cons e rest ih =>
    rw [List.sorted_cons] at hs
    by_cases hpe : p e = true
    · rw [List.find?_cons_of_pos _ hpe] at hf
      obtain rfl : e = b := Option.some_inj.mp hf
      rcases List.mem_cons.mp hd with rfl | hdr
      · exact le_refl _
      · exact hs.1 d hdr
    · rw [List.find?_cons_of_neg _ (by simpa using hpe)] at hf
      rcases List.mem_cons.mp hd with rfl | hdr
      · exact absurd hpd hpe
      · exact ih hs.2 hf hdr

/-- C3: when the exact resolution class misses, the candidate classes are
searched for the nearest one with an entry for the page; when the required
scale factor to the target is at most 1.5 the cached raster is cheaply
rescaled and returned with no new cache entry (and independently of the
renderer, hence without a fresh render); when the factor exceeds 1.5 the
lookup degrades to a cache miss: the backend renders fresh at the target
class and the result is cached there. -/
theorem C3_fast_zoom_fallback (c : PageCache) (path : String) (page target_dpi : Nat)
    (render : Nat → Nat) (resize : Nat → Rat → Nat) (best_dpi img : Nat)
    (hinv : Cache.Inv c) (hms : 1 ≤ c.max_size)
    (hmiss : slookup (make_key path page target_dpi) c.cache = none)
    (hbest : firstCachedDpi c path page target_dpi = some best_dpi)
    (himg : slookup (make_key path page best_dpi) c.cache = some img) :
    (∀ d ∈ common_dpis, (slookup (make_key path page d) c.cache).isSome = true →
      dist best_dpi target_dpi ≤ dist d target_dpi) ∧
    (((target_dpi : Rat) / (best_dpi : Rat) ≤ 3 / 2 →
      (get_page_thumbnail_fast c path page target_dpi render resize).1
        = resize img ((target_dpi : Rat) / (best_dpi : Rat)) ∧
      ((get_page_thumbnail_fast c path page target_dpi render resize).2).cache
        = c.cache) ∧
    (¬((target_dpi : Rat) / (best_dpi : Rat) ≤ 3 / 2) →
      (get_page_thumbnail_fast c path page target_dpi render resize).1
        = render target_dpi ∧
      slookup (make_key path page target_dpi)
        ((get_page_thumbnail_fast c path page target_dpi render resize).2).cache
        = some (render target_dpi))) := by
  have hne : best_dpi ≠ target_dpi := by
    intro he
    rw [he, hmiss] at himg
    exact Option.noConfusion himg
  have hget : Cache.get c path page target_dpi = (none, c) := by
    unfold Cache.get Cache.getK
    rw [hmiss]
  have hfast : get_page_thumbnail_fast c path page target_dpi render resize
      = (match findBestCached c path page
            (sortByKey (fun d => dist d target_dpi) common_dpis) with
        | (some (best, best_dpi2), c2) =>
          if best_dpi2 ≠ target_dpi then
            if (target_dpi : Rat) / (best_dpi2 : Rat) ≤ 3 / 2 then
              (resize best ((target_dpi : Rat) / (best_dpi2 : Rat)), c2)
            else get_page_thumbnail c2 path page target_dpi render
          else (best, c2)
        | (none, c2) => get_page_thumbnail c2 path page target_dpi render) := by
    unfold get_page_thumbnail_fast
    rw [hget]
  obtain ⟨hr, hcache, hmaxs, hinvimp⟩ := findBestCached_found c path page
    (sortByKey (fun d => dist d target_dpi) common_dpis) best_dpi img hbest himg
  set FB := findBestCached c path page
    (sortByKey (fun d => dist d target_dpi) common_dpis) with hFBdef
  have hpair : FB = (some (img, best_dpi), FB.2) := by
    rw [← hr]
  refine ⟨?_, ?_, ?_⟩
  · intro d hd hpd
    have hdperm : d ∈ sortByKey (fun d => dist d target_dpi) common_dpis :=
      ((sortByKey_perm (fun d => dist d target_dpi) common_dpis).mem_iff).mpr hd
    exact find?_sorted_min (sortByKey_sorted _ _) hbest hdperm hpd
  · intro hscale
    rw [hfast, hpair]
    dsimp only
    rw [if_pos hne, if_pos hscale]
    exact ⟨rfl, hcache⟩
  · intro hscale
    rw [hfast, hpair]
    dsimp only
    rw [if_pos hne, if_neg hscale]
    have hget2 : Cache.get FB.2 path page target_dpi = (none, FB.2) := by
      unfold Cache.get Cache.getK
      rw [hcache, hmiss]
    unfold get_page_thumbnail
    rw [hget2]
    refine ⟨rfl, ?_⟩
    show slookup (make_key path page target_dpi)
      (Cache.put FB.2 path page target_dpi (render target_dpi)).cache
      = some (render target_dpi)
    exact slookup_putK_self FB.2 _ _ (hinvimp hinv) (by rw [hmaxs]; exact hms)

/-- Witness for C3: page 0 cached at dpi 150 in a capacity-5 cache; the
target dpi 180 needs scale 1.2, so the cached raster is rescaled (resize
modelled as adding 1000 to the handle) and no entry is added. -/
theorem C3_fast_zoom_fallback_witness :
    (get_page_thumbnail_fast (run 5 [Cache.Op.put "a" 0 150 42]) "a" 0 180
        (fun _ => 99) (fun i _ => 1000 + i)).1 = 1042 ∧
    ((get_page_thumbnail_fast (run 5 [Cache.Op.put "a" 0 150 42]) "a" 0 180
        (fun _ => 99) (fun i _ => 1000 + i)).2).cache
      = (run 5 [Cache.Op.put "a" 0 150 42]).cache := by
  have h := C3_fast_zoom_fallback (run 5 [Cache.Op.put "a" 0 150 42]) "a" 0 180
    (fun _ => 99) (fun i _ => 1000 + i) 150 42
    (Cache.Inv.run 5 [Cache.Op.put "a" 0 150 42]).1
    (by decide) (by decide) (by decide) (by decide)
  obtain ⟨-, h2, -⟩ := h
  have h3 := h2 (by norm_num)
  refine ⟨?_, h3.2⟩
  rw [h3.1]

end Podofilo.Viewer


namespace Podofilo

/-- Nat-keyed variant of `serase` (Python `del d[k]`). -/
def derase {α : Type} (k : Nat) : List (Nat × α) → List (Nat × α)
  | [] => []
  | (k2, v2) :: rest => if k2 = k then rest else (k2, v2) :: derase k rest

/-- Python `round` on a rational: nearest integer, ties to the even
neighbour (banker's rounding). -/
def pyRound (q : Rat) : Int :=
  let f : Int := Int.floor q
  let r : Rat := q - f
  if r < 1 / 2 then f
  else if 1 / 2 < r then f + 1
  else if f % 2 = 0 then f else f + 1

end Podofilo

namespace Podofilo.Grid

open Podofilo Podofilo.Layout

/-- Kind of a Tk canvas object, as reported by `canvas.type(id)`. -/
inductive CKind where
  | image | rectangle | line | text | oval
deriving DecidableEq, Repr

/-- A canvas object: kind, anchor coordinates, the attached PhotoImage
handle for image items, and the text for text items. -/
structure CObj where
  kind : CKind
  x : Int := 0
  y : Int := 0
  x2 : Int := 0
  y2 : Int := 0
  img : Nat := 0
  txt : String := ""
deriving DecidableEq, Repr

/-- The Tk canvas: item ids are handed out strictly increasing and never
reused; `delete` drops the binding. -/
structure Canvas where
  next_id : Nat
  objs : List (Nat × CObj)
deriving DecidableEq, Repr

def Canvas.create (cv : Canvas) (o : CObj) : Nat × Canvas :=
  (cv.next_id, { next_id := cv.next_id + 1, objs := cv.objs ++ [(cv.next_id, o)] })

/-- `canvas.delete(id)` (deleting an unknown id is a no-op, matching the
`try/except` wrappers around every delete in the source). -/
def Canvas.delete (cv : Canvas) (id : Nat) : Canvas :=
  { cv with objs := derase id cv.objs }

/-- `canvas.delete("all")`. -/
def Canvas.deleteAll (cv : Canvas) : Canvas := { cv with objs := [] }

/-- `canvas.type(id)`: `none` models the TclError raised for a deleted id. -/
def Canvas.typeOf (cv : Canvas) (id : Nat) : Option CKind :=
  (dlookup id cv.objs).map CObj.kind

/-- In-place update of one object (`canvas.coords` / `canvas.itemconfig`). -/
def Canvas.modify (cv : Canvas) (id : Nat) (f : CObj → CObj) : Canvas :=
  { cv with objs := cv.objs.map (fun e => if e.1 = id then (e.1, f e.2) else e) }

/-- `BoxState` of `src/pdf/structure.py`. -/
inductive BoxState where
  | loading | loaded | failed | queued | cancelled | marked
deriving DecidableEq, Repr

/-- The fields of `DocumentBox` that the grid reads when drawing: `name`,
`state`, the page count (`len(box.pages)`), the thumbnail raster (an
abstract handle) and the load progress. -/
structure Box where
  name : String
  state : BoxState
  pages : Nat
  thumbnail : Option Nat
  progress : Rat
deriving DecidableEq, Repr

/-- The box-mode content token of `_draw_item_smart`:
`(box.state, box.progress if box.state.name == "LOADING" else 0)`. -/
def boxToken (b : Box) : BoxState × Rat :=
  (b.state, if b.state = BoxState.loading then b.progress else 0)

/-- Hover side (`self.hover_side`: `"left"`, `"right"` or `None`). -/
inductive Side where
  | left | right
deriving DecidableEq, Repr

/-- The per-index dict of `self._drawn_items`: the `"base"` entry, the
`"_base_ids"` metadata list and `"_box_state"` metadata token (box mode),
and the overlay entries — every key that is not `"base"` and does not start
with an underscore (`"selection"`, `"hover"`, `"mark1"`, `"mark2"`). -/
structure ItemRec where
  base : Option Nat := none
  base_ids : List Nat := []
  box_state : Option (BoxState × Rat) := none
  overlays : List (String × Nat) := []
deriving DecidableEq, Repr

/-- The mutable state of `VirtualGrid` that the virtualization, caching and
smart-redraw logic reads and writes.  PhotoImage handles are numeric ids;
the overlay PhotoImage caches of the source (`_selection_overlay_cache`,
`_hover_overlay_cache`) hold per-size PIL images, not canvas objects, and
are modelled by the fixed handle 0. -/
structure GridState where
  canvas : Canvas
  box_mode : Bool
  document_boxes : List Box
  box_images : List (Nat × Nat)
  images_cache : List (Nat × List (Nat × Nat))
  thumbnail_size : Nat
  max_zoom_levels_cached : Nat
  pending_renders : List Nat
  drawn_items : List (Nat × ItemRec)
  static_items : List Nat
  bracket_ids : List Nat
  cut_indicator_ids : List Nat
  selected_indices : Finset Nat
  marked_indices : Finset Nat
  hover_item_index : Int
  hover_index : Int
  hover_side : Option Side
  hover_gap : Option Nat
  cut_mode : Bool
  drop_indicator_index : Int
  drop_target_section : Option Layout.Section
  item_count : Nat
  item_sizes : List (Nat × Nat)
  original_item_sizes : List (Nat × Nat)
  aspect_ratios : List Rat
  positions : List (Nat × Nat × Nat × Nat)
  sections : List Layout.Section
  continuous_mode : Bool
  last_visible_range : Nat × Nat
  loading_placeholder : Option Nat
  placeholder_image : Option Nat
  scissors_image : Option Nat
  ove_enabled : Bool
  shutdown : Bool
deriving DecidableEq

/-- Canvas-object creation through the grid state. -/
def createObj (s : GridState) (o : CObj) : Nat × GridState :=
  let r := s.canvas.create o
  (r.1, { s with canvas := r.2 })

/-- The `images` property: the inner dict of the current zoom level.  (The
Python property also inserts an empty inner dict for a missing level; that
mutation changes no lookup and only the insertion order of empty levels.) -/
def images (s : GridState) : List (Nat × Nat) :=
  (dlookup s.thumbnail_size s.images_cache).getD []

def hasImage (s : GridState) (index : Nat) : Bool :=
  (dlookup index (images s)).isSome

/-- `_get_image` / `self.images[index]`. -/
def getImage (s : GridState) (index : Nat) : Option Nat :=
  dlookup index (images s)

/-- `_set_image` (`src/ui/virtual_grid.py:589-600`): store into the current
zoom level's dict, then apply the simple zoom-level LRU: when more than
`max_zoom_levels_cached` levels are cached, drop the first-inserted level
unless it is the current one. -/
def set_image (s : GridState) (index img : Nat) : GridState :=
  let cache1 := dinsert s.thumbnail_size
    (dinsert index img ((dlookup s.thumbnail_size s.images_cache).getD [])) s.images_cache
  if cache1.length > s.max_zoom_levels_cached then
    match cache1 with
    | [] => { s with images_cache := cache1 }
    | (oldest, _) :: restLevels =>
      if oldest ≠ s.thumbnail_size then { s with images_cache := restLevels }
      else { s with images_cache := cache1 }
  else { s with images_cache := cache1 }

/-- `_render_page_async`, submission side (`src/ui/virtual_grid.py:872-877`):
no-op when the index is already pending or already cached at the current
zoom level, else mark it pending.  The submitted background task is
modelled by `completeRender`. -/
def render_page_async (s : GridState) (index : Nat) : GridState :=
  if s.pending_renders.contains index ∨ hasImage s index then s
  else { s with pending_renders := s.pending_renders ++ [index] }

/-- `_clear_all_drawn_items`. -/
def clear_all_drawn_items (s : GridState) : GridState :=
  { s with canvas := s.canvas.deleteAll, drawn_items := [], static_items := [],
           last_visible_range := (0, 0) }

/-- `_delete_item_objects`: delete the `_base_ids` list, then every
non-metadata entry (the base and the overlays), then drop the record. -/
def delete_item_objects (s : GridState) (index : Nat) : GridState :=
  match dlookup index s.drawn_items with
  | none => s
  | some rec =>
    let cv := rec.base_ids.foldl (fun cv id => cv.delete id) s.canvas
    let cv := match rec.base with
      | some b => cv.delete b
      | none => cv
    let cv := rec.overlays.foldl (fun cv e => cv.delete e.2) cv
    { s with canvas := cv, drawn_items := derase index s.drawn_items }

end Podofilo.Grid


namespace Podofilo.Grid

open Podofilo Podofilo.Layout

/-- Store `item_data["base"]`. -/
def setRecBase (s : GridState) (index : Nat) (b : Option Nat) : GridState :=
  let rec0 := (dlookup index s.drawn_items).getD {}
  { s with drawn_items := dinsert index { rec0 with base := b } s.drawn_items }

/-- Store an overlay entry (`item_data["selection"] = id` and friends). -/
def setRecOverlay (s : GridState) (index : Nat) (key : String) (id : Nat) : GridState :=
  let rec0 := (dlookup index s.drawn_items).getD {}
  { s with drawn_items :=
      dinsert index { rec0 with overlays := sinsert key id rec0.overlays } s.drawn_items }

/-- Create a batch of canvas objects in order, returning their fresh ids. -/
def createObjs (s : GridState) : List CObj → List Nat × GridState
  | [] => ([], s)
  | o :: rest =>
    let r := createObj s o
    let rr := createObjs r.2 rest
    (r.1 :: rr.1, rr.2)

/-- The base-layer canvas objects of `_draw_box_base`
(`src/ui/virtual_grid.py:1865-1986`), in creation order: background
rectangle, thumbnail (when loaded and already built as `photo`), state
indicator, truncated name, page count.  Text metrics and raster sizes are
external, so centring offsets that depend on them keep the cell anchor, and
the queued-state follow-up text keeps the source's no-bbox fallback
position.  `int(bar_w * box.progress)` is a floor (both factors
nonnegative). -/
def boxBaseObjs (box : Box) (photo : Option Nat) (loading_ph : Option Nat)
    (x y w h : Int) : List CObj :=
  [{ kind := .rectangle, x := x, y := y, x2 := x + w, y2 := y + h }]
  ++ (match photo with
      | some p => [{ kind := .image, x := x, y := y + 10, img := p }]
      | none => [])
  ++ (match box.state with
      | BoxState.loading =>
        (match loading_ph with
         | some ph =>
           [{ kind := .image, x := x + (w - 80) / 2, y := y + (h - 80) / 2 - 30, img := ph }]
         | none => [])
        ++ [{ kind := .text, x := x + w / 2, y := y + h / 2 + 35, txt := "Cargando..." },
            { kind := .rectangle, x := x + 10, y := y + h - 40, x2 := x + 10 + (w - 20), y2 := y + h - 40 + 8 }]
        ++ (if Int.floor ((w - 20 : Int) * box.progress : Rat) > 0 then
              [{ kind := .rectangle, x := x + 10, y := y + h - 40,
                 x2 := x + 10 + Int.floor ((w - 20 : Int) * box.progress : Rat), y2 := y + h - 40 + 8 }]
            else [])
        ++ [{ kind := .text, x := x + w / 2, y := y + h - 40 + 8 + 10,
              txt := toString (Int.floor (box.progress * 100)) ++ "%" }]
      | BoxState.failed =>
        [{ kind := .text, x := x + w / 2, y := y + h / 2 - 10, txt := "↻" },
         { kind := .text, x := x + w / 2, y := y + h / 2 + 35, txt := "Click para reintentar" }]
      | BoxState.queued =>
        [{ kind := .text, x := x + w / 2, y := y + h / 2, txt := "⏳" },
         { kind := .text, x := x + w / 2, y := y + h / 2 + 35, txt := "En cola..." }]
      | BoxState.marked =>
        [{ kind := .line, x := x + 10, y := y + 10, x2 := x + w - 10, y2 := y + h - 10 },
         { kind := .line, x := x + w - 10, y := y + 10, x2 := x + 10, y2 := y + h - 10 }]
      | _ => [])
  ++ [{ kind := .text, x := x + w / 2, y := y + h - 25,
        txt := if box.name.length > 20 then box.name.take 17 ++ "..." else box.name }]
  ++ (if box.state = BoxState.loaded ∧ box.pages > 0 then
        [{ kind := .text, x := x + w / 2, y := y + h - 10, txt := toString box.pages ++ "p" }]
      else [])

/-- `_draw_box_base`: build the missing `box_images` PhotoImage for a loaded
box, create the base objects, and store `"base"`/`"_base_ids"` in the
tracking record. -/
def draw_box_base (s : GridState) (index : Nat) : GridState :=
  if index < s.positions.length then
    match s.document_boxes.get? index with
    | none => s
    | some box =>
      let p := s.positions.getD index (0, 0, 0, 0)
      let x : Int := p.1
      let y : Int := p.2.1
      let w : Int := p.2.2.1
      let h : Int := p.2.2.2
      let s :=
        if box.thumbnail.isSome ∧ box.state = BoxState.loaded
            ∧ (dlookup index s.box_images).isNone then
          { s with box_images := dinsert index (box.thumbnail.getD 0) s.box_images }
        else s
      let photo := if box.thumbnail.isSome ∧ box.state = BoxState.loaded then
        dlookup index s.box_images else none
      let r := createObjs s (boxBaseObjs box photo s.loading_placeholder x y w h)
      let base_ids := r.1
      let s := r.2
      let rec0 := (dlookup index s.drawn_items).getD {}
      { s with drawn_items := dinsert index { rec0 with base := base_ids.head?, base_ids := base_ids } s.drawn_items }
  else s

/-- Overlay bookkeeping target: a keyed entry of the item's record, or the
shared `_bracket_ids` list. -/
inductive OvTarget where
  | entry (key : String)
  | bracket
deriving DecidableEq, Repr

/-- Create overlay objects in order, recording each id under its target. -/
def applyOverlays (s : GridState) (index : Nat) : List (OvTarget × CObj) → GridState
  | [] => s
  | (t, o) :: rest =>
    let r := createObj s o
    let s2 := match t with
      | OvTarget.entry key => setRecOverlay r.2 index key r.1
      | OvTarget.bracket => { r.2 with bracket_ids := r.2.bracket_ids ++ [r.1] }
    applyOverlays s2 index rest

/-- The overlay objects of one page item, in creation order: selection tint,
mark cross, hover tint, selection bracket (the bracket only outside cut
mode, on the hovered side). -/
def pageOverlayList (sel marked hover : Bool) (bracket : Option Side)
    (x y w h : Int) : List (OvTarget × CObj) :=
  (if sel then [(OvTarget.entry "selection", { kind := .image, x := x, y := y, img := 0 })]
   else [])
  ++ (if marked then
        [(OvTarget.entry "mark1", { kind := .line, x := x, y := y, x2 := x + w, y2 := y + h }),
         (OvTarget.entry "mark2", { kind := .line, x := x + w, y := y, x2 := x, y2 := y + h })]
      else [])
  ++ (if hover then [(OvTarget.entry "hover", { kind := .image, x := x, y := y, img := 0 })]
      else [])
  ++ (match bracket with
      | some Side.left =>
        [(OvTarget.bracket, { kind := .line, x := x + 10, y := y, x2 := x, y2 := y + h })]
      | some Side.right =>
        [(OvTarget.bracket, { kind := .line, x := x + w - 10, y := y, x2 := x + w, y2 := y + h })]
      | none => [])

/-- The overlay objects of one box (`_draw_box_overlays`,
`src/ui/virtual_grid.py:1988-2024`): selection tint, hover tint, bracket. -/
def boxOverlayList (sel hover : Bool) (bracket : Option Side)
    (x y w h : Int) : List (OvTarget × CObj) :=
  (if sel then [(OvTarget.entry "selection", { kind := .image, x := x, y := y, img := 0 })]
   else [])
  ++ (if hover then [(OvTarget.entry "hover", { kind := .image, x := x, y := y, img := 0 })]
      else [])
  ++ (match bracket with
      | some Side.left =>
        [(OvTarget.bracket, { kind := .line, x := x + 10, y := y, x2 := x, y2 := y + h })]
      | some Side.right =>
        [(OvTarget.bracket, { kind := .line, x := x + w - 10, y := y, x2 := x + w, y2 := y + h })]
      | none => [])

/-- The hovered bracket side of an item: `hover_index == index` with a
non-null `hover_side`, outside cut mode. -/
def bracketSide (s : GridState) (index : Nat) : Option Side :=
  if ¬s.cut_mode ∧ s.hover_index = (index : Int) then s.hover_side else none

/-- `_draw_box_overlays`. -/
def draw_box_overlays (s : GridState) (index : Nat) : GridState :=
  if index < s.positions.length then
    let p := s.positions.getD index (0, 0, 0, 0)
    let s := if (dlookup index s.drawn_items).isSome then s
      else { s with drawn_items := dinsert index {} s.drawn_items }
    applyOverlays s index (boxOverlayList (decide (index ∈ s.selected_indices))
      (decide (s.hover_item_index = (index : Int))) (bracketSide s index)
      p.1 p.2.1 p.2.2.1 p.2.2.2)
  else s

/-- The reuse attempt on an existing base object in `_draw_item_smart`'s
page mode: move, refresh, replace or invalidate it, returning the surviving
base id (`none` when a fresh base must be created). -/
def pageBaseReuse (s : GridState) (index : Nat) (x y w h : Int) : GridState × Option Nat :=
  let rec0 := (dlookup index s.drawn_items).getD {}
  match rec0.base with
  | some b =>
    match s.canvas.typeOf b with
    | none =>
      -- `canvas.type` raised: the object no longer exists, recreate
      (setRecBase s index none, none)
    | some objType =>
      if hasImage s index then
        if objType = CKind.image then
          -- move the existing image object and refresh its raster
          ({ s with canvas := s.canvas.modify b (fun o =>
              { o with x := x, y := y, img := (getImage s index).getD o.img }) },
           some b)
        else
          -- it was a placeholder rectangle: replace it with the image
          let s := { s with canvas := s.canvas.delete b }
          let r := createObj s { kind := .image, x := x, y := y, img := (getImage s index).getD 0 }
          (setRecBase r.2 index (some r.1), some r.1)
      else if objType = CKind.rectangle then
        -- move the placeholder and request a render if none pending
        let s := { s with canvas := s.canvas.modify b (fun o =>
            { o with x := x, y := y, x2 := x + w, y2 := y + h }) }
        let s := if s.pending_renders.contains index then s
          else render_page_async s index
        (s, some b)
      else
        -- unknown object type: delete and recreate
        let s := { s with canvas := s.canvas.delete b }
        (setRecBase s index none, none)
  | none => (s, none)

/-- The page-mode base stage of `_draw_item_smart`: try to reuse the
existing base, else create an image or a placeholder rectangle (requesting
an async render in the latter case). -/
def drawPageBase (s : GridState) (index : Nat) (x y w h : Int) : GridState :=
  let sb := pageBaseReuse s index x y w h
  match sb.2 with
  | some _ => sb.1
  | none =>
    let s := sb.1
    if hasImage s index then
      let r := createObj s { kind := .image, x := x, y := y, img := (getImage s index).getD 0 }
      setRecBase r.2 index (some r.1)
    else
      let r := createObj s { kind := .rectangle, x := x, y := y, x2 := x + w, y2 := y + h }
      let s := if r.2.pending_renders.contains index then r.2
        else render_page_async r.2 index
      setRecBase s index (some r.1)

/-- `_draw_item_smart` (`src/ui/virtual_grid.py:1667-1790`): draw or update
one item, reusing the existing base object when its content token is
unchanged and recreating the cheap overlays.  In box mode, the
`item_data["_box_state"] = current_state` write at line 1706 mutates the
dict that was captured at line 1684 — `_delete_item_objects` has already
executed `del self._drawn_items[index]` and `_draw_box_base` has bound a
fresh dict there — so the live record never receives the token and the
branch ends with the recreated base; `_box_state` stays unset. -/
def draw_item_smart (s : GridState) (index : Nat) : GridState :=
  if index < s.positions.length then
    let p := s.positions.getD index (0, 0, 0, 0)
    let x : Int := p.1
    let y : Int := p.2.1
    let w : Int := p.2.2.1
    let h : Int := p.2.2.2
    let s := if (dlookup index s.drawn_items).isSome then s
      else { s with drawn_items := dinsert index {} s.drawn_items }
    let rec0 := (dlookup index s.drawn_items).getD {}
    if s.box_mode then
      match s.document_boxes.get? index with
      | none => s
      | some box =>
        let current_state := boxToken box
        let s :=
          if rec0.base = none ∨ rec0.box_state ≠ some current_state then
            let s := delete_item_objects s index
            draw_box_base s index
          else s
        draw_box_overlays s index
    else
      let s := drawPageBase s index x y w h
      applyOverlays s index (pageOverlayList (decide (index ∈ s.selected_indices))
        (decide (index ∈ s.marked_indices)) (decide (s.hover_item_index = (index : Int)))
        (bracketSide s index) x y w h)
  else s

end Podofilo.Grid


namespace Podofilo.Grid

open Podofilo Podofilo.Layout

/-- The per-item overlay purge of `redraw` step 2: delete every non-base,
non-metadata canvas object of the record and drop those entries. -/
def delete_item_overlays (s : GridState) (index : Nat) : GridState :=
  match dlookup index s.drawn_items with
  | none => s
  | some rec =>
    let cv := rec.overlays.foldl (fun cv e => cv.delete e.2) s.canvas
    { s with canvas := cv,
             drawn_items := dinsert index { rec with overlays := [] } s.drawn_items }

/-- `_draw_empty_state`: the shortcut table shown when there are no items —
one command text and one shortcut text per row, 9 rows plus 2 when OVE is
enabled; nothing is drawn on a tiny canvas.  (The created ids are not
tracked by the source either.) -/
def draw_empty_state (s : GridState) (view_width view_height : Int) : GridState :=
  if view_width < 100 ∨ view_height < 100 then s
  else
    let rows := 9 + (if s.ove_enabled then 2 else 0)
    (List.range rows).foldl (fun s _ =>
      let r1 := createObj s { kind := .text }
      let r2 := createObj r1.2 { kind := .text }
      r2.2) s

/-- `_draw_cut_indicator` (`src/ui/virtual_grid.py:1553-1618`): the dashed
split line plus the scissors glyph (or a three-object fallback) at the
hovered gap; all created ids are tracked in `_cut_indicator_ids`.
`(xl + wl + xr) / 2` is float division in the source; the model keeps the
integer pixel. -/
def draw_cut_indicator (s : GridState) : GridState :=
  match s.hover_gap with
  | none => s
  | some gap =>
    if s.positions.isEmpty then s
    else
      let coords : Option (Int × Int × Int × Int × Int × Int) :=
        if gap = 0 then
          let p := s.positions.getD 0 (0, 0, 0, 0)
          let cx : Int := p.1
          some (cx, p.2.1 + p.2.2.2 / 2, cx, p.2.1, cx, p.2.1 + p.2.2.2)
        else if gap ≥ s.positions.length then
          let p := s.positions.getD (s.positions.length - 1) (0, 0, 0, 0)
          let cx : Int := p.1 + p.2.2.1
          some (cx, p.2.1 + p.2.2.2 / 2, cx, p.2.1, cx, p.2.1 + p.2.2.2)
        else
          let pl := s.positions.getD (gap - 1) (0, 0, 0, 0)
          let pr := s.positions.getD gap (0, 0, 0, 0)
          let yl : Int := pl.2.1
          let yr : Int := pr.2.1
          if (yl - yr).natAbs < 10 then
            let cx : Int := (pl.1 + pl.2.2.1 + pr.1) / 2
            some (cx, yl + pl.2.2.2 / 2, cx, yl, cx, yl + pl.2.2.2)
          else
            let cx : Int := pr.1
            some (cx, yr + pr.2.2.2 / 2, cx, yr, cx, yr + pr.2.2.2)
      match coords with
      | none => s
      | some (cx, cy, lx, ly, lx2, ly2) =>
        let r1 := createObj s { kind := .line, x := lx, y := ly, x2 := lx2, y2 := ly2 }
        let s := { r1.2 with cut_indicator_ids := r1.2.cut_indicator_ids ++ [r1.1] }
        match s.scissors_image with
        | some sc =>
          let r2 := createObj s { kind := .image, x := cx, y := cy, img := sc }
          { r2.2 with cut_indicator_ids := r2.2.cut_indicator_ids ++ [r2.1] }
        | none =>
          let r2 := createObj s { kind := .oval, x := cx - 8, y := cy - 8, x2 := cx + 8, y2 := cy + 8 }
          let r3 := createObj r2.2 { kind := .line, x := cx - 4, y := cy - 4, x2 := cx + 4, y2 := cy + 4 }
          let r4 := createObj r3.2 { kind := .line, x := cx - 4, y := cy + 4, x2 := cx + 4, y2 := cy - 4 }
          { r4.2 with cut_indicator_ids := r4.2.cut_indicator_ids ++ [r2.1, r3.1, r4.1] }

/-- `_draw_drop_indicator` (`src/ui/virtual_grid.py:1620-1665`): the
insertion line drawn during a drag, as an untracked image object (the
PhotoImage is held in `_drop_line_refs`, which holds no canvas ids). -/
def draw_drop_indicator (s : GridState) : GridState :=
  let geom : Option (Int × Int) :=
    match s.drop_target_section with
    | some sec =>
      let last_idx : Int := (sec.end_page : Int) - 1
      if 0 ≤ last_idx ∧ last_idx < (s.positions.length : Int) then
        let p := s.positions.getD last_idx.toNat (0, 0, 0, 0)
        some ((p.1 : Int) + p.2.2.1 - 11, p.2.1)
      else none
    | none =>
      if s.drop_indicator_index = (s.item_count : Int) ∧ s.item_count > 0 then
        let p := s.positions.getD (s.positions.length - 1) (0, 0, 0, 0)
        some ((p.1 : Int) + p.2.2.1 - 11, p.2.1)
      else if 0 ≤ s.drop_indicator_index ∧ s.drop_indicator_index < (s.item_count : Int) then
        if s.drop_indicator_index < (s.positions.length : Int) then
          let p := s.positions.getD s.drop_indicator_index.toNat (0, 0, 0, 0)
          some ((p.1 : Int) - 14, p.2.1)
        else none
      else none
  match geom with
  | none => s
  | some g =>
    let r := createObj s { kind := .image, x := g.1, y := g.2 }
    r.2

/-- `redraw` (`src/ui/virtual_grid.py:1297-1386`), the smart-redraw cycle:
clear the ephemeral indicator and bracket objects, compute the visible
range, special-case the empty grid, drop the records of items that left the
view, destroy every remaining overlay, then draw or update each visible
item and the ephemeral indicators.  (`_drop_line_refs`, `_overlay_refs` and
the header hit zones hold no canvas ids; the drag-fan image and the
tag-scoped continuous-mode section headers are outside the model.) -/
def redraw_cleanup (s : GridState) : GridState :=
  let s := { s with canvas := s.cut_indicator_ids.foldl (fun cv i => cv.delete i) s.canvas,
                    cut_indicator_ids := [] }
  { s with canvas := s.bracket_ids.foldl (fun cv i => cv.delete i) s.canvas,
           bracket_ids := [] }

/-- Steps 1-4 of `redraw` for a non-empty grid: drop leftover static items,
drop the records of items that left the view (a set difference; the
deletions are independent, iterated in record order), destroy every
remaining overlay, draw or update each visible item, then the ephemeral
indicators. -/
def redraw_visible (s : GridState) (vr : Nat × Nat) : GridState :=
  let s := { s with canvas := s.static_items.foldl (fun cv i => cv.delete i) s.canvas,
                    static_items := [] }
  let toRemove := (s.drawn_items.map Prod.fst).filter (fun i => ¬(vr.1 ≤ i ∧ i < vr.2))
  let s := toRemove.foldl delete_item_objects s
  let s := (s.drawn_items.map Prod.fst).foldl delete_item_overlays s
  let s := (List.range' vr.1 (vr.2 - vr.1)).foldl draw_item_smart s
  let s := if s.cut_mode ∧ s.hover_gap ≠ none then draw_cut_indicator s else s
  let s := if s.drop_indicator_index ≠ -1 ∨ s.drop_target_section ≠ none then
    draw_drop_indicator s else s
  { s with last_visible_range := vr }

/-- `redraw` (`src/ui/virtual_grid.py:1297-1386`), the smart-redraw cycle:
clear the ephemeral indicator and bracket objects, compute the visible
range, special-case the empty grid, and otherwise run the visible-item
pass.  (`_drop_line_refs`, `_overlay_refs` and the header hit zones hold no
canvas ids; the drag-fan image and the tag-scoped continuous-mode section
headers are outside the model.) -/
def redraw (s : GridState) (scroll_y view_height view_width : Int) : GridState :=
  let s := redraw_cleanup s
  let vr := Layout.get_visible_range s.positions scroll_y view_height
  if s.item_count = 0 then
    draw_empty_state (clear_all_drawn_items s) view_width view_height
  else
    redraw_visible s vr

/-- `_update_layout`: recompute the positions from the current item sizes
and canvas width (the scroll-region and scrollbar updates touch no modelled
state). -/
def update_layout (s : GridState) (view_width : Int) : GridState :=
  { s with positions :=
      (Layout.update s.item_sizes view_width s.sections s.continuous_mode).positions }

/-- `set_thumbnail_size` (`src/ui/virtual_grid.py:693-735`): set the new
size, recompute `item_sizes` from the aspect ratios, clear the pending
renders and the smart-redraw tracking, relayout and redraw.  The
multi-level `images_cache` is deliberately NOT cleared.  (The overlay
PhotoImage caches the source clears hold no canvas objects; the deferred
`_preload_adjacent_zoom_levels` job is asynchronous and not part of this
call.) -/
def set_thumbnail_size (s : GridState) (size : Nat)
    (scroll_y view_height view_width : Int) : GridState :=
  let s := { s with thumbnail_size := size,
                    item_sizes := s.aspect_ratios.map
                      (fun a => ((pyRound ((size : Rat) * a)).toNat, size)) }
  let s := { s with pending_renders := [] }
  let s := clear_all_drawn_items s
  let s := update_layout s view_width
  redraw s scroll_y view_height view_width

/-- Outcome of one background render task (`render_task` inside
`_render_page_async`): the external `on_request_image` returned a raster of
the given intrinsic size, or it raised / returned `None`. -/
inductive RenderOutcome where
  | success (img : Nat) (imgW imgH : Rat)
  | failure
deriving DecidableEq, Repr

/-- `_on_render_complete` (`src/ui/virtual_grid.py:893-920`): on the UI
thread, refresh the aspect ratio if it still has the 0.707 default, then
store the raster in the multi-level cache.  (The conditional redraw that
follows when the index is visible is applied by the caller.) -/
def on_render_complete (s : GridState) (index img : Nat) (imgW imgH : Rat) : GridState :=
  if s.shutdown then s
  else
    let actual_aspect : Rat := if imgH > 0 then imgW / imgH else 707 / 1000
    let s :=
      if index < s.aspect_ratios.length ∧ s.aspect_ratios.getD index 0 = 707 / 1000 then
        { s with aspect_ratios := s.aspect_ratios.set index actual_aspect,
                 item_sizes := s.item_sizes.set index
                   ((pyRound ((s.thumbnail_size : Rat) * actual_aspect)).toNat, s.thumbnail_size),
                 original_item_sizes := s.original_item_sizes.set index
                   ((pyRound ((s.thumbnail_size : Rat) * actual_aspect)).toNat, s.thumbnail_size) }
      else s
    set_image s index img

/-- Completion of a submitted render task: on success the task schedules
`_on_render_complete` on the UI thread; in every case the `finally:` block
clears the pending entry (before the UI callback runs, as `after(0, ...)`
only schedules it). -/
def completeRender (s : GridState) (index : Nat) (o : RenderOutcome) : GridState :=
  match o with
  | .success img w h =>
    let s := { s with pending_renders := s.pending_renders.erase index }
    on_render_complete s index img w h
  | .failure => { s with pending_renders := s.pending_renders.erase index }

/-- `reorder_selected_boxes` (`src/ui/virtual_grid.py:1082-1126`).  The
Python list indexing `self.document_boxes[i]` raises for an out-of-range
selection index before any mutation; that abort is the `none` result.
`insertion_index = max(0, min(...))`: the subtraction never goes below zero
(`removed_before_target` counts selected indices below the clamped target),
so truncated subtraction plus the upper clamp is exact. -/
def reorder_selected_boxes (s : GridState) (target_index : Int)
    (scroll_y view_height view_width : Int) : Option (GridState × Bool) :=
  if ¬s.box_mode ∨ s.selected_indices = ∅ then some (s, false)
  else
    let selectedL := s.selected_indices.sort (· ≤ ·)
    let target1 := (max 0 (min target_index (s.document_boxes.length : Int))).toNat
    match selectedL.mapM (fun i => s.document_boxes.get? i) with
    | none => none
    | some boxes_to_move =>
      let remaining := ((s.document_boxes.enum).filter
        (fun p => ¬p.1 ∈ s.selected_indices)).map Prod.snd
      if boxes_to_move.isEmpty then some (s, false)
      else
        let removed_before := (selectedL.filter (fun i => i < target1)).length
        let insertion_index := min (target1 - removed_before) remaining.length
        let s := { s with
                   document_boxes := remaining.take insertion_index ++ boxes_to_move
                     ++ remaining.drop insertion_index,
                   box_images := [] }
        let s := clear_all_drawn_items s
        let s := { s with selected_indices :=
                     Finset.Ico insertion_index (insertion_index + boxes_to_move.length) }
        let s := update_layout s view_width
        some (redraw s scroll_y view_height view_width, true)

end Podofilo.Grid


namespace Podofilo.Grid

open Podofilo

/-- Generic projection transport through `createObjs`. -/
lemma createObjs_proj {α : Type} (g : GridState → α)
    (hg : ∀ s o, g (createObj s o).2 = g s) (os : List CObj) :
    ∀ s, g (createObjs s os).2 = g s := by
  induction os with
  | nil => intro s; rfl
  | cons o rest ih => intro s; exact (ih _).trans (hg s o)

/-- Generic projection transport through `applyOverlays`. -/
lemma applyOverlays_proj {α : Type} (g : GridState → α)
    (hg : ∀ s i k id, g (setRecOverlay s i k id) = g s)
    (hb : ∀ (s : GridState) (ids : List Nat), g { s with bracket_ids := ids } = g s)
    (hc : ∀ s o, g (createObj s o).2 = g s) (l : List (OvTarget × CObj)) :
    ∀ (s : GridState) (i : Nat), g (applyOverlays s i l) = g s := by
  induction l with
  | nil => intro s i; rfl
  | cons hd rest ih =>
    intro s i
    obtain ⟨t, o⟩ := hd
    cases t with
    | entry key => exact (ih _ _).trans ((hg _ _ _ _).trans (hc _ _))
    | bracket => exact (ih _ _).trans ((hb _ _).trans (hc _ _))

@[simp] lemma createObjs_images_cache (os : List CObj) (s : GridState) :
    ((createObjs s os).2).images_cache = s.images_cache :=
  createObjs_proj (fun t => t.images_cache) (fun _ _ => rfl) os s

@[simp] lemma createObjs_thumbnail_size (os : List CObj) (s : GridState) :
    ((createObjs s os).2).thumbnail_size = s.thumbnail_size :=
  createObjs_proj (fun t => t.thumbnail_size) (fun _ _ => rfl) os s

@[simp] lemma createObjs_pending (os : List CObj) (s : GridState) :
    ((createObjs s os).2).pending_renders = s.pending_renders :=
  createObjs_proj (fun t => t.pending_renders) (fun _ _ => rfl) os s

@[simp] lemma applyOverlays_images_cache (l : List (OvTarget × CObj)) (s : GridState) (i : Nat) :
    (applyOverlays s i l).images_cache = s.images_cache :=
  applyOverlays_proj (fun t => t.images_cache) (fun _ _ _ _ => rfl) (fun _ _ => rfl)
    (fun _ _ => rfl) l s i

@[simp] lemma applyOverlays_thumbnail_size (l : List (OvTarget × CObj)) (s : GridState) (i : Nat) :
    (applyOverlays s i l).thumbnail_size = s.thumbnail_size :=
  applyOverlays_proj (fun t => t.thumbnail_size) (fun _ _ _ _ => rfl) (fun _ _ => rfl)
    (fun _ _ => rfl) l s i

@[simp] lemma applyOverlays_pending (l : List (OvTarget × CObj)) (s : GridState) (i : Nat) :
    (applyOverlays s i l).pending_renders = s.pending_renders :=
  applyOverlays_proj (fun t => t.pending_renders) (fun _ _ _ _ => rfl) (fun _ _ => rfl)
    (fun _ _ => rfl) l s i

@[simp] lemma setRecBase_pending (s : GridState) (i : Nat) (b : Option Nat) :
    (setRecBase s i b).pending_renders = s.pending_renders := rfl

@[simp] lemma createObj_snd_pending (s : GridState) (o : CObj) :
    ((createObj s o).2).pending_renders = s.pending_renders := rfl

@[simp] lemma setRecBase_images_cache (s : GridState) (i : Nat) (b : Option Nat) :
    (setRecBase s i b).images_cache = s.images_cache := rfl

@[simp] lemma setRecBase_thumbnail_size (s : GridState) (i : Nat) (b : Option Nat) :
    (setRecBase s i b).thumbnail_size = s.thumbnail_size := rfl

/-- `hasImage` only reads `images_cache` and `thumbnail_size`. -/
lemma hasImage_eq (s1 s2 : GridState) (i : Nat)
    (h1 : s1.images_cache = s2.images_cache) (h2 : s1.thumbnail_size = s2.thumbnail_size) :
    hasImage s1 i = hasImage s2 i := by
  unfold hasImage images
  rw [h1, h2]

/-- The cache view `(images_cache, thumbnail_size)` is untouched by every
drawing-path function. -/
lemma render_page_async_cache (s : GridState) (i : Nat) :
    (render_page_async s i).images_cache = s.images_cache ∧
    (render_page_async s i).thumbnail_size = s.thumbnail_size ∧
    (render_page_async s i).box_mode = s.box_mode := by
  unfold render_page_async
  split <;> exact ⟨rfl, rfl, rfl⟩

lemma delete_item_objects_cache (s : GridState) (i : Nat) :
    (delete_item_objects s i).images_cache = s.images_cache ∧
    (delete_item_objects s i).thumbnail_size = s.thumbnail_size ∧
    (delete_item_objects s i).pending_renders = s.pending_renders ∧
    (delete_item_objects s i).box_mode = s.box_mode := by
  unfold delete_item_objects
  split <;> exact ⟨rfl, rfl, rfl, rfl⟩

lemma delete_item_overlays_cache (s : GridState) (i : Nat) :
    (delete_item_overlays s i).images_cache = s.images_cache ∧
    (delete_item_overlays s i).thumbnail_size = s.thumbnail_size ∧
    (delete_item_overlays s i).pending_renders = s.pending_renders ∧
    (delete_item_overlays s i).box_mode = s.box_mode := by
  unfold delete_item_overlays
  split <;> exact ⟨rfl, rfl, rfl, rfl⟩

lemma draw_box_base_cache (s : GridState) (i : Nat) :
    (draw_box_base s i).images_cache = s.images_cache ∧
    (draw_box_base s i).thumbnail_size = s.thumbnail_size ∧
    (draw_box_base s i).pending_renders = s.pending_renders := by
  unfold draw_box_base
  repeat' split
  all_goals simp

lemma draw_box_overlays_cache (s : GridState) (i : Nat) :
    (draw_box_overlays s i).images_cache = s.images_cache ∧
    (draw_box_overlays s i).thumbnail_size = s.thumbnail_size ∧
    (draw_box_overlays s i).pending_renders = s.pending_renders := by
  unfold draw_box_overlays
  repeat' split
  all_goals simp

lemma pageBaseReuse_cache (s : GridState) (i : Nat) (x y w h : Int) :
    (pageBaseReuse s i x y w h).1.images_cache = s.images_cache ∧
    (pageBaseReuse s i x y w h).1.thumbnail_size = s.thumbnail_size := by
  unfold pageBaseReuse
  repeat' split
  all_goals simp [setRecBase, render_page_async, createObj]
  all_goals repeat' split
  all_goals simp [setRecBase, render_page_async, createObj]

lemma drawPageBase_cache (s : GridState) (i : Nat) (x y w h : Int) :
    (drawPageBase s i x y w h).images_cache = s.images_cache ∧
    (drawPageBase s i x y w h).thumbnail_size = s.thumbnail_size := by
  unfold drawPageBase
  dsimp only
  have h1 := pageBaseReuse_cache s i x y w h
  cases hsb : (pageBaseReuse s i x y w h).2 with
  | some b =>
    simpa using h1
  | none =>
    constructor
    all_goals repeat' split
    all_goals simp [setRecBase, createObj, h1.1, h1.2, render_page_async_cache]

@[simp] lemma render_page_async_images (s : GridState) (i : Nat) :
    (render_page_async s i).images_cache = s.images_cache := (render_page_async_cache s i).1

@[simp] lemma render_page_async_thumb (s : GridState) (i : Nat) :
    (render_page_async s i).thumbnail_size = s.thumbnail_size := (render_page_async_cache s i).2.1

@[simp] lemma delete_item_objects_images (s : GridState) (i : Nat) :
    (delete_item_objects s i).images_cache = s.images_cache := (delete_item_objects_cache s i).1

@[simp] lemma delete_item_objects_thumb (s : GridState) (i : Nat) :
    (delete_item_objects s i).thumbnail_size = s.thumbnail_size :=
  (delete_item_objects_cache s i).2.1

@[simp] lemma delete_item_objects_pending (s : GridState) (i : Nat) :
    (delete_item_objects s i).pending_renders = s.pending_renders :=
  (delete_item_objects_cache s i).2.2.1

@[simp] lemma delete_item_overlays_images (s : GridState) (i : Nat) :
    (delete_item_overlays s i).images_cache = s.images_cache := (delete_item_overlays_cache s i).1

@[simp] lemma delete_item_overlays_thumb (s : GridState) (i : Nat) :
    (delete_item_overlays s i).thumbnail_size = s.thumbnail_size :=
  (delete_item_overlays_cache s i).2.1

@[simp] lemma delete_item_overlays_pending (s : GridState) (i : Nat) :
    (delete_item_overlays s i).pending_renders = s.pending_renders :=
  (delete_item_overlays_cache s i).2.2.1

@[simp] lemma draw_box_base_images (s : GridState) (i : Nat) :
    (draw_box_base s i).images_cache = s.images_cache := (draw_box_base_cache s i).1

@[simp] lemma draw_box_base_thumb (s : GridState) (i : Nat) :
    (draw_box_base s i).thumbnail_size = s.thumbnail_size := (draw_box_base_cache s i).2.1

@[simp] lemma draw_box_base_pending (s : GridState) (i : Nat) :
    (draw_box_base s i).pending_renders = s.pending_renders := (draw_box_base_cache s i).2.2

@[simp] lemma draw_box_overlays_images (s : GridState) (i : Nat) :
    (draw_box_overlays s i).images_cache = s.images_cache := (draw_box_overlays_cache s i).1

@[simp] lemma draw_box_overlays_thumb (s : GridState) (i : Nat) :
    (draw_box_overlays s i).thumbnail_size = s.thumbnail_size := (draw_box_overlays_cache s i).2.1

@[simp] lemma draw_box_overlays_pending (s : GridState) (i : Nat) :
    (draw_box_overlays s i).pending_renders = s.pending_renders :=
  (draw_box_overlays_cache s i).2.2

@[simp] lemma drawPageBase_images (s : GridState) (i : Nat) (x y w h : Int) :
    (drawPageBase s i x y w h).images_cache = s.images_cache := (drawPageBase_cache s i x y w h).1

@[simp] lemma drawPageBase_thumb (s : GridState) (i : Nat) (x y w h : Int) :
    (drawPageBase s i x y w h).thumbnail_size = s.thumbnail_size :=
  (drawPageBase_cache s i x y w h).2

lemma draw_item_smart_cache (s : GridState) (i : Nat) :
    (draw_item_smart s i).images_cache = s.images_cache ∧
    (draw_item_smart s i).thumbnail_size = s.thumbnail_size := by
  unfold draw_item_smart
  refine ⟨?_, ?_⟩
  all_goals repeat' split
  all_goals try simp
  all_goals repeat' split
  all_goals try simp

end Podofilo.Grid


namespace Podofilo.Grid

open Podofilo

@[simp] lemma hasImage_render (s : GridState) (j i : Nat) :
    hasImage (render_page_async s j) i = hasImage s i :=
  hasImage_eq _ _ _ (render_page_async_cache s j).1 (render_page_async_cache s j).2.1

@[simp] lemma hasImage_createObj (s : GridState) (o : CObj) (i : Nat) :
    hasImage ((createObj s o).2) i = hasImage s i := rfl

@[simp] lemma hasImage_setRecBase (s : GridState) (j : Nat) (b : Option Nat) (i : Nat) :
    hasImage (setRecBase s j b) i = hasImage s i := rfl

lemma render_page_async_mem (s : GridState) (idx i : Nat)
    (h : i ∈ (render_page_async s idx).pending_renders) :
    i ∈ s.pending_renders ∨ (i = idx ∧ hasImage s idx = false) := by
  unfold render_page_async at h
  split at h
  · exact Or.inl h
  · rename_i hguard
    rcases List.mem_append.mp h with h1 | h2
    · exact Or.inl h1
    · refine Or.inr ⟨by simpa using h2, ?_⟩
      rcases Bool.eq_false_or_eq_true (hasImage s idx) with ht | hf
      · exact absurd (Or.inr ht) hguard
      · exact hf

lemma pageBaseReuse_pending_mem (s : GridState) (idx : Nat) (x y w h : Int) (i : Nat)
    (hmem : i ∈ (pageBaseReuse s idx x y w h).1.pending_renders) :
    i ∈ s.pending_renders ∨ (i = idx ∧ hasImage s idx = false) := by
  unfold pageBaseReuse at hmem
  repeat' (first
    | split at hmem
    | simp only [setRecBase_pending, createObj_snd_pending] at hmem)
  all_goals first
    | exact Or.inl hmem
    | (rcases render_page_async_mem _ _ _ hmem with h1 | h2
       · exact Or.inl h1
       · (refine Or.inr ⟨h2.1, ?_⟩
          simpa [hasImage, images] using h2.2))

lemma drawPageBase_pending_mem (s : GridState) (idx : Nat) (x y w h : Int) (i : Nat)
    (hmem : i ∈ (drawPageBase s idx x y w h).pending_renders) :
    i ∈ s.pending_renders ∨ (i = idx ∧ hasImage s idx = false) := by
  have hc := pageBaseReuse_cache s idx x y w h
  unfold drawPageBase at hmem
  dsimp only at hmem
  cases hsb : (pageBaseReuse s idx x y w h).2 with
  | some b =>
    rw [hsb] at hmem
    exact pageBaseReuse_pending_mem s idx x y w h i hmem
  | none =>
    rw [hsb] at hmem
    dsimp only at hmem
    split at hmem
    · -- cached: a fresh image base, pending untouched
      simp only [setRecBase_pending, createObj_snd_pending] at hmem
      exact pageBaseReuse_pending_mem s idx x y w h i hmem
    · -- placeholder rectangle branch
      simp only [setRecBase_pending] at hmem
      split at hmem
      · simp only [createObj_snd_pending] at hmem
        exact pageBaseReuse_pending_mem s idx x y w h i hmem
      · rcases render_page_async_mem _ _ _ hmem with h1 | h2
        · simp only [createObj_snd_pending] at h1
          exact pageBaseReuse_pending_mem s idx x y w h i h1
        · refine Or.inr ⟨h2.1, ?_⟩
          have h3 := h2.2
          simp only [hasImage_createObj] at h3
          rwa [hasImage_eq _ s idx hc.1 hc.2] at h3

lemma draw_item_smart_pending_mem (s : GridState) (idx i : Nat)
    (hmem : i ∈ (draw_item_smart s idx).pending_renders) :
    i ∈ s.pending_renders ∨ (i = idx ∧ hasImage s idx = false) := by
  unfold draw_item_smart at hmem
  repeat' (first
    | split at hmem
    | dsimp only at hmem)
  all_goals try simp only [applyOverlays_pending, draw_box_overlays_pending,
    draw_box_base_pending, delete_item_objects_pending] at hmem
  all_goals first
    | exact Or.inl hmem
    | (rcases drawPageBase_pending_mem _ _ _ _ _ _ _ hmem with h1 | h2
       · exact Or.inl h1
       · exact Or.inr ⟨h2.1, h2.2⟩)

lemma foldl_draw_item_smart_cache (l : List Nat) : ∀ s : GridState,
    ((l.foldl draw_item_smart s).images_cache = s.images_cache ∧
     (l.foldl draw_item_smart s).thumbnail_size = s.thumbnail_size) := by
  induction l with
  | nil => intro s; exact ⟨rfl, rfl⟩
  | cons j t ih =>
    intro s
    rw [List.foldl_cons]
    exact ⟨(ih _).1.trans (draw_item_smart_cache s j).1,
           (ih _).2.trans (draw_item_smart_cache s j).2⟩

lemma foldl_draw_item_smart_pending_mem (l : List Nat) : ∀ (s : GridState) (i : Nat),
    i ∈ (l.foldl draw_item_smart s).pending_renders →
    i ∈ s.pending_renders ∨ hasImage s i = false := by
  induction l with
  | nil => exact fun s i h => Or.inl h
  | cons j t ih =>
    intro s i h
    rw [List.foldl_cons] at h
    rcases ih _ i h with h1 | h2
    · rcases draw_item_smart_pending_mem s j i h1 with h3 | h4
      · exact Or.inl h3
      · exact Or.inr (h4.1 ▸ h4.2)
    · right
      rwa [hasImage_eq _ _ _ (draw_item_smart_cache s j).1 (draw_item_smart_cache s j).2] at h2

lemma draw_cut_indicator_cache (s : GridState) :
    (draw_cut_indicator s).images_cache = s.images_cache ∧
    (draw_cut_indicator s).thumbnail_size = s.thumbnail_size ∧
    (draw_cut_indicator s).pending_renders = s.pending_renders := by
  unfold draw_cut_indicator
  repeat' (first
    | split
    | dsimp only)
  all_goals exact ⟨rfl, rfl, rfl⟩

lemma draw_drop_indicator_cache (s : GridState) :
    (draw_drop_indicator s).images_cache = s.images_cache ∧
    (draw_drop_indicator s).thumbnail_size = s.thumbnail_size ∧
    (draw_drop_indicator s).pending_renders = s.pending_renders := by
  unfold draw_drop_indicator
  repeat' (first
    | split
    | dsimp only)
  all_goals exact ⟨rfl, rfl, rfl⟩

lemma draw_empty_state_cache (s : GridState) (vw vh : Int) :
    (draw_empty_state s vw vh).images_cache = s.images_cache ∧
    (draw_empty_state s vw vh).thumbnail_size = s.thumbnail_size ∧
    (draw_empty_state s vw vh).pending_renders = s.pending_renders := by
  unfold draw_empty_state
  split
  · exact ⟨rfl, rfl, rfl⟩
  · dsimp only
    generalize List.range (9 + (if s.ove_enabled = true then 2 else 0)) = l
    induction l generalizing s with
    | nil => exact ⟨rfl, rfl, rfl⟩
    | cons a t ih => exact ih _

lemma foldl_delete_item_objects_cache (l : List Nat) : ∀ s : GridState,
    (l.foldl delete_item_objects s).images_cache = s.images_cache ∧
    (l.foldl delete_item_objects s).thumbnail_size = s.thumbnail_size ∧
    (l.foldl delete_item_objects s).pending_renders = s.pending_renders := by
  induction l with
  | nil => intro s; exact ⟨rfl, rfl, rfl⟩
  | cons j t ih =>
    intro s
    rw [List.foldl_cons]
    refine ⟨(ih _).1.trans ?_, (ih _).2.1.trans ?_, (ih _).2.2.trans ?_⟩ <;> simp

lemma foldl_delete_item_overlays_cache (l : List Nat) : ∀ s : GridState,
    (l.foldl delete_item_overlays s).images_cache = s.images_cache ∧
    (l.foldl delete_item_overlays s).thumbnail_size = s.thumbnail_size ∧
    (l.foldl delete_item_overlays s).pending_renders = s.pending_renders := by
  induction l with
  | nil => intro s; exact ⟨rfl, rfl, rfl⟩
  | cons j t ih =>
    intro s
    rw [List.foldl_cons]
    refine ⟨(ih _).1.trans ?_, (ih _).2.1.trans ?_, (ih _).2.2.trans ?_⟩ <;> simp

lemma redraw_visible_cache (s : GridState) (vr : Nat × Nat) :
    (redraw_visible s vr).images_cache = s.images_cache ∧
    (redraw_visible s vr).thumbnail_size = s.thumbnail_size := by
  unfold redraw_visible
  constructor
  all_goals
    simp only [foldl_draw_item_smart_cache, foldl_delete_item_objects_cache,
      foldl_delete_item_overlays_cache]
  all_goals repeat' split
  all_goals simp [draw_cut_indicator_cache, draw_drop_indicator_cache,
    (foldl_draw_item_smart_cache _ _).1, (foldl_draw_item_smart_cache _ _).2,
    (foldl_delete_item_objects_cache _ _).1, (foldl_delete_item_objects_cache _ _).2.1,
    (foldl_delete_item_overlays_cache _ _).1, (foldl_delete_item_overlays_cache _ _).2.1,
    (draw_cut_indicator_cache _).1, (draw_cut_indicator_cache _).2.1,
    (draw_drop_indicator_cache _).1, (draw_drop_indicator_cache _).2.1]

lemma redraw_visible_pending_mem (s : GridState) (vr : Nat × Nat) (i : Nat)
    (hmem : i ∈ (redraw_visible s vr).pending_renders) :
    i ∈ s.pending_renders ∨ hasImage s i = false := by
  unfold redraw_visible at hmem
  dsimp only at hmem
  repeat' split at hmem
  all_goals try rw [(draw_drop_indicator_cache _).2.2] at hmem
  all_goals try rw [(draw_cut_indicator_cache _).2.2] at hmem
  all_goals
    rcases foldl_draw_item_smart_pending_mem _ _ _ hmem with h1 | h2
  all_goals first
    | (left
       rw [(foldl_delete_item_overlays_cache _ _).2.2,
           (foldl_delete_item_objects_cache _ _).2.2] at h1
       exact h1)
    | (right
       rw [hasImage_eq _ _ i (foldl_delete_item_overlays_cache _ _).1
             (foldl_delete_item_overlays_cache _ _).2.1,
           hasImage_eq _ _ i (foldl_delete_item_objects_cache _ _).1
             (foldl_delete_item_objects_cache _ _).2.1] at h2
       exact h2)

lemma redraw_cache (s : GridState) (sy vh vw : Int) :
    (redraw s sy vh vw).images_cache = s.images_cache ∧
    (redraw s sy vh vw).thumbnail_size = s.thumbnail_size := by
  unfold redraw
  constructor
  all_goals dsimp only
  all_goals split
  · exact (draw_empty_state_cache _ _ _).1
  · exact (redraw_visible_cache _ _).1
  · exact (draw_empty_state_cache _ _ _).2.1
  · exact (redraw_visible_cache _ _).2

lemma redraw_pending_mem (s : GridState) (sy vh vw : Int) (i : Nat)
    (hmem : i ∈ (redraw s sy vh vw).pending_renders) :
    i ∈ s.pending_renders ∨ hasImage s i = false := by
  unfold redraw at hmem
  dsimp only at hmem
  split at hmem
  · left
    rw [(draw_empty_state_cache _ _ _).2.2] at hmem
    exact hmem
  · rcases redraw_visible_pending_mem _ _ _ hmem with h1 | h2
    · exact Or.inl h1
    · exact Or.inr h2

lemma set_thumbnail_size_cache (s : GridState) (size : Nat) (sy vh vw : Int) :
    (set_thumbnail_size s size sy vh vw).images_cache = s.images_cache ∧
    (set_thumbnail_size s size sy vh vw).thumbnail_size = size := by
  unfold set_thumbnail_size
  dsimp only
  exact ⟨(redraw_cache _ _ _ _).1, (redraw_cache _ _ _ _).2⟩

lemma set_thumbnail_size_pending (s : GridState) (size : Nat) (sy vh vw : Int) (i : Nat)
    (hmem : i ∈ (set_thumbnail_size s size sy vh vw).pending_renders) :
    dlookup i ((dlookup size s.images_cache).getD []) = none := by
  unfold set_thumbnail_size at hmem
  dsimp only at hmem
  rcases redraw_pending_mem _ _ _ _ _ hmem with h1 | h2
  · exact absurd h1 (List.not_mem_nil i)
  · have h3 : (dlookup i ((dlookup size s.images_cache).getD [])).isSome = false := h2
    cases hl : dlookup i ((dlookup size s.images_cache).getD []) with
    | none => rfl
    | some v => rw [hl] at h3; simp at h3

/-- A minimal concrete grid state, used to evaluate the model on concrete
inputs. -/
def gsEmpty : GridState where
  canvas := { next_id := 1, objs := [] }
  box_mode := false
  document_boxes := []
  box_images := []
  images_cache := []
  thumbnail_size := 150
  max_zoom_levels_cached := 7
  pending_renders := []
  drawn_items := []
  static_items := []
  bracket_ids := []
  cut_indicator_ids := []
  selected_indices := ∅
  marked_indices := ∅
  hover_item_index := -1
  hover_index := -1
  hover_side := none
  hover_gap := none
  cut_mode := false
  drop_indicator_index := -1
  drop_target_section := none
  item_count := 0
  item_sizes := []
  original_item_sizes := []
  aspect_ratios := []
  positions := []
  sections := []
  continuous_mode := false
  last_visible_range := (0, 0)
  loading_placeholder := none
  placeholder_image := none
  scissors_image := none
  ove_enabled := false
  shutdown := false

/-- A state with one item whose raster is cached at zoom level 150. -/
def gsC5 : GridState :=
  { gsEmpty with item_count := 1,
                 images_cache := [(150, [(0, 42)])],
                 item_sizes := [(106, 150)],
                 original_item_sizes := [(106, 150)],
                 aspect_ratios := [707 / 1000],
                 positions := [(0, 0, 106, 150)] }

/-- **C5**: switching the zoom level 150 → 300 → 150 with no intervening
`clear()` leaves every item that was cached at level 150 still cached with
the same raster after the switch back, the switch-back redraw enqueued no
render request for any such item, and a further render request for it is a
no-op because it is already cached at the current level. -/
theorem C5_zoom_round_trip (s : GridState) (i img : Nat)
    (sy1 vh1 vw1 sy2 vh2 vw2 : Int)
    (hsz : s.thumbnail_size = 150)
    (hcache : dlookup i ((dlookup 150 s.images_cache).getD []) = some img) :
    dlookup i ((dlookup 150
        (set_thumbnail_size (set_thumbnail_size s 300 sy1 vh1 vw1)
          150 sy2 vh2 vw2).images_cache).getD []) = some img ∧
    (set_thumbnail_size (set_thumbnail_size s 300 sy1 vh1 vw1)
        150 sy2 vh2 vw2).thumbnail_size = 150 ∧
    i ∉ (set_thumbnail_size (set_thumbnail_size s 300 sy1 vh1 vw1)
        150 sy2 vh2 vw2).pending_renders ∧
    render_page_async (set_thumbnail_size (set_thumbnail_size s 300 sy1 vh1 vw1)
        150 sy2 vh2 vw2) i
      = set_thumbnail_size (set_thumbnail_size s 300 sy1 vh1 vw1) 150 sy2 vh2 vw2 := by
  have hc1 := set_thumbnail_size_cache s 300 sy1 vh1 vw1
  have hc2 := set_thumbnail_size_cache (set_thumbnail_size s 300 sy1 vh1 vw1) 150 sy2 vh2 vw2
  have hcache2 : dlookup i ((dlookup 150
      (set_thumbnail_size (set_thumbnail_size s 300 sy1 vh1 vw1)
        150 sy2 vh2 vw2).images_cache).getD []) = some img := by
    rw [hc2.1, hc1.1]; exact hcache
  have hhas : hasImage (set_thumbnail_size (set_thumbnail_size s 300 sy1 vh1 vw1)
      150 sy2 vh2 vw2) i = true := by
    unfold hasImage images
    rw [hc2.2, hcache2]
    rfl
  refine ⟨hcache2, hc2.2, ?_, ?_⟩
  · intro hmem
    have h := set_thumbnail_size_pending _ _ _ _ _ _ hmem
    rw [hc1.1, hcache] at h
    exact absurd h (by simp)
  · unfold render_page_async
    rw [if_pos (Or.inr hhas)]

/-- Concrete run of the C5 round trip: one item cached as raster 42 at
level 150; after 150 → 300 → 150 it is still cached, not pending, and a
render request for it is a no-op. -/
theorem C5_zoom_round_trip_witness :
    gsC5.thumbnail_size = 150 ∧
    dlookup 0 ((dlookup 150 gsC5.images_cache).getD []) = some 42 ∧
    (dlookup 0 ((dlookup 150
        (set_thumbnail_size (set_thumbnail_size gsC5 300 0 400 750)
          150 0 400 750).images_cache).getD []) = some 42 ∧
     (set_thumbnail_size (set_thumbnail_size gsC5 300 0 400 750)
        150 0 400 750).thumbnail_size = 150 ∧
     0 ∉ (set_thumbnail_size (set_thumbnail_size gsC5 300 0 400 750)
        150 0 400 750).pending_renders ∧
     render_page_async (set_thumbnail_size (set_thumbnail_size gsC5 300 0 400 750)
        150 0 400 750) 0
       = set_thumbnail_size (set_thumbnail_size gsC5 300 0 400 750) 150 0 400 750) :=
  ⟨rfl, rfl, C5_zoom_round_trip gsC5 0 42 0 400 750 0 400 750 rfl rfl⟩

lemma dlookup_dinsert_self {α : Type} (k : Nat) (v : α) (l : List (Nat × α)) :
    dlookup k (dinsert k v l) = some v := by
  induction l with
  | nil => simp [dinsert, dlookup]
  | cons hd t ih =>
    obtain ⟨k2, v2⟩ := hd
    by_cases hk : k2 = k
    · simp [dinsert, hk, dlookup]
    · simp [dinsert, hk, dlookup, ih]

lemma dlookup_dinsert_ne {α : Type} (j k : Nat) (hjk : j ≠ k) (v : α)
    (l : List (Nat × α)) : dlookup j (dinsert k v l) = dlookup j l := by
  induction l with
  | nil => simp [dinsert, dlookup, Ne.symm hjk]
  | cons hd t ih =>
    obtain ⟨k2, v2⟩ := hd
    by_cases hk : k2 = k
    · subst hk
      simp [dinsert, dlookup, Ne.symm hjk]
    · simp [dinsert, hk, dlookup, ih]

lemma dlookup_append_right {α : Type} (k : Nat) (l1 l2 : List (Nat × α))
    (h : dlookup k l1 = none) : dlookup k (l1 ++ l2) = dlookup k l2 := by
  induction l1 with
  | nil => rfl
  | cons hd t ih =>
    obtain ⟨k2, v2⟩ := hd
    by_cases hk : k2 = k
    · simp [dlookup, hk] at h
    · rw [List.cons_append]
      simp only [dlookup, hk, if_false] at h ⊢
      exact ih h

lemma dlookup_eq_none_of_keys {α : Type} (k : Nat) (l : List (Nat × α))
    (h : ∀ p ∈ l, p.1 ≠ k) : dlookup k l = none := by
  induction l with
  | nil => rfl
  | cons hd t ih =>
    obtain ⟨k2, v2⟩ := hd
    have h1 : k2 ≠ k := h (k2, v2) (List.mem_cons_self _ _)
    simp only [dlookup, h1, if_false]
    exact ih (fun p hp => h p (List.mem_cons_of_mem _ hp))

lemma dlookup_append_left {α : Type} (k : Nat) (l1 l2 : List (Nat × α)) (v : α)
    (h : dlookup k l1 = some v) : dlookup k (l1 ++ l2) = some v := by
  induction l1 with
  | nil => simp [dlookup] at h
  | cons hd t ih =>
    obtain ⟨k2, v2⟩ := hd
    rw [List.cons_append]
    by_cases hk : k2 = k
    · simp only [dlookup, hk, if_true] at h ⊢
      exact h
    · simp only [dlookup, hk, if_false] at h ⊢
      exact ih h

lemma typeOf_create (cv : Canvas) (o : CObj) (b : Nat) (k : CKind)
    (h : cv.typeOf b = some k) : (cv.create o).2.typeOf b = some k := by
  unfold Canvas.typeOf at h ⊢
  unfold Canvas.create
  dsimp only
  cases hl : dlookup b cv.objs with
  | none => rw [hl] at h; simp at h
  | some obj =>
    rw [hl] at h
    rw [dlookup_append_left b cv.objs _ obj hl]
    exact h

lemma typeOf_create_self (cv : Canvas) (o : CObj)
    (hwf : ∀ p ∈ cv.objs, p.1 < cv.next_id) :
    (cv.create o).2.typeOf (cv.create o).1 = some o.kind := by
  unfold Canvas.create Canvas.typeOf
  dsimp only
  rw [dlookup_append_right]
  · simp [dlookup]
  · exact dlookup_eq_none_of_keys _ _ (fun p hp => Nat.ne_of_lt (hwf p hp))

lemma typeOf_modify (cv : Canvas) (id b : Nat) (f : CObj → CObj)
    (hf : ∀ o, (f o).kind = o.kind) :
    (cv.modify id f).typeOf b = cv.typeOf b := by
  unfold Canvas.modify Canvas.typeOf
  dsimp only
  induction cv.objs with
  | nil => rfl
  | cons hd t ih =>
    obtain ⟨k2, o2⟩ := hd
    rw [List.map_cons]
    dsimp only
    by_cases hk : k2 = id
    · rw [if_pos hk]
      simp only [dlookup]
      by_cases hb : k2 = b
      · rw [if_pos hb, if_pos hb]
        simp [hf]
      · rw [if_neg hb, if_neg hb]
        exact ih
    · rw [if_neg hk]
      simp only [dlookup]
      by_cases hb : k2 = b
      · rw [if_pos hb, if_pos hb]
      · rw [if_neg hb, if_neg hb]
        exact ih

lemma render_page_async_canvas (s : GridState) (i : Nat) :
    (render_page_async s i).canvas = s.canvas := by
  unfold render_page_async; split <;> rfl

lemma render_page_async_drawn (s : GridState) (i : Nat) :
    (render_page_async s i).drawn_items = s.drawn_items := by
  unfold render_page_async; split <;> rfl

lemma render_page_async_not_cached (s : GridState) (idx : Nat)
    (hunc : hasImage s idx = false) (hpend : idx ∉ s.pending_renders) :
    (render_page_async s idx).pending_renders = s.pending_renders ++ [idx] := by
  have hg : ¬(s.pending_renders.contains idx = true ∨ hasImage s idx = true) := by
    rintro (hc | hh)
    · exact hpend (by simpa using hc)
    · rw [hunc] at hh; exact Bool.false_ne_true hh
  unfold render_page_async
  rw [if_neg hg]

lemma render_page_async_mem_self (s : GridState) (idx : Nat)
    (hunc : hasImage s idx = false) (hpend : idx ∉ s.pending_renders) :
    idx ∈ (render_page_async s idx).pending_renders := by
  rw [render_page_async_not_cached _ _ hunc hpend]
  exact List.mem_append_right _ (by simp)

lemma applyOverlays_recBase (l : List (OvTarget × CObj)) :
    ∀ (s : GridState) (i j : Nat),
    ((dlookup j (applyOverlays s i l).drawn_items).getD {}).base
      = ((dlookup j s.drawn_items).getD {}).base := by
  induction l with
  | nil => intro s i j; rfl
  | cons hd t ih =>
    intro s i j
    obtain ⟨tg, o⟩ := hd
    cases tg with
    | entry key =>
      simp only [applyOverlays]
      rw [ih]
      unfold setRecOverlay
      dsimp only
      by_cases hj : i = j
      · subst hj
        rw [dlookup_dinsert_self]
        rfl
      · rw [dlookup_dinsert_ne j i (fun h => hj h.symm)]
        rfl
    | bracket =>
      simp only [applyOverlays]
      rw [ih]
      rfl

lemma applyOverlays_typeOf (l : List (OvTarget × CObj)) :
    ∀ (s : GridState) (i b : Nat) (k : CKind),
    s.canvas.typeOf b = some k → (applyOverlays s i l).canvas.typeOf b = some k := by
  induction l with
  | nil => intro s i b k h; exact h
  | cons hd t ih =>
    intro s i b k h
    obtain ⟨tg, o⟩ := hd
    cases tg with
    | entry key =>
      simp only [applyOverlays]
      exact ih _ _ _ _ (typeOf_create _ _ _ _ h)
    | bracket =>
      simp only [applyOverlays]
      exact ih _ _ _ _ (typeOf_create _ _ _ _ h)

lemma drawPageBase_uncached (w : GridState) (idx : Nat) (x y wd ht : Int)
    (hunc : hasImage w idx = false)
    (hpend : idx ∉ w.pending_renders)
    (hwf : ∀ p ∈ w.canvas.objs, p.1 < w.canvas.next_id)
    (hrec : ((dlookup idx w.drawn_items).getD {}).base = none ∨
            ∃ b, ((dlookup idx w.drawn_items).getD {}).base = some b ∧
                 w.canvas.typeOf b = some CKind.rectangle) :
    idx ∈ (drawPageBase w idx x y wd ht).pending_renders ∧
    ∃ b, ((dlookup idx (drawPageBase w idx x y wd ht).drawn_items).getD {}).base
           = some b ∧
         (drawPageBase w idx x y wd ht).canvas.typeOf b = some CKind.rectangle := by
  have hneg : ¬(hasImage w idx = true) := by
    rw [hunc]; exact Bool.false_ne_true
  rcases hrec with hA | ⟨b, hB, hBk⟩
  · have hpbr : pageBaseReuse w idx x y wd ht = (w, none) := by
      unfold pageBaseReuse
      dsimp only
      rw [hA]
    unfold drawPageBase
    rw [hpbr]
    dsimp only
    rw [if_neg hneg]
    try dsimp only
    split
    · rename_i hc
      exact absurd (by simpa using hc) hpend
    · rename_i hc
      refine ⟨?_, w.canvas.next_id, ?_, ?_⟩
      · simp only [setRecBase_pending]
        exact render_page_async_mem_self _ _ hunc hpend
      · unfold setRecBase
        dsimp only
        rw [dlookup_dinsert_self]
        rfl
      · unfold setRecBase
        dsimp only
        rw [render_page_async_canvas]
        exact typeOf_create_self w.canvas _ hwf
  · unfold drawPageBase pageBaseReuse
    dsimp only
    rw [hB]
    dsimp only
    rw [hBk]
    dsimp only
    rw [if_neg hneg]
    try dsimp only
    rw [if_pos rfl]
    try dsimp only
    split
    · rename_i hc
      exact absurd (by simpa using hc) hpend
    · rename_i hc
      refine ⟨?_, b, ?_, ?_⟩
      · exact render_page_async_mem_self _ _ hunc hpend
      · rw [render_page_async_drawn]
        exact hB
      · rw [render_page_async_canvas]
        exact (typeOf_modify w.canvas b b
          (fun o => { o with x := x, y := y, x2 := x + wd, y2 := y + ht })
          (fun o => rfl)).trans hBk

lemma draw_item_smart_uncached (w : GridState) (idx : Nat)
    (hbm : w.box_mode = false)
    (hvis : idx < w.positions.length)
    (hunc : hasImage w idx = false)
    (hpend : idx ∉ w.pending_renders)
    (hwf : ∀ p ∈ w.canvas.objs, p.1 < w.canvas.next_id)
    (hrec : ((dlookup idx w.drawn_items).getD {}).base = none ∨
            ∃ b, ((dlookup idx w.drawn_items).getD {}).base = some b ∧
                 w.canvas.typeOf b = some CKind.rectangle) :
    idx ∈ (draw_item_smart w idx).pending_renders ∧
    ∃ b, ((dlookup idx (draw_item_smart w idx).drawn_items).getD {}).base = some b ∧
         (draw_item_smart w idx).canvas.typeOf b = some CKind.rectangle := by
  unfold draw_item_smart
  rw [if_pos hvis]
  dsimp only
  by_cases hsome : (dlookup idx w.drawn_items).isSome = true
  · rw [if_pos hsome]
    split
    · rename_i hbt
      rw [hbm] at hbt
      exact absurd hbt Bool.false_ne_true
    · obtain ⟨h1, b, h2, h3⟩ := drawPageBase_uncached w idx
        ((w.positions.getD idx (0, 0, 0, 0)).1 : Int)
        ((w.positions.getD idx (0, 0, 0, 0)).2.1 : Int)
        ((w.positions.getD idx (0, 0, 0, 0)).2.2.1 : Int)
        ((w.positions.getD idx (0, 0, 0, 0)).2.2.2 : Int)
        hunc hpend hwf hrec
      refine ⟨?_, b, ?_, ?_⟩
      · simp only [applyOverlays_pending]
        exact h1
      · rw [applyOverlays_recBase]
        exact h2
      · exact applyOverlays_typeOf _ _ _ _ _ h3
  · rw [if_neg hsome]
    split
    · rename_i hbt
      dsimp only at hbt
      rw [hbm] at hbt
      exact absurd hbt Bool.false_ne_true
    · obtain ⟨h1, b, h2, h3⟩ := drawPageBase_uncached
        ({ w with drawn_items := dinsert idx ({} : ItemRec) w.drawn_items } : GridState) idx
        ((w.positions.getD idx (0, 0, 0, 0)).1 : Int)
        ((w.positions.getD idx (0, 0, 0, 0)).2.1 : Int)
        ((w.positions.getD idx (0, 0, 0, 0)).2.2.1 : Int)
        ((w.positions.getD idx (0, 0, 0, 0)).2.2.2 : Int)
        hunc hpend hwf (Or.inl (by rw [dlookup_dinsert_self]; rfl))
      refine ⟨?_, b, ?_, ?_⟩
      · simp only [applyOverlays_pending]
        exact h1
      · rw [applyOverlays_recBase]
        exact h2
      · exact applyOverlays_typeOf _ _ _ _ _ h3

lemma on_render_complete_pending (s : GridState) (i img : Nat) (iw ihh : Rat) :
    (on_render_complete s i img iw ihh).pending_renders = s.pending_renders := by
  unfold on_render_complete set_image
  repeat' (first | split | dsimp only)
  all_goals rfl

/-- A state with one visible uncached item whose render is pending. -/
def gsC6 : GridState :=
  { gsEmpty with item_count := 1,
                 pending_renders := [0],
                 item_sizes := [(106, 150)],
                 original_item_sizes := [(106, 150)],
                 aspect_ratios := [707 / 1000],
                 positions := [(0, 0, 106, 150)] }

/-- **C6**: a failed background render task creates no cache entry for the
item, the completion handler removes the pending entry regardless of the
outcome, and the next smart-redraw pass over the item — still visible and
uncached — draws a placeholder rectangle as its base object and submits a
fresh render request for it. -/
theorem C6_render_failure_degradation (s : GridState) (idx : Nat)
    (hnd : s.pending_renders.Nodup)
    (hbm : s.box_mode = false)
    (hvis : idx < s.positions.length)
    (hunc : hasImage s idx = false)
    (hwf : ∀ p ∈ s.canvas.objs, p.1 < s.canvas.next_id)
    (hrec : ((dlookup idx s.drawn_items).getD {}).base = none ∨
            ∃ b, ((dlookup idx s.drawn_items).getD {}).base = some b ∧
                 s.canvas.typeOf b = some CKind.rectangle) :
    (completeRender s idx RenderOutcome.failure).images_cache = s.images_cache ∧
    (∀ o : RenderOutcome, (completeRender s idx o).pending_renders
        = s.pending_renders.erase idx) ∧
    idx ∈ (draw_item_smart (completeRender s idx RenderOutcome.failure) idx).pending_renders ∧
    ∃ b, ((dlookup idx (draw_item_smart (completeRender s idx
             RenderOutcome.failure) idx).drawn_items).getD {}).base = some b ∧
         (draw_item_smart (completeRender s idx RenderOutcome.failure) idx).canvas.typeOf b
           = some CKind.rectangle := by
  refine ⟨rfl, ?_, ?_⟩
  · intro o
    cases o with
    | success img iw ihh =>
      simp only [completeRender]
      rw [on_render_complete_pending]
    | failure => rfl
  · exact draw_item_smart_uncached
      ({ s with pending_renders := s.pending_renders.erase idx } : GridState) idx
      hbm hvis hunc
      (by
        intro hm
        exact ((List.Nodup.mem_erase_iff hnd).mp hm).1 rfl)
      hwf hrec

/-- Concrete run of the C6 degradation: one visible uncached item with a
pending render; the failure completion clears the pending entry and the
next smart-redraw pass draws a placeholder rectangle and re-requests. -/
theorem C6_render_failure_degradation_witness :
    gsC6.pending_renders.Nodup ∧ gsC6.box_mode = false ∧
    0 < gsC6.positions.length ∧ hasImage gsC6 0 = false ∧
    ((completeRender gsC6 0 RenderOutcome.failure).images_cache = gsC6.images_cache ∧
     (∀ o : RenderOutcome, (completeRender gsC6 0 o).pending_renders
        = gsC6.pending_renders.erase 0) ∧
     0 ∈ (draw_item_smart (completeRender gsC6 0 RenderOutcome.failure) 0).pending_renders ∧
     ∃ b, ((dlookup 0 (draw_item_smart (completeRender gsC6 0
              RenderOutcome.failure) 0).drawn_items).getD {}).base = some b ∧
       (draw_item_smart (completeRender gsC6 0 RenderOutcome.failure) 0).canvas.typeOf b
         = some CKind.rectangle) :=
  ⟨by decide, rfl, by decide, rfl,
   C6_render_failure_degradation gsC6 0 (by decide) rfl (by decide) rfl
     (by decide) (Or.inl rfl)⟩

@[simp] lemma createObjs_boxes (os : List CObj) (s : GridState) :
    ((createObjs s os).2).document_boxes = s.document_boxes :=
  createObjs_proj (fun t => t.document_boxes) (fun _ _ => rfl) os s

@[simp] lemma createObjs_sel (os : List CObj) (s : GridState) :
    ((createObjs s os).2).selected_indices = s.selected_indices :=
  createObjs_proj (fun t => t.selected_indices) (fun _ _ => rfl) os s

@[simp] lemma applyOverlays_boxes (l : List (OvTarget × CObj)) (s : GridState) (i : Nat) :
    (applyOverlays s i l).document_boxes = s.document_boxes :=
  applyOverlays_proj (fun t => t.document_boxes) (fun _ _ _ _ => rfl) (fun _ _ => rfl)
    (fun _ _ => rfl) l s i

@[simp] lemma applyOverlays_sel (l : List (OvTarget × CObj)) (s : GridState) (i : Nat) :
    (applyOverlays s i l).selected_indices = s.selected_indices :=
  applyOverlays_proj (fun t => t.selected_indices) (fun _ _ _ _ => rfl) (fun _ _ => rfl)
    (fun _ _ => rfl) l s i

@[simp] lemma setRecBase_boxes (s : GridState) (i : Nat) (b : Option Nat) :
    (setRecBase s i b).document_boxes = s.document_boxes := rfl

@[simp] lemma setRecBase_sel (s : GridState) (i : Nat) (b : Option Nat) :
    (setRecBase s i b).selected_indices = s.selected_indices := rfl

@[simp] lemma createObj_snd_boxes (s : GridState) (o : CObj) :
    ((createObj s o).2).document_boxes = s.document_boxes := rfl

@[simp] lemma createObj_snd_sel (s : GridState) (o : CObj) :
    ((createObj s o).2).selected_indices = s.selected_indices := rfl

@[simp] lemma render_page_async_boxes (s : GridState) (i : Nat) :
    (render_page_async s i).document_boxes = s.document_boxes := by
  unfold render_page_async; split <;> rfl

@[simp] lemma render_page_async_sel (s : GridState) (i : Nat) :
    (render_page_async s i).selected_indices = s.selected_indices := by
  unfold render_page_async; split <;> rfl

@[simp] lemma delete_item_objects_boxes (s : GridState) (i : Nat) :
    (delete_item_objects s i).document_boxes = s.document_boxes := by
  unfold delete_item_objects; split <;> rfl

@[simp] lemma delete_item_objects_sel (s : GridState) (i : Nat) :
    (delete_item_objects s i).selected_indices = s.selected_indices := by
  unfold delete_item_objects; split <;> rfl

@[simp] lemma delete_item_overlays_boxes (s : GridState) (i : Nat) :
    (delete_item_overlays s i).document_boxes = s.document_boxes := by
  unfold delete_item_overlays; split <;> rfl

@[simp] lemma delete_item_overlays_sel (s : GridState) (i : Nat) :
    (delete_item_overlays s i).selected_indices = s.selected_indices := by
  unfold delete_item_overlays; split <;> rfl

@[simp] lemma draw_box_base_boxes (s : GridState) (i : Nat) :
    (draw_box_base s i).document_boxes = s.document_boxes := by
  unfold draw_box_base
  repeat' split
  all_goals simp

@[simp] lemma draw_box_base_sel (s : GridState) (i : Nat) :
    (draw_box_base s i).selected_indices = s.selected_indices := by
  unfold draw_box_base
  repeat' split
  all_goals simp

@[simp] lemma draw_box_overlays_boxes (s : GridState) (i : Nat) :
    (draw_box_overlays s i).document_boxes = s.document_boxes := by
  unfold draw_box_overlays
  repeat' split
  all_goals simp

@[simp] lemma draw_box_overlays_sel (s : GridState) (i : Nat) :
    (draw_box_overlays s i).selected_indices = s.selected_indices := by
  unfold draw_box_overlays
  repeat' split
  all_goals simp

lemma pageBaseReuse_boxsel (s : GridState) (i : Nat) (x y w h : Int) :
    (pageBaseReuse s i x y w h).1.document_boxes = s.document_boxes ∧
    (pageBaseReuse s i x y w h).1.selected_indices = s.selected_indices := by
  unfold pageBaseReuse
  repeat' split
  all_goals simp [setRecBase, render_page_async, createObj]
  all_goals repeat' split
  all_goals simp [setRecBase, render_page_async, createObj]

@[simp] lemma drawPageBase_boxes (s : GridState) (i : Nat) (x y w h : Int) :
    (drawPageBase s i x y w h).document_boxes = s.document_boxes := by
  unfold drawPageBase
  dsimp only
  have h1 := pageBaseReuse_boxsel s i x y w h
  cases hsb : (pageBaseReuse s i x y w h).2 with
  | some b => simpa using h1.1
  | none =>
    repeat' split
    all_goals simp [setRecBase, createObj, h1.1]

@[simp] lemma drawPageBase_sel (s : GridState) (i : Nat) (x y w h : Int) :
    (drawPageBase s i x y w h).selected_indices = s.selected_indices := by
  unfold drawPageBase
  dsimp only
  have h1 := pageBaseReuse_boxsel s i x y w h
  cases hsb : (pageBaseReuse s i x y w h).2 with
  | some b => simpa using h1.2
  | none =>
    repeat' split
    all_goals simp [setRecBase, createObj, h1.2]

lemma draw_item_smart_boxsel (s : GridState) (i : Nat) :
    (draw_item_smart s i).document_boxes = s.document_boxes ∧
    (draw_item_smart s i).selected_indices = s.selected_indices := by
  unfold draw_item_smart
  refine ⟨?_, ?_⟩
  all_goals repeat' split
  all_goals try simp
  all_goals repeat' split
  all_goals try simp

lemma foldl_draw_item_smart_boxsel (l : List Nat) : ∀ s : GridState,
    ((l.foldl draw_item_smart s).document_boxes = s.document_boxes ∧
     (l.foldl draw_item_smart s).selected_indices = s.selected_indices) := by
  induction l with
  | nil => intro s; exact ⟨rfl, rfl⟩
  | cons j t ih =>
    intro s
    rw [List.foldl_cons]
    exact ⟨(ih _).1.trans (draw_item_smart_boxsel s j).1,
           (ih _).2.trans (draw_item_smart_boxsel s j).2⟩

lemma foldl_delete_item_objects_boxsel (l : List Nat) : ∀ s : GridState,
    (l.foldl delete_item_objects s).document_boxes = s.document_boxes ∧
    (l.foldl delete_item_objects s).selected_indices = s.selected_indices := by
  induction l with
  | nil => intro s; exact ⟨rfl, rfl⟩
  | cons j t ih =>
    intro s
    rw [List.foldl_cons]
    refine ⟨(ih _).1.trans ?_, (ih _).2.trans ?_⟩ <;> simp

lemma foldl_delete_item_overlays_boxsel (l : List Nat) : ∀ s : GridState,
    (l.foldl delete_item_overlays s).document_boxes = s.document_boxes ∧
    (l.foldl delete_item_overlays s).selected_indices = s.selected_indices := by
  induction l with
  | nil => intro s; exact ⟨rfl, rfl⟩
  | cons j t ih =>
    intro s
    rw [List.foldl_cons]
    refine ⟨(ih _).1.trans ?_, (ih _).2.trans ?_⟩ <;> simp

lemma draw_cut_indicator_boxsel (s : GridState) :
    (draw_cut_indicator s).document_boxes = s.document_boxes ∧
    (draw_cut_indicator s).selected_indices = s.selected_indices := by
  unfold draw_cut_indicator
  repeat' (first
    | split
    | dsimp only)
  all_goals exact ⟨rfl, rfl⟩

lemma draw_drop_indicator_boxsel (s : GridState) :
    (draw_drop_indicator s).document_boxes = s.document_boxes ∧
    (draw_drop_indicator s).selected_indices = s.selected_indices := by
  unfold draw_drop_indicator
  repeat' (first
    | split
    | dsimp only)
  all_goals exact ⟨rfl, rfl⟩

lemma draw_empty_state_boxsel (s : GridState) (vw vh : Int) :
    (draw_empty_state s vw vh).document_boxes = s.document_boxes ∧
    (draw_empty_state s vw vh).selected_indices = s.selected_indices := by
  unfold draw_empty_state
  split
  · exact ⟨rfl, rfl⟩
  · dsimp only
    generalize List.range (9 + (if s.ove_enabled = true then 2 else 0)) = l
    induction l generalizing s with
    | nil => exact ⟨rfl, rfl⟩
    | cons a t ih => exact ih _

lemma redraw_visible_boxsel (s : GridState) (vr : Nat × Nat) :
    (redraw_visible s vr).document_boxes = s.document_boxes ∧
    (redraw_visible s vr).selected_indices = s.selected_indices := by
  unfold redraw_visible
  constructor
  all_goals
    simp only [foldl_draw_item_smart_boxsel, foldl_delete_item_objects_boxsel,
      foldl_delete_item_overlays_boxsel]
  all_goals repeat' split
  all_goals simp [draw_cut_indicator_boxsel, draw_drop_indicator_boxsel,
    (foldl_draw_item_smart_boxsel _ _).1, (foldl_draw_item_smart_boxsel _ _).2,
    (foldl_delete_item_objects_boxsel _ _).1, (foldl_delete_item_objects_boxsel _ _).2,
    (foldl_delete_item_overlays_boxsel _ _).1, (foldl_delete_item_overlays_boxsel _ _).2,
    (draw_cut_indicator_boxsel _).1, (draw_cut_indicator_boxsel _).2,
    (draw_drop_indicator_boxsel _).1, (draw_drop_indicator_boxsel _).2]

lemma redraw_boxsel (s : GridState) (sy vh vw : Int) :
    (redraw s sy vh vw).document_boxes = s.document_boxes ∧
    (redraw s sy vh vw).selected_indices = s.selected_indices := by
  unfold redraw
  constructor
  all_goals dsimp only
  all_goals split
  · exact (draw_empty_state_boxsel _ _ _).1
  · exact (redraw_visible_boxsel _ _).1
  · exact (draw_empty_state_boxsel _ _ _).2
  · exact (redraw_visible_boxsel _ _).2

/-- Default `Box` used only to state `getD` lookups at in-range indices. -/
def dBox : Box :=
  { name := "", state := BoxState.loading, pages := 0, thumbnail := none, progress := 0 }

lemma enumFrom_fst_ge {α : Type} :
    ∀ (l : List α) (n : Nat), ∀ p ∈ List.enumFrom n l, n ≤ p.1 := by
  intro l
  induction l with
  | nil => intro n p hp; simp [List.enumFrom] at hp
  | cons a t ih =>
    intro n p hp
    rcases List.mem_cons.mp hp with rfl | hp2
    · exact Nat.le_refl n
    · exact Nat.le_of_succ_le (ih (n + 1) p hp2)

lemma mapM_getD_of_lt {α : Type} (l : List α) (d : α) :
    ∀ (L : List Nat), (∀ i ∈ L, i < l.length) →
    L.mapM (fun i => l.get? i) = some (L.map (fun i => l.getD i d)) := by
  intro L
  induction L with
  | nil => intro h; rfl
  | cons a t ih =>
    intro h
    have ha : a < l.length := h a (List.mem_cons_self _ _)
    have hga : l.get? a = some (l.getD a d) := by
      cases hv : l.get? a with
      | none => exact absurd (List.get?_eq_none.mp hv) (Nat.not_le.mpr ha)
      | some v =>
        rw [List.getD_eq_getD_get?, hv]
        rfl
    rw [List.mapM_cons, hga, ih (fun i hi => h i (List.mem_cons_of_mem _ hi))]
    rfl

lemma map_getD_eq_enumFrom_filter {α : Type} (d : α) :
    ∀ (l : List α) (k : Nat) (L : List Nat),
    List.Sorted (· < ·) L →
    (∀ i ∈ L, k ≤ i) →
    (∀ i ∈ L, i < k + l.length) →
    L.map (fun i => l.getD (i - k) d)
      = ((List.enumFrom k l).filter (fun p => decide (p.1 ∈ L))).map Prod.snd := by
  intro l
  induction l with
  | nil =>
    intro k L hs hlo hhi
    cases L with
    | nil => rfl
    | cons a t =>
      have h1 := hhi a (List.mem_cons_self _ _)
      have h2 := hlo a (List.mem_cons_self _ _)
      simp only [List.length_nil, Nat.add_zero] at h1
      exact absurd h1 (Nat.not_lt.mpr h2)
  | cons b l2 ih =>
    intro k L hs hlo hhi
    by_cases hk : k ∈ L
    · cases L with
      | nil => simp at hk
      | cons a t =>
        have hak : a = k := by
          rcases List.mem_cons.mp hk with h | h
          · exact h.symm
          · exact absurd ((List.sorted_cons.mp hs).1 k h)
              (Nat.not_lt.mpr (hlo a (List.mem_cons_self _ _)))
        subst hak
        rw [show List.enumFrom a (b :: l2) = (a, b) :: List.enumFrom (a + 1) l2 from rfl]
        rw [List.filter_cons_of_pos (by simp)]
        rw [List.map_cons, List.map_cons]
        congr 1
        · simp [Nat.sub_self]
        · have ht : t.map (fun i => (b :: l2).getD (i - a) d)
              = t.map (fun i => l2.getD (i - (a + 1)) d) := by
            apply List.map_congr_left
            intro i hi
            have hik : a < i := (List.sorted_cons.mp hs).1 i hi
            have he : i - a = (i - (a + 1)) + 1 := by omega
            rw [he, List.getD_cons_succ]
          rw [ht]
          have hpred : ∀ p ∈ List.enumFrom (a + 1) l2,
              decide (p.1 ∈ (a :: t)) = decide (p.1 ∈ t) := by
            intro p hp
            have hge : a + 1 ≤ p.1 := enumFrom_fst_ge l2 (a + 1) p hp
            refine decide_eq_decide.mpr ?_
            constructor
            · intro hmem
              rcases List.mem_cons.mp hmem with h | h
              · omega
              · exact h
            · exact fun h => List.mem_cons_of_mem _ h
          rw [List.filter_congr hpred]
          exact ih (a + 1) t (List.sorted_cons.mp hs).2
            (fun i hi => Nat.succ_le_of_lt ((List.sorted_cons.mp hs).1 i hi))
            (fun i hi => by
              have h3 := hhi i (List.mem_cons_of_mem _ hi)
              simp only [List.length_cons] at h3
              omega)
    · rw [show List.enumFrom k (b :: l2) = (k, b) :: List.enumFrom (k + 1) l2 from rfl]
      rw [List.filter_cons_of_neg (by simpa using hk)]
      have hL : L.map (fun i => (b :: l2).getD (i - k) d)
          = L.map (fun i => l2.getD (i - (k + 1)) d) := by
        apply List.map_congr_left
        intro i hi
        have h1 : k ≤ i := hlo i hi
        have h2 : i ≠ k := fun he => hk (he ▸ hi)
        have he : i - k = (i - (k + 1)) + 1 := by omega
        rw [he, List.getD_cons_succ]
      rw [hL]
      exact ih (k + 1) L hs
        (fun i hi => by
          have h1 := hlo i hi
          have h2 : i ≠ k := fun he => hk (he ▸ hi)
          omega)
        (fun i hi => by
          have h3 := hhi i hi
          simp only [List.length_cons] at h3
          omega)

lemma moved_remaining_perm (boxes : List Box) (sel : Finset Nat)
    (hlt : ∀ i ∈ sel, i < boxes.length) :
    List.Perm
      (((sel.sort (· ≤ ·)).map (fun i => boxes.getD i dBox))
        ++ ((boxes.enum.filter (fun p => ¬p.1 ∈ sel)).map Prod.snd))
      boxes := by
  have hsorted : List.Sorted (· < ·) (sel.sort (· ≤ ·)) := Finset.sort_sorted_lt sel
  have h1 : (sel.sort (· ≤ ·)).map (fun i => boxes.getD i dBox)
      = ((boxes.enum).filter (fun p => decide (p.1 ∈ sel.sort (· ≤ ·)))).map Prod.snd :=
    map_getD_eq_enumFrom_filter dBox boxes 0 (sel.sort (· ≤ ·)) hsorted
      (fun i _ => Nat.zero_le i)
      (fun i hi => by
        have := hlt i ((Finset.mem_sort (· ≤ ·)).mp hi)
        omega)
  have h2 : (boxes.enum).filter (fun p => decide (p.1 ∈ sel.sort (· ≤ ·)))
      = (boxes.enum).filter (fun p => decide (p.1 ∈ sel)) :=
    List.filter_congr (fun p _ => decide_eq_decide.mpr (Finset.mem_sort _))
  have h3 : (boxes.enum).filter (fun p => ¬p.1 ∈ sel)
      = (boxes.enum).filter (fun p => !(decide (p.1 ∈ sel))) := by
    apply List.filter_congr
    intro p _
    simp
  rw [h1, h2, h3, ← List.map_append]
  have hperm := (List.filter_append_perm (fun p => decide (p.1 ∈ sel)) boxes.enum).map Prod.snd
  rw [List.enum_map_snd] at hperm
  exact hperm

/-- The `remaining_boxes` list of `reorder_selected_boxes`: the unselected
boxes in original order. -/
def reorderRemaining (s : GridState) : List Box :=
  ((s.document_boxes.enum).filter (fun p => ¬p.1 ∈ s.selected_indices)).map Prod.snd

/-- The `insertion_index` of `reorder_selected_boxes`: the clamped target
shifted by the selected indices removed before it, clamped to the remaining
list. -/
def reorderInsertion (s : GridState) (tgt : Int) : Nat :=
  min ((max 0 (min tgt (s.document_boxes.length : Int))).toNat
        - ((s.selected_indices.sort (· ≤ ·)).filter
            (fun i => i < (max 0 (min tgt (s.document_boxes.length : Int))).toNat)).length)
    (reorderRemaining s).length

/-- **C10**: in box mode with a non-empty, in-range selection,
`reorder_selected_boxes` moves exactly the selected boxes — read off in
increasing index order — as one contiguous block at the computed insertion
index inside the unselected boxes (which keep their order), the result is a
permutation of the original list, the selection becomes exactly the
contiguous range of the moved block, and `True` is returned; when not in
box mode or with an empty selection it returns `False` and changes
nothing. -/
theorem C10_box_reorder_correct (s : GridState) (tgt sy vh vw : Int)
    (hbm : s.box_mode = true)
    (hne : s.selected_indices ≠ ∅)
    (hlt : ∀ i ∈ s.selected_indices, i < s.document_boxes.length) :
    (∃ (t : GridState) (moved : List Box),
      (s.selected_indices.sort (· ≤ ·)).mapM (fun i => s.document_boxes.get? i)
        = some moved ∧
      reorder_selected_boxes s tgt sy vh vw = some (t, true) ∧
      t.document_boxes
        = (reorderRemaining s).take (reorderInsertion s tgt) ++ moved
            ++ (reorderRemaining s).drop (reorderInsertion s tgt) ∧
      List.Perm t.document_boxes s.document_boxes ∧
      t.selected_indices
        = Finset.Ico (reorderInsertion s tgt) (reorderInsertion s tgt + moved.length)) ∧
    (∀ s2 : GridState, (¬s2.box_mode = true ∨ s2.selected_indices = ∅) →
      reorder_selected_boxes s2 tgt sy vh vw = some (s2, false)) := by
  constructor
  · have hm := mapM_getD_of_lt s.document_boxes dBox (s.selected_indices.sort (· ≤ ·))
      (fun i hi => hlt i ((Finset.mem_sort (· ≤ ·)).mp hi))
    have hsne : s.selected_indices.sort (· ≤ ·) ≠ [] := by
      intro h0
      have hcard : s.selected_indices.card = 0 := by
        rw [← Finset.length_sort (· ≤ ·), h0]
        rfl
      exact hne (Finset.card_eq_zero.mp hcard)
    have hie : ((s.selected_indices.sort (· ≤ ·)).map
        (fun i => s.document_boxes.getD i dBox)).isEmpty = false := by
      cases hL : s.selected_indices.sort (· ≤ ·) with
      | nil => exact absurd hL hsne
      | cons a t => rfl
    unfold reorder_selected_boxes
    rw [if_neg (fun h => h.elim (fun hb => hb hbm) hne)]
    dsimp only
    rw [hm]
    dsimp only
    rw [if_neg (by rw [hie]; exact Bool.false_ne_true)]
    try dsimp only
    refine ⟨_, _, rfl, rfl, ?_, ?_, ?_⟩
    · rw [(redraw_boxsel _ _ _ _).1]
      rfl
    · rw [(redraw_boxsel _ _ _ _).1]
      have hperm := moved_remaining_perm s.document_boxes s.selected_indices hlt
      show List.Perm
        ((reorderRemaining s).take (reorderInsertion s tgt)
          ++ (s.selected_indices.sort (· ≤ ·)).map (fun i => s.document_boxes.getD i dBox)
          ++ (reorderRemaining s).drop (reorderInsertion s tgt))
        s.document_boxes
      have step1 := (@List.perm_append_comm _
          ((reorderRemaining s).take (reorderInsertion s tgt))
          ((s.selected_indices.sort (· ≤ ·)).map
            (fun i => s.document_boxes.getD i dBox))).append_right
        ((reorderRemaining s).drop (reorderInsertion s tgt))
      have step2 : ((s.selected_indices.sort (· ≤ ·)).map
              (fun i => s.document_boxes.getD i dBox)
            ++ (reorderRemaining s).take (reorderInsertion s tgt))
            ++ (reorderRemaining s).drop (reorderInsertion s tgt)
          = (s.selected_indices.sort (· ≤ ·)).map
              (fun i => s.document_boxes.getD i dBox)
            ++ reorderRemaining s := by
        rw [List.append_assoc, List.take_append_drop]
      exact step1.trans (by rw [step2]; exact hperm)
    · rw [(redraw_boxsel _ _ _ _).2]
      rfl
  · intro s2 h
    unfold reorder_selected_boxes
    rw [if_pos h]

/-- A box-mode state with three boxes of which the first and last are
selected. -/
def gsC10 : GridState :=
  { gsEmpty with box_mode := true,
                 document_boxes :=
                   [{ name := "a", state := BoxState.loaded, pages := 1,
                      thumbnail := none, progress := 0 },
                    { name := "b", state := BoxState.loaded, pages := 2,
                      thumbnail := none, progress := 0 },
                    { name := "c", state := BoxState.loaded, pages := 3,
                      thumbnail := none, progress := 0 }],
                 selected_indices := {0, 2},
                 item_count := 3 }

/-- Concrete run of the C10 reorder: boxes a, b, c with a and c selected,
dropped at target 1. -/
theorem C10_box_reorder_correct_witness :
    gsC10.box_mode = true ∧ gsC10.selected_indices ≠ ∅ ∧
    (∀ i ∈ gsC10.selected_indices, i < gsC10.document_boxes.length) ∧
    ((∃ (t : GridState) (moved : List Box),
      (gsC10.selected_indices.sort (· ≤ ·)).mapM (fun i => gsC10.document_boxes.get? i)
        = some moved ∧
      reorder_selected_boxes gsC10 1 0 400 750 = some (t, true) ∧
      t.document_boxes
        = (reorderRemaining gsC10).take (reorderInsertion gsC10 1) ++ moved
            ++ (reorderRemaining gsC10).drop (reorderInsertion gsC10 1) ∧
      List.Perm t.document_boxes gsC10.document_boxes ∧
      t.selected_indices
        = Finset.Ico (reorderInsertion gsC10 1) (reorderInsertion gsC10 1 + moved.length)) ∧
    (∀ s2 : GridState, (¬s2.box_mode = true ∨ s2.selected_indices = ∅) →
      reorder_selected_boxes s2 1 0 400 750 = some (s2, false))) :=
  ⟨rfl, by decide, by decide,
   C10_box_reorder_correct gsC10 1 0 400 750 rfl (by decide) (by decide)⟩

end Podofilo.Grid


namespace Podofilo.Grid

open Podofilo

lemma mem_sinsert {α : Type} (k : String) (v : α) :
    ∀ (l : List (String × α)) (e : String × α), e ∈ sinsert k v l → e = (k, v) ∨ e ∈ l := by
  intro l
  induction l with
  | nil => intro e he; simpa [sinsert] using he
  | cons hd t ih =>
    obtain ⟨k2, v2⟩ := hd
    intro e he
    by_cases hk : k2 = k
    · rw [show sinsert k v ((k2, v2) :: t) = (k, v) :: t by simp [sinsert, hk]] at he
      rcases List.mem_cons.mp he with h | h
      · exact Or.inl h
      · exact Or.inr (List.mem_cons_of_mem _ h)
    · rw [show sinsert k v ((k2, v2) :: t) = (k2, v2) :: sinsert k v t by
        simp [sinsert, hk]] at he
      rcases List.mem_cons.mp he with h | h
      · exact Or.inr (h ▸ List.mem_cons_self _ _)
      · rcases ih e h with h2 | h2
        · exact Or.inl h2
        · exact Or.inr (List.mem_cons_of_mem _ h2)

lemma dlookup_derase_ne {α : Type} (e k : Nat) (hne : e ≠ k) :
    ∀ (l : List (Nat × α)), dlookup e (derase k l) = dlookup e l := by
  intro l
  induction l with
  | nil => rfl
  | cons hd t ih =>
    obtain ⟨k2, v2⟩ := hd
    by_cases hk : k2 = k
    · subst hk
      rw [show derase k2 ((k2, v2) :: t) = t by simp [derase]]
      have hk2e : ¬(k2 = e) := fun h => hne h.symm
      simp [dlookup, hk2e]
    · rw [show derase k ((k2, v2) :: t) = (k2, v2) :: derase k t by simp [derase, hk]]
      simp only [dlookup, ih]

lemma dlookup_derase_none {α : Type} (e : Nat) :
    ∀ (l : List (Nat × α)), dlookup e l = none → dlookup e (derase k l) = none := by
  intro l
  induction l with
  | nil => intro h; exact h
  | cons hd t ih =>
    obtain ⟨k2, v2⟩ := hd
    intro h
    by_cases he : k2 = e
    · simp [dlookup, he] at h
    · simp only [dlookup, he, if_false] at h
      by_cases hk : k2 = k
      · rw [show derase k ((k2, v2) :: t) = t by simp [derase, hk]]
        exact h
      · rw [show derase k ((k2, v2) :: t) = (k2, v2) :: derase k t by simp [derase, hk]]
        simp only [dlookup, he, if_false]
        exact ih h

lemma derase_sublist {α : Type} (k : Nat) :
    ∀ (l : List (Nat × α)), List.Sublist (derase k l) l := by
  intro l
  induction l with
  | nil => exact List.Sublist.refl _
  | cons hd t ih =>
    obtain ⟨k2, v2⟩ := hd
    by_cases hk : k2 = k
    · rw [show derase k ((k2, v2) :: t) = t by simp [derase, hk]]
      exact List.sublist_cons_self _ _
    · rw [show derase k ((k2, v2) :: t) = (k2, v2) :: derase k t by simp [derase, hk]]
      exact ih.cons₂ _

lemma dlookup_derase_self {α : Type} (k : Nat) (l : List (Nat × α))
    (hnd : (l.map Prod.fst).Nodup) : dlookup k (derase k l) = none := by
  induction l with
  | nil => rfl
  | cons hd t ih =>
    obtain ⟨k2, v2⟩ := hd
    simp only [List.map_cons, List.nodup_cons] at hnd
    by_cases hk : k2 = k
    · rw [show derase k ((k2, v2) :: t) = t by simp [derase, hk]]
      subst hk
      exact dlookup_eq_none_of_keys _ _
        (fun p hp => fun he => hnd.1 (he ▸ List.mem_map_of_mem Prod.fst hp))
    · rw [show derase k ((k2, v2) :: t) = (k2, v2) :: derase k t by simp [derase, hk]]
      simp only [dlookup, hk, if_false]
      exact ih hnd.2

lemma delete_nodup (cv : Canvas) (k : Nat)
    (hnd : (cv.objs.map Prod.fst).Nodup) :
    ((cv.delete k).objs.map Prod.fst).Nodup :=
  List.Nodup.sublist (List.Sublist.map Prod.fst (derase_sublist k cv.objs)) hnd

lemma foldl_delete_preserve_none (ids : List Nat) : ∀ (cv : Canvas) (e : Nat),
    dlookup e cv.objs = none →
    dlookup e (ids.foldl (fun c i => c.delete i) cv).objs = none := by
  induction ids with
  | nil => intro cv e h; exact h
  | cons j t ih =>
    intro cv e h
    rw [List.foldl_cons]
    exact ih _ _ (dlookup_derase_none e cv.objs h)

lemma foldl_delete_preserve_nodup (ids : List Nat) : ∀ (cv : Canvas),
    (cv.objs.map Prod.fst).Nodup →
    (((ids.foldl (fun c i => c.delete i) cv).objs.map Prod.fst)).Nodup := by
  induction ids with
  | nil => intro cv h; exact h
  | cons j t ih =>
    intro cv h
    rw [List.foldl_cons]
    exact ih _ (delete_nodup cv j h)

lemma foldl_delete_lookup_none (ids : List Nat) : ∀ (cv : Canvas) (e : Nat),
    (cv.objs.map Prod.fst).Nodup → e ∈ ids →
    dlookup e (ids.foldl (fun c i => c.delete i) cv).objs = none := by
  induction ids with
  | nil => intro cv e _ he; simp at he
  | cons j t ih =>
    intro cv e hnd he
    rw [List.foldl_cons]
    rcases List.mem_cons.mp he with rfl | he2
    · exact foldl_delete_preserve_none t _ _ (dlookup_derase_self e cv.objs hnd)
    · exact ih _ _ (delete_nodup cv j hnd) he2

lemma foldl_delete_preserve_ne (ids : List Nat) : ∀ (cv : Canvas) (e : Nat),
    (∀ i ∈ ids, e ≠ i) →
    dlookup e (ids.foldl (fun c i => c.delete i) cv).objs = dlookup e cv.objs := by
  induction ids with
  | nil => intro cv e _; rfl
  | cons j t ih =>
    intro cv e h
    rw [List.foldl_cons]
    rw [ih _ _ (fun i hi => h i (List.mem_cons_of_mem _ hi))]
    exact dlookup_derase_ne e j (h j (List.mem_cons_self _ _)) cv.objs

lemma foldl_delete_next_id (ids : List Nat) : ∀ (cv : Canvas),
    (ids.foldl (fun c i => c.delete i) cv).next_id = cv.next_id := by
  induction ids with
  | nil => intro cv; rfl
  | cons j t ih =>
    intro cv
    rw [List.foldl_cons]
    exact ih _

lemma dlookup_modify_self (cv : Canvas) (b : Nat) (f : CObj → CObj) :
    dlookup b (cv.modify b f).objs = (dlookup b cv.objs).map f := by
  unfold Canvas.modify
  dsimp only
  induction cv.objs with
  | nil => rfl
  | cons hd t ih =>
    obtain ⟨k2, o2⟩ := hd
    rw [List.map_cons]
    dsimp only
    by_cases hk : k2 = b
    · rw [if_pos hk]
      simp [dlookup, hk]
    · rw [if_neg hk]
      simp only [dlookup, hk, if_false]
      exact ih

lemma dlookup_map_modify_none (id e : Nat) (f : CObj → CObj) :
    ∀ (l : List (Nat × CObj)), dlookup e l = none →
    dlookup e (l.map (fun p => if p.1 = id then (p.1, f p.2) else p)) = none := by
  intro l
  induction l with
  | nil => intro h; exact h
  | cons hd t ih =>
    obtain ⟨k2, o2⟩ := hd
    intro h
    rw [List.map_cons]
    dsimp only
    by_cases he : k2 = e
    · simp [dlookup, he] at h
    · simp only [dlookup, he, if_false] at h
      by_cases hk : k2 = id
      · rw [if_pos hk]
        simp only [dlookup, he, if_false]
        exact ih h
      · rw [if_neg hk]
        simp only [dlookup, he, if_false]
        exact ih h

lemma dlookup_modify_none (cv : Canvas) (id e : Nat) (f : CObj → CObj)
    (h : dlookup e cv.objs = none) : dlookup e (cv.modify id f).objs = none :=
  dlookup_map_modify_none id e f cv.objs h

lemma applyOverlays_lookup (l : List (OvTarget × CObj)) :
    ∀ (s : GridState) (i b : Nat) (o : CObj),
    dlookup b s.canvas.objs = some o →
    dlookup b (applyOverlays s i l).canvas.objs = some o := by
  induction l with
  | nil => intro s i b o h; exact h
  | cons hd t ih =>
    intro s i b o h
    obtain ⟨tg, oo⟩ := hd
    cases tg with
    | entry key =>
      simp only [applyOverlays]
      exact ih _ _ _ _ (dlookup_append_left _ _ _ _ h)
    | bracket =>
      simp only [applyOverlays]
      exact ih _ _ _ _ (dlookup_append_left _ _ _ _ h)

lemma applyOverlays_absent (l : List (OvTarget × CObj)) :
    ∀ (s : GridState) (i e : Nat),
    dlookup e s.canvas.objs = none → e < s.canvas.next_id →
    dlookup e (applyOverlays s i l).canvas.objs = none := by
  induction l with
  | nil => intro s i e h _; exact h
  | cons hd t ih =>
    intro s i e h hlt
    obtain ⟨tg, oo⟩ := hd
    have hstep : dlookup e (s.canvas.objs ++ [(s.canvas.next_id, oo)]) = none := by
      rw [dlookup_append_right _ _ _ h]
      have hne2 : s.canvas.next_id ≠ e := Ne.symm (Nat.ne_of_lt hlt)
      simp [dlookup, hne2]
    cases tg with
    | entry key =>
      simp only [applyOverlays]
      exact ih _ _ _ hstep (Nat.lt_succ_of_lt hlt)
    | bracket =>
      simp only [applyOverlays]
      exact ih _ _ _ hstep (Nat.lt_succ_of_lt hlt)

lemma applyOverlays_overlays_mem (l : List (OvTarget × CObj)) :
    ∀ (s : GridState) (i : Nat) (e : String × Nat),
    e ∈ ((dlookup i (applyOverlays s i l).drawn_items).getD {}).overlays →
    e ∈ ((dlookup i s.drawn_items).getD {}).overlays ∨ s.canvas.next_id ≤ e.2 := by
  induction l with
  | nil => intro s i e h; exact Or.inl h
  | cons hd t ih =>
    intro s i e h
    obtain ⟨tg, oo⟩ := hd
    cases tg with
    | entry key =>
      simp only [applyOverlays] at h
      rcases ih _ _ _ h with h2 | h2
      · -- the overlay entry of the setRecOverlay state
        rw [show (setRecOverlay (createObj s oo).2 i key (createObj s oo).1).drawn_items
            = dinsert i
                { (dlookup i s.drawn_items).getD {} with
                  overlays := sinsert key (createObj s oo).1
                    (((dlookup i s.drawn_items).getD {}).overlays) }
                s.drawn_items from rfl] at h2
        rw [dlookup_dinsert_self] at h2
        rcases mem_sinsert key _ _ e h2 with h3 | h3
        · exact Or.inr (by rw [h3]; exact Nat.le_refl _)
        · exact Or.inl h3
      · exact Or.inr (Nat.le_of_succ_le h2)
    | bracket =>
      simp only [applyOverlays] at h
      rcases ih _ _ _ h with h2 | h2
      · exact Or.inl h2
      · exact Or.inr (Nat.le_of_succ_le h2)

lemma delete_item_overlays_eq (s : GridState) (idx : Nat) (rec : ItemRec)
    (hrec : dlookup idx s.drawn_items = some rec) :
    delete_item_overlays s idx =
      { s with canvas := rec.overlays.foldl (fun cv e => cv.delete e.2) s.canvas,
               drawn_items := dinsert idx { rec with overlays := [] } s.drawn_items } := by
  unfold delete_item_overlays
  rw [hrec]

lemma draw_item_smart_reuse_page (w : GridState) (idx b : Nat) (o0 : CObj)
    (hbm : w.box_mode = false)
    (hvis : idx < w.positions.length)
    (hrec : ((dlookup idx w.drawn_items).getD {}).base = some b)
    (hobj : dlookup b w.canvas.objs = some o0)
    (hkind : o0.kind = CKind.image)
    (himg : hasImage w idx = true) :
    ((dlookup idx (draw_item_smart w idx).drawn_items).getD {}).base = some b ∧
    dlookup b (draw_item_smart w idx).canvas.objs
      = some { o0 with x := ((w.positions.getD idx (0, 0, 0, 0)).1 : Int),
                       y := ((w.positions.getD idx (0, 0, 0, 0)).2.1 : Int),
                       img := (getImage w idx).getD o0.img } ∧
    (∀ e : Nat, dlookup e w.canvas.objs = none → e < w.canvas.next_id →
      dlookup e (draw_item_smart w idx).canvas.objs = none) ∧
    (((dlookup idx w.drawn_items).getD {}).overlays = [] →
      ∀ e ∈ ((dlookup idx (draw_item_smart w idx).drawn_items).getD {}).overlays,
        w.canvas.next_id ≤ e.2) := by
  have hsome : (dlookup idx w.drawn_items).isSome = true := by
    cases hl : dlookup idx w.drawn_items with
    | none => rw [hl] at hrec; simp at hrec
    | some r => rfl
  have hpbr : pageBaseReuse w idx
      ((w.positions.getD idx (0, 0, 0, 0)).1 : Int)
      ((w.positions.getD idx (0, 0, 0, 0)).2.1 : Int)
      ((w.positions.getD idx (0, 0, 0, 0)).2.2.1 : Int)
      ((w.positions.getD idx (0, 0, 0, 0)).2.2.2 : Int)
      = ({ w with canvas := w.canvas.modify b (fun o =>
            { o with x := ((w.positions.getD idx (0, 0, 0, 0)).1 : Int),
                     y := ((w.positions.getD idx (0, 0, 0, 0)).2.1 : Int),
                     img := (getImage w idx).getD o.img }) }, some b) := by
    unfold pageBaseReuse
    dsimp only
    rw [hrec]
    dsimp only
    rw [show w.canvas.typeOf b = some CKind.image from by
      unfold Canvas.typeOf
      rw [hobj]
      simp [hkind]]
    dsimp only
    rw [if_pos himg]
    rw [if_pos rfl]
  have hdpb : drawPageBase w idx
      ((w.positions.getD idx (0, 0, 0, 0)).1 : Int)
      ((w.positions.getD idx (0, 0, 0, 0)).2.1 : Int)
      ((w.positions.getD idx (0, 0, 0, 0)).2.2.1 : Int)
      ((w.positions.getD idx (0, 0, 0, 0)).2.2.2 : Int)
      = { w with canvas := w.canvas.modify b (fun o =>
            { o with x := ((w.positions.getD idx (0, 0, 0, 0)).1 : Int),
                     y := ((w.positions.getD idx (0, 0, 0, 0)).2.1 : Int),
                     img := (getImage w idx).getD o.img }) } := by
    unfold drawPageBase
    rw [hpbr]
  unfold draw_item_smart
  rw [if_pos hvis]
  dsimp only
  rw [if_pos hsome]
  rw [if_neg (by
    intro hb
    rw [hbm] at hb
    exact Bool.false_ne_true hb)]
  rw [hdpb]
  refine ⟨?_, ?_, ?_, ?_⟩
  · rw [applyOverlays_recBase]
    exact hrec
  · refine applyOverlays_lookup _ _ _ _ _ ?_
    show dlookup b (w.canvas.modify b _).objs = _
    rw [dlookup_modify_self, hobj]
    rfl
  · intro e he hlt
    refine applyOverlays_absent _ _ _ _ ?_ ?_
    · exact dlookup_modify_none w.canvas b e _ he
    · exact hlt
  · intro hov0 e he
    rcases applyOverlays_overlays_mem _ _ _ _ he with h2 | h2
    · rw [show ((dlookup idx ({ w with canvas := w.canvas.modify b (fun o =>
          { o with x := ((w.positions.getD idx (0, 0, 0, 0)).1 : Int),
                   y := ((w.positions.getD idx (0, 0, 0, 0)).2.1 : Int),
                   img := (getImage w idx).getD o.img }) } : GridState).drawn_items).getD
          {}).overlays = ((dlookup idx w.drawn_items).getD {}).overlays from rfl,
        hov0] at h2
      simp at h2
    · exact h2

@[simp] lemma createObjs_positions (os : List CObj) (s : GridState) :
    ((createObjs s os).2).positions = s.positions :=
  createObjs_proj (fun t => t.positions) (fun _ _ => rfl) os s

@[simp] lemma createObjs_drawn (os : List CObj) (s : GridState) :
    ((createObjs s os).2).drawn_items = s.drawn_items :=
  createObjs_proj (fun t => t.drawn_items) (fun _ _ => rfl) os s

lemma createObjs_next_ge (os : List CObj) : ∀ s : GridState,
    s.canvas.next_id ≤ (createObjs s os).2.canvas.next_id := by
  induction os with
  | nil => intro s; exact Nat.le_refl _
  | cons o rest ih =>
    intro s
    exact Nat.le_trans (Nat.le_succ _) (ih ((createObj s o).2))

lemma createObjs_absent (os : List CObj) : ∀ (s : GridState) (e : Nat),
    dlookup e s.canvas.objs = none → e < s.canvas.next_id →
    dlookup e (createObjs s os).2.canvas.objs = none := by
  induction os with
  | nil => intro s e h _; exact h
  | cons o rest ih =>
    intro s e h hlt
    have h2 : dlookup e (createObj s o).2.canvas.objs = none := by
      show dlookup e (s.canvas.objs ++ [(s.canvas.next_id, o)]) = none
      rw [dlookup_append_right _ _ _ h]
      have hne2 : s.canvas.next_id ≠ e := Ne.symm (Nat.ne_of_lt hlt)
      simp [dlookup, hne2]
    show dlookup e (createObjs (createObj s o).2 rest).2.canvas.objs = none
    exact ih _ _ h2 (Nat.lt_succ_of_lt hlt)

lemma mem_dinsert_fst {α : Type} (k : Nat) (v : α) :
    ∀ (l : List (Nat × α)) (a : Nat), a ∈ (dinsert k v l).map Prod.fst →
    a = k ∨ a ∈ l.map Prod.fst := by
  intro l
  induction l with
  | nil =>
    intro a ha
    simp [dinsert] at ha
    exact Or.inl ha
  | cons hd t ih =>
    obtain ⟨k2, v2⟩ := hd
    intro a ha
    by_cases hk : k2 = k
    · rw [show dinsert k v ((k2, v2) :: t) = (k, v) :: t by simp [dinsert, hk]] at ha
      simp only [List.map_cons, List.mem_cons] at ha
      rcases ha with h | h
      · exact Or.inl h
      · exact Or.inr (by simp [h])
    · rw [show dinsert k v ((k2, v2) :: t) = (k2, v2) :: dinsert k v t by
        simp [dinsert, hk]] at ha
      simp only [List.map_cons, List.mem_cons] at ha
      rcases ha with h | h
      · exact Or.inr (by simp [h])
      · rcases ih a h with h2 | h2
        · exact Or.inl h2
        · exact Or.inr (by simp [h2])

lemma dinsert_keys_nodup {α : Type} (k : Nat) (v : α) :
    ∀ (l : List (Nat × α)), (l.map Prod.fst).Nodup →
    ((dinsert k v l).map Prod.fst).Nodup := by
  intro l
  induction l with
  | nil => intro h; simp [dinsert]
  | cons hd t ih =>
    obtain ⟨k2, v2⟩ := hd
    intro hnd
    simp only [List.map_cons, List.nodup_cons] at hnd
    by_cases hk : k2 = k
    · rw [show dinsert k v ((k2, v2) :: t) = (k, v) :: t by simp [dinsert, hk]]
      simp only [List.map_cons, List.nodup_cons]
      exact ⟨hk ▸ hnd.1, hnd.2⟩
    · rw [show dinsert k v ((k2, v2) :: t) = (k2, v2) :: dinsert k v t by
        simp [dinsert, hk]]
      simp only [List.map_cons, List.nodup_cons]
      refine ⟨?_, ih hnd.2⟩
      intro hmem
      rcases mem_dinsert_fst k v t k2 hmem with h | h
      · exact hk h
      · exact hnd.1 h

@[simp] lemma draw_box_base_positions2 (s : GridState) (i : Nat) :
    (draw_box_base s i).positions = s.positions := by
  unfold draw_box_base
  repeat' split
  all_goals simp

/-- `_draw_box_base` on an item whose tracking record was just dropped:
the fresh base is the first object created, so its id is exactly the
current `next_id`; the stored record carries no overlays; object counters
only grow, and absent low ids stay absent. -/
lemma draw_box_base_fresh (w : GridState) (idx : Nat) (box : Box)
    (hvis : idx < w.positions.length)
    (hbox : w.document_boxes.get? idx = some box)
    (hrecn : dlookup idx w.drawn_items = none) :
    ((dlookup idx (draw_box_base w idx).drawn_items).getD {}).base
      = some w.canvas.next_id ∧
    ((dlookup idx (draw_box_base w idx).drawn_items).getD ({} : ItemRec)).overlays = [] ∧
    w.canvas.next_id ≤ (draw_box_base w idx).canvas.next_id ∧
    (∀ e : Nat, dlookup e w.canvas.objs = none → e < w.canvas.next_id →
      dlookup e (draw_box_base w idx).canvas.objs = none) := by
  unfold draw_box_base
  rw [if_pos hvis, hbox]
  dsimp only
  split
  · refine ⟨?_, ?_, ?_, ?_⟩
    · rw [dlookup_dinsert_self]
      rfl
    · rw [dlookup_dinsert_self]
      simp only [Option.getD_some, createObjs_drawn, hrecn, Option.getD_none]
    · exact createObjs_next_ge _
        ({ w with box_images := dinsert idx (box.thumbnail.getD 0) w.box_images } : GridState)
    · intro e he hlt
      exact createObjs_absent _
        ({ w with box_images := dinsert idx (box.thumbnail.getD 0) w.box_images } : GridState)
        e he hlt
  · refine ⟨?_, ?_, ?_, ?_⟩
    · rw [dlookup_dinsert_self]
      rfl
    · rw [dlookup_dinsert_self]
      simp only [Option.getD_some, createObjs_drawn, hrecn, Option.getD_none]
    · exact createObjs_next_ge _ w
    · intro e he hlt
      exact createObjs_absent _ w e he hlt

/-- Box-mode `_draw_item_smart` on a record whose `_box_state` is unset —
the only shape the program produces, since the `_box_state` write lands in
the stale dict: the recreate branch runs, the old base object is destroyed,
and the new base is a fresh id (`next_id`), never the old handle. -/
lemma draw_item_smart_recreate_box (w : GridState) (idx b : Nat) (r : ItemRec) (box : Box)
    (hbm : w.box_mode = true)
    (hvis : idx < w.positions.length)
    (hbox : w.document_boxes.get? idx = some box)
    (hrec : dlookup idx w.drawn_items = some r)
    (hbase : r.base = some b)
    (hst : r.box_state = none)
    (hove : r.overlays = [])
    (hwfn : (w.canvas.objs.map Prod.fst).Nodup)
    (hdnd : (w.drawn_items.map Prod.fst).Nodup)
    (hblt : b < w.canvas.next_id) :
    ((dlookup idx (draw_item_smart w idx).drawn_items).getD {}).base
      = some w.canvas.next_id ∧
    dlookup b (draw_item_smart w idx).canvas.objs = none ∧
    (∀ e : Nat, dlookup e w.canvas.objs = none → e < w.canvas.next_id →
      dlookup e (draw_item_smart w idx).canvas.objs = none) ∧
    (∀ e ∈ ((dlookup idx (draw_item_smart w idx).drawn_items).getD {}).overlays,
      w.canvas.next_id ≤ e.2) := by
  have hsome : (dlookup idx w.drawn_items).isSome = true := by rw [hrec]; rfl
  have hcond : ((dlookup idx w.drawn_items).getD ({} : ItemRec)).base = none ∨
      ((dlookup idx w.drawn_items).getD ({} : ItemRec)).box_state
        ≠ some (boxToken box) := by
    right
    rw [hrec]
    show r.box_state ≠ some (boxToken box)
    rw [hst]
    simp
  have hdel : delete_item_objects w idx
      = { w with canvas := (r.base_ids.foldl (fun cv id => cv.delete id) w.canvas).delete b,
                 drawn_items := derase idx w.drawn_items } := by
    unfold delete_item_objects
    rw [hrec]
    dsimp only
    rw [hbase, hove]
    dsimp only
    rfl
  have hgone : dlookup b ((r.base_ids.foldl (fun cv id => cv.delete id) w.canvas).delete b).objs
      = none :=
    dlookup_derase_self b _ (foldl_delete_preserve_nodup r.base_ids w.canvas hwfn)
  have hnx : ((r.base_ids.foldl (fun cv id => cv.delete id) w.canvas).delete b).next_id
      = w.canvas.next_id := by
    show (r.base_ids.foldl (fun cv id => cv.delete id) w.canvas).next_id = w.canvas.next_id
    exact foldl_delete_next_id _ _
  have habs : ∀ e : Nat, dlookup e w.canvas.objs = none →
      dlookup e ((r.base_ids.foldl (fun cv id => cv.delete id) w.canvas).delete b).objs
        = none := by
    intro e he
    show dlookup e (derase b (r.base_ids.foldl (fun cv id => cv.delete id) w.canvas).objs)
      = none
    exact dlookup_derase_none e _ (foldl_delete_preserve_none r.base_ids w.canvas e he)
  have hrn : dlookup idx (derase idx w.drawn_items) = none :=
    dlookup_derase_self idx w.drawn_items hdnd
  unfold draw_item_smart
  rw [if_pos hvis]
  dsimp only
  rw [if_pos hsome]
  rw [if_pos hbm]
  rw [hbox]
  dsimp only
  rw [if_pos hcond]
  rw [hdel]
  set W1 : GridState :=
    { w with canvas := (r.base_ids.foldl (fun cv id => cv.delete id) w.canvas).delete b,
             drawn_items := derase idx w.drawn_items } with hW1def
  obtain ⟨hB1, hB2, hB3, hB4⟩ := draw_box_base_fresh W1 idx box hvis hbox hrn
  unfold draw_box_overlays
  rw [if_pos (show idx < (draw_box_base W1 idx).positions.length from by
    rw [draw_box_base_positions2]
    exact hvis)]
  dsimp only
  have hsome2 : (dlookup idx (draw_box_base W1 idx).drawn_items).isSome = true := by
    have hB1c := hB1
    cases hl : dlookup idx (draw_box_base W1 idx).drawn_items with
    | none =>
      rw [hl] at hB1c
      simp at hB1c
    | some r2 => rfl
  rw [if_pos hsome2]
  refine ⟨?_, ?_, ?_, ?_⟩
  · rw [applyOverlays_recBase]
    rw [hB1]
    exact congrArg some hnx
  · refine applyOverlays_absent _ _ _ _ ?_ ?_
    · exact hB4 b hgone (hnx.symm ▸ hblt)
    · exact lt_of_lt_of_le (hnx.symm ▸ hblt) hB3
  · intro e he hlt
    refine applyOverlays_absent _ _ _ _ ?_ ?_
    · exact hB4 e (habs e he) (hnx.symm ▸ hlt)
    · exact lt_of_lt_of_le (hnx.symm ▸ hlt) hB3
  · intro e he
    rcases applyOverlays_overlays_mem _ _ _ _ he with h2 | h2
    · rw [hB2] at h2
      simp at h2
    · exact le_trans (le_of_eq hnx.symm) (le_trans hB3 h2)

/-- The box of the C2 states. -/
def boxC2 : Box :=
  { name := "x", state := BoxState.loaded, pages := 1, thumbnail := none, progress := 0 }

/-- A blank box-mode state holding the single box `boxC2`, not yet drawn. -/
def wBoxStart : GridState :=
  { gsEmpty with box_mode := true,
                 document_boxes := [boxC2],
                 positions := [(0, 0, 106, 150)],
                 item_count := 1 }

/-- **C2 counterexample**: two consecutive box-mode draw cycles of the same
unchanged box.  The first cycle stores base id 1; the second cycle — with
`document_boxes` untouched, so the `(state, progress)` token is identical —
stores base id 4 and object 1 is gone from the canvas: the base surface
handle is NOT the identical object across cycles, because the source
writes `_box_state` into a stale dict (the `item_data` bound before
`_delete_item_objects` deletes and `_draw_box_base` replaces the record),
so the recorded token never matches and the base is fully recreated every
cycle. -/
theorem C2_box_base_recreated_counterexample :
    (draw_item_smart wBoxStart 0).document_boxes = wBoxStart.document_boxes ∧
    ((dlookup 0 (draw_item_smart wBoxStart 0).drawn_items).getD {}).base = some 1 ∧
    ((dlookup 0 (draw_item_smart (delete_item_overlays
        (draw_item_smart wBoxStart 0) 0) 0).drawn_items).getD {}).base = some 4 ∧
    ¬((dlookup 0 (draw_item_smart (delete_item_overlays
        (draw_item_smart wBoxStart 0) 0) 0).drawn_items).getD {}).base = some 1 ∧
    dlookup 1 (draw_item_smart (delete_item_overlays
        (draw_item_smart wBoxStart 0) 0) 0).canvas.objs = none := by
  refine ⟨?_, ?_, ?_, ?_, ?_⟩ <;> decide

/-- **C2 amended**: smart-redraw base handling at the per-item step of the
second of two consecutive redraw cycles (`redraw` first destroys every
remaining overlay via `_delete_item_overlays`, then calls
`_draw_item_smart` for each visible item).  Page mode behaves as the spec
says: with the cached raster still present the base canvas object keeps the
identical id and is only moved to the item's position (its raster binding
refreshed in place).  Box mode does not: the `_box_state` token is written
into a stale dict and never retained, so on every cycle — the recorded
token being unset — the old base object is destroyed and the base is
recreated under a fresh id.  In both modes every overlay handle of the
previous cycle is destroyed and every overlay handle of the new cycle is a
freshly created id. -/
theorem C2_smart_redraw_base_reuse_amended (s : GridState) (idx b : Nat) (rec : ItemRec)
    (hrec : dlookup idx s.drawn_items = some rec)
    (hbase : rec.base = some b)
    (hvis : idx < s.positions.length)
    (hwfn : (s.canvas.objs.map Prod.fst).Nodup)
    (hov : ∀ e ∈ rec.overlays, e.2 < s.canvas.next_id)
    (hdisj : ∀ e ∈ rec.overlays, e.2 ≠ b) :
    (s.box_mode = false →
     s.canvas.typeOf b = some CKind.image →
     hasImage s idx = true →
     ((dlookup idx (draw_item_smart (delete_item_overlays s idx) idx).drawn_items).getD
        {}).base = some b ∧
     (∃ o, dlookup b (draw_item_smart (delete_item_overlays s idx) idx).canvas.objs
            = some o ∧
        o.kind = CKind.image ∧
        o.x = ((s.positions.getD idx (0, 0, 0, 0)).1 : Int) ∧
        o.y = ((s.positions.getD idx (0, 0, 0, 0)).2.1 : Int)) ∧
     (∀ e ∈ rec.overlays,
        dlookup e.2 (draw_item_smart (delete_item_overlays s idx) idx).canvas.objs = none) ∧
     (∀ e ∈ ((dlookup idx (draw_item_smart (delete_item_overlays s idx) idx).drawn_items).getD
          {}).overlays,
        s.canvas.next_id ≤ e.2)) ∧
    (s.box_mode = true →
     b < s.canvas.next_id →
     (s.drawn_items.map Prod.fst).Nodup →
     rec.box_state = none →
     ∀ box, s.document_boxes.get? idx = some box →
     ((dlookup idx (draw_item_smart (delete_item_overlays s idx) idx).drawn_items).getD
        {}).base = some s.canvas.next_id ∧
     s.canvas.next_id ≠ b ∧
     dlookup b (draw_item_smart (delete_item_overlays s idx) idx).canvas.objs = none ∧
     (∀ e ∈ rec.overlays,
        dlookup e.2 (draw_item_smart (delete_item_overlays s idx) idx).canvas.objs = none) ∧
     (∀ e ∈ ((dlookup idx (draw_item_smart (delete_item_overlays s idx) idx).drawn_items).getD
          {}).overlays,
        s.canvas.next_id ≤ e.2)) := by
  rw [delete_item_overlays_eq s idx rec hrec]
  have hfold : (rec.overlays.foldl (fun cv e => cv.delete e.2) s.canvas)
      = ((rec.overlays.map Prod.snd).foldl (fun cv i => cv.delete i) s.canvas) := by
    rw [List.foldl_map]
  have hD1 : ∀ e ∈ rec.overlays,
      dlookup e.2 (rec.overlays.foldl (fun cv e => cv.delete e.2) s.canvas).objs = none := by
    intro e he
    rw [hfold]
    exact foldl_delete_lookup_none _ _ _ hwfn (List.mem_map_of_mem Prod.snd he)
  have hD2 : dlookup b (rec.overlays.foldl (fun cv e => cv.delete e.2) s.canvas).objs
      = dlookup b s.canvas.objs := by
    rw [hfold]
    refine foldl_delete_preserve_ne _ _ _ ?_
    intro i hi
    rcases List.mem_map.mp hi with ⟨e, he, rfl⟩
    exact fun h => (hdisj e he) h.symm
  have hnext : (rec.overlays.foldl (fun cv e => cv.delete e.2) s.canvas).next_id
      = s.canvas.next_id := by
    rw [hfold]
    exact foldl_delete_next_id _ _
  have hrec0 : ((dlookup idx (dinsert idx { rec with overlays := [] }
      s.drawn_items)).getD {}).base = some b := by
    rw [dlookup_dinsert_self]
    exact hbase
  have hov0 : ((dlookup idx (dinsert idx { rec with overlays := [] }
      s.drawn_items)).getD ({} : ItemRec)).overlays = [] := by
    rw [dlookup_dinsert_self]
    rfl
  constructor
  · intro hbm htype himg
    obtain ⟨o0, ho0, hk0⟩ : ∃ o0, dlookup b s.canvas.objs = some o0 ∧
        o0.kind = CKind.image := by
      unfold Canvas.typeOf at htype
      cases hl : dlookup b s.canvas.objs with
      | none =>
        rw [hl] at htype
        simp at htype
      | some o =>
        rw [hl] at htype
        simp only [Option.map_some'] at htype
        exact ⟨o, rfl, Option.some.inj htype⟩
    obtain ⟨hA, hB, hC, hD⟩ := draw_item_smart_reuse_page
      ({ s with canvas := rec.overlays.foldl (fun cv e => cv.delete e.2) s.canvas,
                drawn_items := dinsert idx { rec with overlays := [] } s.drawn_items }
        : GridState)
      idx b o0 hbm hvis hrec0 (hD2.trans ho0) hk0 himg
    refine ⟨hA, ⟨_, hB, hk0, rfl, rfl⟩, ?_, ?_⟩
    · intro e he
      exact hC e.2 (hD1 e he) (hnext.symm ▸ hov e he)
    · intro e he
      exact le_trans (le_of_eq hnext.symm) (hD hov0 e he)
  · intro hbm hblt hdnd hstN box hbox
    have hst0 : (({ rec with overlays := [] } : ItemRec)).box_state = none := hstN
    obtain ⟨hA, hB, hC, hD⟩ := draw_item_smart_recreate_box
      ({ s with canvas := rec.overlays.foldl (fun cv e => cv.delete e.2) s.canvas,
                drawn_items := dinsert idx { rec with overlays := [] } s.drawn_items }
        : GridState)
      idx b ({ rec with overlays := [] } : ItemRec) box
      hbm hvis hbox
      (dlookup_dinsert_self idx ({ rec with overlays := [] } : ItemRec) s.drawn_items)
      hbase hst0 rfl
      (by
        show ((rec.overlays.foldl (fun cv e => cv.delete e.2) s.canvas).objs.map
          Prod.fst).Nodup
        rw [hfold]
        exact foldl_delete_preserve_nodup _ _ hwfn)
      (dinsert_keys_nodup idx ({ rec with overlays := [] } : ItemRec) s.drawn_items hdnd)
      (hnext.symm ▸ hblt)
    refine ⟨hA.trans (congrArg some hnext), Ne.symm (Nat.ne_of_lt hblt), hB, ?_, ?_⟩
    · intro e he
      exact hC e.2 (hD1 e he) (hnext.symm ▸ hov e he)
    · intro e he
      exact le_trans (le_of_eq hnext.symm) (hD e he)

/-- The drawn record of the C2 page-mode witness state: base object 1 with
one selection overlay, object 2. -/
def recC2P : ItemRec :=
  { base := some 1, base_ids := [], box_state := none,
    overlays := [("selection", 2)] }

/-- Page-mode witness state for C2: item 0 cached at the current level,
its base drawn as image object 1, one overlay object 2. -/
def wPageC2 : GridState :=
  { gsEmpty with
      canvas := { next_id := 3,
                  objs := [(1, { kind := CKind.image, x := 5, y := 5, img := 42 }),
                           (2, { kind := CKind.rectangle })] },
      images_cache := [(150, [(0, 42)])],
      drawn_items := [(0, recC2P)],
      positions := [(0, 0, 106, 150)],
      item_count := 1 }

/-- The drawn record of the C2 box-mode witness state: the shape the
program leaves behind — `_box_state` unset. -/
def recC2B : ItemRec :=
  { base := some 1, base_ids := [1], box_state := none,
    overlays := [("selection", 2)] }

/-- Box-mode witness state for C2: box 0 drawn with base object 1 and one
overlay object 2. -/
def wBoxC2 : GridState :=
  { gsEmpty with
      box_mode := true,
      document_boxes := [boxC2],
      canvas := { next_id := 3,
                  objs := [(1, { kind := CKind.rectangle }),
                           (2, { kind := CKind.rectangle })] },
      drawn_items := [(0, recC2B)],
      positions := [(0, 0, 106, 150)],
      item_count := 1 }

/-- Concrete runs of the amended C2 step: page-mode reuse of base 1, and
box-mode recreation under the fresh id 3 with the old base 1 destroyed. -/
theorem C2_smart_redraw_base_reuse_amended_witness :
    dlookup 0 wPageC2.drawn_items = some recC2P ∧
    recC2P.base = some 1 ∧
    (wPageC2.canvas.objs.map Prod.fst).Nodup ∧
    wPageC2.canvas.typeOf 1 = some CKind.image ∧
    hasImage wPageC2 0 = true ∧
    (((dlookup 0 (draw_item_smart (delete_item_overlays wPageC2 0) 0).drawn_items).getD
        {}).base = some 1 ∧
     (∃ o, dlookup 1 (draw_item_smart (delete_item_overlays wPageC2 0) 0).canvas.objs
            = some o ∧
        o.kind = CKind.image ∧
        o.x = ((wPageC2.positions.getD 0 (0, 0, 0, 0)).1 : Int) ∧
        o.y = ((wPageC2.positions.getD 0 (0, 0, 0, 0)).2.1 : Int)) ∧
     (∀ e ∈ recC2P.overlays,
        dlookup e.2 (draw_item_smart (delete_item_overlays wPageC2 0) 0).canvas.objs
          = none) ∧
     (∀ e ∈ ((dlookup 0 (draw_item_smart (delete_item_overlays wPageC2 0) 0).drawn_items).getD
          {}).overlays,
        wPageC2.canvas.next_id ≤ e.2)) ∧
    dlookup 0 wBoxC2.drawn_items = some recC2B ∧
    recC2B.box_state = none ∧
    1 < wBoxC2.canvas.next_id ∧
    (((dlookup 0 (draw_item_smart (delete_item_overlays wBoxC2 0) 0).drawn_items).getD
        {}).base = some wBoxC2.canvas.next_id ∧
     wBoxC2.canvas.next_id ≠ 1 ∧
     dlookup 1 (draw_item_smart (delete_item_overlays wBoxC2 0) 0).canvas.objs = none ∧
     (∀ e ∈ recC2B.overlays,
        dlookup e.2 (draw_item_smart (delete_item_overlays wBoxC2 0) 0).canvas.objs
          = none) ∧
     (∀ e ∈ ((dlookup 0 (draw_item_smart (delete_item_overlays wBoxC2 0) 0).drawn_items).getD
          {}).overlays,
        wBoxC2.canvas.next_id ≤ e.2)) :=
  ⟨rfl, rfl, by decide, rfl, rfl,
   (C2_smart_redraw_base_reuse_amended wPageC2 0 1 recC2P rfl rfl (by decide) (by decide)
      (by decide) (by decide)).1 rfl rfl rfl,
   rfl, rfl, by decide,
   (C2_smart_redraw_base_reuse_amended wBoxC2 0 1 recC2B rfl rfl (by decide) (by decide)
      (by decide) (by decide)).2 rfl (by decide) (by decide) rfl boxC2 rfl⟩

end Podofilo.Grid


namespace Podofilo.Click

open Podofilo.Grid

/-- The selection-level state read and written by the click handlers:
`VirtualGrid._on_click` / `_on_release` (`src/ui/virtual_grid.py`) and the
host callback `MainWindow._on_thumbnail_click` (`src/ui/main_window.py`,
wired as `self.grid.on_click` at line 489).  `status` is the main window's
status bar text. -/
structure ClickSt where
  selected_indices : Finset Nat
  pending_click_index : Option Nat
  drag_active : Bool
  box_mode : Bool
  cut_mode : Bool
  hover_gap : Option Nat
  hover_index : Int
  hover_side : Option Side
  bracket_start : Option Nat
  status : String
deriving DecidableEq

/-- `MainWindow._on_thumbnail_click` (`src/ui/main_window.py:2128-2145`):
in page mode it only updates the status line; it never touches
`grid.selected_indices`.  (The box-mode branch retries a FAILED box or
shows the box name in the status line — it does not touch the selection
either; the retry side effects are outside this model.) -/
def on_thumbnail_click (s : ClickSt) (index : Int) : ClickSt :=
  if index = -1 then s
  else if s.box_mode then s
  else { s with status := "Pagina " ++ toString (index + 1) ++ " seleccionada" }

/-- `VirtualGrid._on_click` (`src/ui/virtual_grid.py:2181-2268`) for a
press that resolves to item `index` (`get_item_at`; the continuous-mode
header hit test and the pixel-level box-rename hit test are abstracted:
`box_rename_hit` stands for `box_mode` and a click in the bottom 40 px
name area, whose rename callback is outside the model). -/
def on_click_at (s : ClickSt) (index : Int) (box_rename_hit : Bool) : ClickSt :=
  let s := { s with drag_active := false }
  if s.cut_mode ∧ s.hover_gap ≠ none then s
  else if index ≠ -1 then
    if ¬s.cut_mode ∧ s.hover_index = index ∧ s.hover_side ≠ none then
      match s.bracket_start with
      | none =>
        { s with bracket_start := some index.toNat,
                 selected_indices := {index.toNat} }
      | some bs =>
        { s with selected_indices :=
                   Finset.Icc (min bs index.toNat) (max bs index.toNat),
                 bracket_start := none }
    else if s.box_mode ∧ box_rename_hit then s
    else if index.toNat ∈ s.selected_indices then
      { s with pending_click_index := some index.toNat }
    else
      on_thumbnail_click
        { s with bracket_start := none, selected_indices := {index.toNat} } index
  else s

/-- `VirtualGrid._on_release` (`src/ui/virtual_grid.py:2413-2459`): after a
drag the drop is handled (`on_drag_end`, outside the model) and the pending
click is NOT resolved; otherwise a pending click is resolved by invoking
the host `on_click` callback and clearing the pending fields. -/
def on_release (s : ClickSt) : ClickSt :=
  if s.drag_active then
    { s with drag_active := false }
  else
    match s.pending_click_index with
    | some i =>
      let s2 := on_thumbnail_click s (i : Int)
      { s2 with pending_click_index := none }
    | none => s

/-- Page-mode state in which items 0 and 1 are selected and item 0 is
pressed and released without any drag. -/
def csC7 : ClickSt :=
  { selected_indices := {0, 1},
    pending_click_index := none,
    drag_active := false,
    box_mode := false,
    cut_mode := false,
    hover_gap := none,
    hover_index := -1,
    hover_side := none,
    bracket_start := none,
    status := "" }

/-- **C7 counterexample**: pressing an already-selected item (0, with
{0, 1} selected) records a pending click without changing the selection,
and the release without drag clears the pending entry but leaves the
selection as {0, 1} — it does NOT become the single item {0}, refuting the
claimed plain-select resolution. -/
theorem C7_pending_click_counterexample :
    (on_click_at csC7 0 false).selected_indices = {0, 1} ∧
    (on_click_at csC7 0 false).pending_click_index = some 0 ∧
    (on_release (on_click_at csC7 0 false)).pending_click_index = none ∧
    (on_release (on_click_at csC7 0 false)).selected_indices = {0, 1} ∧
    ¬(on_release (on_click_at csC7 0 false)).selected_indices = {0} := by
  refine ⟨by decide, by decide, by decide, by decide, by decide⟩

/-- **C7 amended**: a plain click on an already-selected item changes no
selection at press time and is recorded as a pending click; if the pointer
is released without a drag having started, the pending click is resolved by
invoking the host click callback — which in page mode only updates the
status line — and the selection is left unchanged (it does not collapse to
the single clicked item). -/
theorem C7_pending_click_amended (s : ClickSt) (i : Nat)
    (hbm : s.box_mode = false)
    (hcut : s.cut_mode = false)
    (hnb : ¬(s.hover_index = (i : Int)) ∨ s.hover_side = none)
    (hsel : i ∈ s.selected_indices) :
    (on_click_at s (i : Int) false).selected_indices = s.selected_indices ∧
    (on_click_at s (i : Int) false).pending_click_index = some i ∧
    (on_click_at s (i : Int) false).drag_active = false ∧
    (on_release (on_click_at s (i : Int) false)).selected_indices
      = s.selected_indices ∧
    (on_release (on_click_at s (i : Int) false)).pending_click_index = none ∧
    (on_release (on_click_at s (i : Int) false)).status
      = "Pagina " ++ toString ((i : Int) + 1) ++ " seleccionada" := by
  have hne1 : ¬((i : Int) = -1) := by omega
  have ht : on_click_at s (i : Int) false
      = { s with drag_active := false, pending_click_index := some i } := by
    unfold on_click_at
    dsimp only
    rw [if_neg (by
      rintro ⟨hc, -⟩
      rw [hcut] at hc
      exact Bool.false_ne_true hc)]
    rw [if_pos hne1]
    rw [if_neg (by
      rintro ⟨-, h2, h3⟩
      rcases hnb with h | h
      · exact h h2
      · exact h3 h)]
    rw [if_neg (by
      rintro ⟨-, hb⟩
      exact Bool.false_ne_true hb)]
    rw [if_pos (show ((i : Int)).toNat ∈ s.selected_indices by
      rw [Int.toNat_natCast]
      exact hsel)]
    rw [Int.toNat_natCast]
  rw [ht]
  refine ⟨rfl, rfl, rfl, ?_, ?_, ?_⟩
  all_goals simp [on_release, on_thumbnail_click, hbm, hne1]

/-- Concrete run of the amended C7 behaviour on `csC7`. -/
theorem C7_pending_click_amended_witness :
    csC7.box_mode = false ∧ csC7.cut_mode = false ∧
    (¬(csC7.hover_index = ((0 : Nat) : Int)) ∨ csC7.hover_side = none) ∧
    0 ∈ csC7.selected_indices ∧
    ((on_click_at csC7 ((0 : Nat) : Int) false).selected_indices = csC7.selected_indices ∧
     (on_click_at csC7 ((0 : Nat) : Int) false).pending_click_index = some 0 ∧
     (on_click_at csC7 ((0 : Nat) : Int) false).drag_active = false ∧
     (on_release (on_click_at csC7 ((0 : Nat) : Int) false)).selected_indices
       = csC7.selected_indices ∧
     (on_release (on_click_at csC7 ((0 : Nat) : Int) false)).pending_click_index = none ∧
     (on_release (on_click_at csC7 ((0 : Nat) : Int) false)).status
       = "Pagina " ++ toString (((0 : Nat) : Int) + 1) ++ " seleccionada") :=
  ⟨rfl, rfl, Or.inr rfl, by decide,
   C7_pending_click_amended csC7 0 rfl rfl (Or.inr rfl) (by decide)⟩

end Podofilo.Click
